import Mathlib

/-!
# manbearpig: a shallow embedding of the push dispatcher

The Go package `manbearpig` routes push notifications to three provider
adapters (APNS, GCM, C2DM) and reschedules jobs whose status asks for a retry.
This file embeds the data carriers (`Notification`, `PushStatus`), the three
`Push` methods, and the `Work` / `ReSend` retry chain as Lean functions, and
proves properties of them.

Conventions of the embedding.

* A Go `string` is a Lean `String`; `len(s)` is the UTF-8 byte size.
* A Go `error` value is carried by its message (the text `Error()` returns).
  `fmt.Errorf` with a constant text without verbs yields that text, and
  `fmt.Errorf("%s", x)` yields `x`.
* A Go `map[string]T` is `GoMap T`: either `nil`, or made, holding its entries
  with distinct keys in insertion order.
* Go `int` is `Int`, wrapped or saturated at 64 bits where the code or a
  library function can leave that range; `uint8`, `uint16` and `uint32` are
  `Nat` reduced modulo `2^8`, `2^16`, `2^32` where the code converts.
* Everything the network, the clock or a subprocess answers is an explicit
  argument (a "world" record); logging is not modelled.
-/

namespace Manbearpig

/-! ## Go maps with string keys -/

/-- A Go `map[string]α`: the nil map, or a made map with its entries. -/
inductive GoMap (α : Type) where
  | nil : GoMap α
  | made (entries : List (String × α)) : GoMap α
deriving DecidableEq, Repr

namespace GoMap

variable {α : Type}

/-- The entries of a map; a nil map has none. -/
def entries : GoMap α → List (String × α)
  | nil => []
  | made es => es

/-- Go `len(m)`; `len` of a nil map is 0. -/
def len (m : GoMap α) : Nat := m.entries.length

/-- Go `v, ok := m[k]` as an option. -/
def get? (m : GoMap α) (k : String) : Option α := m.entries.lookup k

/-- Assignment on an entry list: replace the value of an existing key, or
append a new entry. -/
def setEntries : List (String × α) → String → α → List (String × α)
  | [], k, v => [(k, v)]
  | (k', v') :: es, k, v =>
    if k' = k then (k, v) :: es else (k', v') :: setEntries es k v

/-- Go `m[k] = v` on a map that may be nil: the statement panics on a nil map
(`none`, "assignment to entry in nil map") and stores the entry in a made
one. -/
def assign : GoMap α → String → α → Option (GoMap α)
  | nil, _, _ => none
  | made es, k, v => some (made (setEntries es k v))

/-- The map after `m[k] = v` where `m` is a made map: the maps of a status
(made by `NewPushStatus`, see `NewPushStatus_made` and `set_made`), and a pool
map in which the key was found or to which `assign` stored it.  Where the map
can be nil (the `Pool` of an adapter) the embedding uses `assign`. -/
def set (m : GoMap α) (k : String) (v : α) : GoMap α :=
  made (setEntries m.entries k v)

end GoMap

/-! ## Data carriers (`notification.go`, `push.go`) -/

/-- A value of Go type `interface{}` inside a payload: the code only asks
whether it is a string. -/
inductive GoValue where
  | str (s : String) : GoValue
  | other (json : String) : GoValue
deriving DecidableEq, Repr

/-- The Go struct `PushStatus`.  Its `Notification *Notification` back-pointer
is never read by the package and is not carried; the job travels next to the
status wherever the code uses both. -/
structure PushStatus where
  Retry : Bool
  Delay : Int
  Successes : Int
  Errors : GoMap String
  Updates : GoMap String
  Auth : String
deriving DecidableEq, Repr

/-- The Go struct `Notification`.  `Expiry` is a `uint32`, `CreatedAt` is the
Unix time of the timestamp, `Status` is the `*PushStatus` pointer. -/
structure Notification where
  AppName : String
  Provider : String
  DeviceTokens : List String
  Payload : GoMap GoValue
  Expiry : Nat
  ExtraData : GoMap GoValue
  Guid : String
  CreatedAt : Nat
  Status : Option PushStatus
  Retries : Int
deriving DecidableEq, Repr

/-- Go `NewPushStatus(notification)`: the two maps are made and empty, `Auth`
is left at its zero value. -/
def NewPushStatus : PushStatus :=
  { Retry := false, Delay := 0, Successes := 0,
    Errors := GoMap.made [], Updates := GoMap.made [], Auth := "" }

/-- Go `(*PushStatus).Ok`. -/
def PushStatus.Ok (p : PushStatus) : Bool :=
  if p.Errors.len = 0 then true else false

/-! ## Library functions shared by the adapters -/

/-- Go `[]byte(s)`: the UTF-8 bytes of a string. -/
def bytesOf (s : String) : List Nat :=
  s.toList.flatMap fun c => (String.utf8EncodeChar c).map UInt8.toNat

/-- The value of a decimal digit character. -/
def digitVal (c : Char) : Option Nat :=
  if 48 ≤ c.toNat ∧ c.toNat ≤ 57 then some (c.toNat - 48) else none

/-- How `strconv.ParseUint` ends on a decimal numeral. -/
inductive ParseResult where
  | value (n : Nat) : ParseResult
  | syntaxError : ParseResult
  | rangeError : ParseResult
deriving DecidableEq, Repr

/-- The loop of `strconv.ParseUint(s, 10, 64)` from the left, `n` being the
number read so far: a character that is not a decimal digit ends it with a
syntax error, a number that leaves 64 bits ends it with a range error. -/
def parseUint : List Char → Nat → ParseResult
  | [], n => ParseResult.value n
  | c :: cs, n =>
    match digitVal c with
    | none => ParseResult.syntaxError
    | some d =>
      if n ≥ 1844674407370955162 then ParseResult.rangeError
      else if n * 10 + d > 18446744073709551615 then ParseResult.rangeError
      else parseUint cs (n * 10 + d)

/-- Split an optional leading sign off a numeral. -/
def splitSign : List Char → Bool × List Char
  | '-' :: r => (true, r)
  | '+' :: r => (false, r)
  | r => (false, r)

/-- The value Go `strconv.Atoi(s)` returns next to its error (which every call
site discards), for a 64-bit `int`: 0 on a syntax error (empty text, no digit
after the sign, a character that is not a digit), the nearest bound of `int`
when the numeral is out of range, the number otherwise. -/
def Atoi (s : String) : Int :=
  let sd := splitSign s.toList
  match sd.2 with
  | [] => 0
  | ds =>
    match parseUint ds 0 with
    | ParseResult.syntaxError => 0
    | ParseResult.rangeError =>
      if sd.1 then -(9223372036854775808 : Int) else (9223372036854775807 : Int)
    | ParseResult.value n =>
      if sd.1 then (if n > 9223372036854775808 then -(9223372036854775808 : Int) else -(n : Int))
      else (if n ≥ 9223372036854775808 then (9223372036854775807 : Int) else (n : Int))

/-- An outgoing `*http.Request` as the adapters build it. -/
structure HTTPRequest where
  Method : String
  URL : String
  Authorization : String
  ContentType : String
  Body : String
deriving DecidableEq, Repr

/-- What the adapters read of an `*http.Response`: the status code, the value
of `Header.Get("Retry-After")` (empty when the header is absent) and the result
of `ioutil.ReadAll(resp.Body)`. -/
structure HTTPResponse where
  StatusCode : Int
  RetryAfter : String
  Body : Except String String

/-- How a call of `Push` ends: it returns a status, it panics, or it blocks
forever on a lock or an empty channel. -/
inductive Outcome where
  | returned (ps : PushStatus) : Outcome
  | panicked (msg : String) : Outcome
  | blocked (lock : String) : Outcome
deriving DecidableEq, Repr

/-! ## GCM adapter (`gcm.go`) -/

/-- The Go struct `GCMMessage`. -/
structure GCMMessage where
  RegistrationIDs : List String
  CollapseKey : String
  Data : GoMap GoValue
  DelayWhileIdle : Bool
  TimeToLive : Nat
  DryRun : Bool
deriving DecidableEq, Repr

/-- One element of `GCMResponse.Results`. -/
structure GCMResult where
  MessageID : String
  RegistrationID : String
  Error : String
deriving DecidableEq, Repr

/-- The Go struct `GCMResponse`. -/
structure GCMResponse where
  MulticastID : Int
  Success : Int
  Failure : Int
  CanonicalIDs : Int
  Results : List GCMResult
deriving DecidableEq, Repr

/-- What the GCM adapter asks of its surroundings: `json.Marshal` of the
message, the HTTP round trip `Client.Do`, `json.Unmarshal` of the body into a
`GCMResponse`, and what `fmt.Errorf(format)`, called without operands, makes
of a format that holds a `%` (see `fmtErrorf`). -/
structure GCMWorld where
  Marshal : GCMMessage → Except String String
  Do : HTTPRequest → Except String HTTPResponse
  Unmarshal : String → Except String GCMResponse
  Errorf : String → String

/-- The message of the error `fmt.Errorf(format)` called without operands, as
`GCM.Push` calls it on the error text of a result: a format without `%` holds
no verb and is copied as it is; what a format with a `%` gives is `verbs`. -/
def fmtErrorf (verbs : String → String) (format : String) : String :=
  if '%' ∈ format.toList then verbs format else format

/-- The result of a GCM or C2DM `Push`: how it ended and the requests it sent,
in order. -/
structure HTTPRun where
  outcome : Outcome
  sent : List HTTPRequest

/-- The constant `gcmServiceURL`. -/
def gcmServiceURL : String := "https://android.googleapis.com/gcm/send"

/-- Go `GCM.ConvertNotification`, up to the final `json.Marshal`. -/
def GCM.ConvertNotification (notification : Notification) : GCMMessage :=
  let gcm : GCMMessage :=
    { RegistrationIDs := notification.DeviceTokens
      CollapseKey := notification.AppName
      Data := notification.Payload
      DelayWhileIdle := true
      TimeToLive := 2419200
      DryRun := false }
  let expiry := notification.Expiry
  if expiry ≠ 0 then { gcm with TimeToLive := expiry } else gcm

/-- The loop `for i, result := range ret.Results` of `GCM.Push`, from index
`i` on.  Indexing `DeviceTokens[i]` out of range panics (`none`). -/
def GCM.results (Errorf : String → String) (tokens : List String) :
    List GCMResult → Nat → PushStatus → Option PushStatus
  | [], _, ps => some ps
  | result :: rest, i, ps =>
    if result.MessageID ≠ "" then
      if result.RegistrationID ≠ "" then
        match tokens[i]? with
        | some tok =>
          GCM.results Errorf tokens rest (i + 1)
            { ps with Updates := ps.Updates.set tok result.RegistrationID }
        | none => none
      else GCM.results Errorf tokens rest (i + 1) ps
    else
      match tokens[i]? with
      | some tok =>
        GCM.results Errorf tokens rest (i + 1)
          { ps with Errors := ps.Errors.set tok (Errorf result.Error) }
      | none => none

/-- The part of `GCM.Push` after the request was answered without a transport
error. -/
def GCM.handleResponse (w : GCMWorld) (notification : Notification)
    (resp : HTTPResponse) : Outcome :=
  let ps := NewPushStatus
  if resp.StatusCode = 503 then
    Outcome.returned { ps with Delay := Atoi resp.RetryAfter, Retry := true,
                               Errors := ps.Errors.set "" "ServiceUnavailable" }
  else if resp.StatusCode = 500 then
    Outcome.returned { ps with Delay := Atoi resp.RetryAfter, Retry := true,
                               Errors := ps.Errors.set "" "ServiceUnavailable" }
  else if resp.StatusCode = 401 then
    Outcome.returned { ps with Errors := ps.Errors.set "" "Unauthorized" }
  else if resp.StatusCode = 400 then
    Outcome.returned { ps with Errors := ps.Errors.set "" "InvalidJSON" }
  else if resp.StatusCode ≠ 200 then
    Outcome.returned { ps with Retry := true, Errors := ps.Errors.set "" "UnknownError" }
  else
    match resp.Body with
    | Except.error _ =>
      Outcome.returned { ps with Retry := true, Errors := ps.Errors.set "" "InvalidResponse" }
    | Except.ok body =>
      match w.Unmarshal body with
      | Except.error err =>
        Outcome.returned { ps with Retry := true, Errors := ps.Errors.set "" err }
      | Except.ok ret =>
        let ps := { ps with Successes := ret.Success }
        if ret.Failure = 0 ∧ ret.CanonicalIDs = 0 then Outcome.returned ps
        else
          let ps := if ret.Failure > 0 then { ps with Delay := Atoi resp.RetryAfter } else ps
          match GCM.results (fmtErrorf w.Errorf) notification.DeviceTokens ret.Results 0 ps with
          | some ps => Outcome.returned ps
          | none => Outcome.panicked "index out of range"

/-- Go `GCM.Push`.  `http.NewRequest` is called with a constant method and a
constant well-formed URL and does not fail, so its error branch is not
taken. -/
def GCM.Push (w : GCMWorld) (notification : Notification) (authKey : String) : HTTPRun :=
  let ps := NewPushStatus
  if notification.DeviceTokens.length = 0 then
    { outcome := Outcome.returned { ps with Errors := ps.Errors.set "" "NoDeviceTokens" },
      sent := [] }
  else if notification.DeviceTokens.length > 1000 then
    { outcome := Outcome.returned { ps with Errors := ps.Errors.set "" "TooManyDeviceTokens" },
      sent := [] }
  else if notification.Payload.len = 0 then
    { outcome := Outcome.returned
        { ps with Errors := ps.Errors.set (notification.DeviceTokens.headD "") "NoPayload" },
      sent := [] }
  else
    match w.Marshal (GCM.ConvertNotification notification) with
    | Except.error _ =>
      { outcome := Outcome.returned { ps with Errors := ps.Errors.set "" "InvalidJSON" },
        sent := [] }
    | Except.ok b =>
      let request : HTTPRequest :=
        { Method := "POST", URL := gcmServiceURL, Authorization := "key=" ++ authKey,
          ContentType := "application/json", Body := b }
      match w.Do request with
      | Except.error err =>
        { outcome := Outcome.returned { ps with Retry := true, Errors := ps.Errors.set "" err },
          sent := [request] }
      | Except.ok resp =>
        { outcome := GCM.handleResponse w notification resp, sent := [request] }

/-! ## C2DM adapter (`c2dm.go`) -/

/-- What the C2DM adapter asks of its surroundings: `url.Values.Encode` on the
form it built, and the HTTP round trip `Client.Do` of its `k`-th request. -/
structure C2DMWorld where
  Encode : GoMap String → String
  Do : Nat → HTTPRequest → Except String HTTPResponse

/-- The constant `c2dmServiceURL`. -/
def c2dmServiceURL : String := "http://android.apis.google.com/c2dm/send"

/-- The loop `for k, v := range notification.Payload` of `C2DM.Push`: every
string value whose key is not `id` becomes the form field `data.<k>`. -/
def C2DM.payloadFields : List (String × GoValue) → GoMap String → GoMap String
  | [], data => data
  | (k, v) :: rest, data =>
    if k = "id" then C2DM.payloadFields rest data
    else
      match v with
      | GoValue.str val => C2DM.payloadFields rest (data.set ("data." ++ k) val)
      | GoValue.other _ => C2DM.payloadFields rest data

/-- The form `data` of `C2DM.Push` for one device token. -/
def C2DM.form (notification : Notification) (devToken : String) : GoMap String :=
  let data : GoMap String := GoMap.made []
  let data := data.set "registration_id" devToken
  let data := data.set "collapse_key" notification.AppName
  C2DM.payloadFields notification.Payload.entries data

/-- The text up to the end of the line: what `(.*)` matches, since `.` does
not match a newline. -/
def restOfLine (cs : List Char) : List Char := cs.takeWhile fun c => c ≠ Char.ofNat 10

/-- The first capture of the leftmost match of the regular expression
`Error=(.*)` in a text, `none` when there is no match. -/
def findErrorChars : List Char → Option (List Char)
  | [] => none
  | c :: cs =>
    if "Error=".toList.isPrefixOf (c :: cs) then some (restOfLine ((c :: cs).drop 6))
    else findErrorChars cs

/-- Go `re.FindStringSubmatch(string(body))` for `Error=(.*)`: `none` is the
nil slice, `some code` is the slice `[match, code]` (of length 2). -/
def findErrorCode (body : String) : Option String :=
  (findErrorChars body.toList).map String.mk

/-- The `switch errs[1]` of `C2DM.Push`. -/
def C2DM.classify (ps : PushStatus) (regid : String) (code : String) (retryAfter : String) :
    PushStatus :=
  if code = "QuotaExceeded" then
    { ps with Retry := true, Errors := ps.Errors.set regid "QuotaExceeded" }
  else if code = "DeviceQuotaExceeded" then
    { ps with Retry := true, Delay := Atoi retryAfter,
              Errors := ps.Errors.set regid "DeviceQuotaExceeded" }
  else if code = "InvalidRegistration" then
    { ps with Errors := ps.Errors.set regid "InvalidRegistration" }
  else if code = "NotRegistered" then
    { ps with Errors := ps.Errors.set regid "NotRegistered" }
  else if code = "MessageTooBig" then
    { ps with Errors := ps.Errors.set regid "MessageTooBig" }
  else if code = "MissingCollapseKey" then
    { ps with Errors := ps.Errors.set regid "MissingCollapseKey" }
  else
    { ps with Retry := true, Delay := Atoi retryAfter,
              Errors := ps.Errors.set regid "UnknownError" }

/-- The loop `for _, devToken := range notification.DeviceTokens` of
`C2DM.Push`: `k` requests were sent so far, `ps` is the status so far.  The
branches that end in `return ps` stop the loop; the `switch errs[1]` branch
does not return and goes on with the next token.  `http.NewRequest` (constant
method and URL) and `regexp.Compile` (constant pattern) do not fail. -/
def C2DM.tokens (w : C2DMWorld) (notification : Notification) (authKey : String) :
    List String → Nat → PushStatus → List HTTPRequest → HTTPRun
  | [], _, ps, sent => { outcome := Outcome.returned ps, sent := sent }
  | devToken :: rest, k, ps, sent =>
    let regid := devToken
    if notification.Payload.len = 0 then
      { outcome := Outcome.returned { ps with Errors := ps.Errors.set regid "NoPayload" },
        sent := sent }
    else
      let enc := w.Encode (C2DM.form notification devToken)
      if (bytesOf enc).length ≥ 1024 then
        { outcome := Outcome.returned { ps with Errors := ps.Errors.set regid "MessageTooBig" },
          sent := sent }
      else
        let request : HTTPRequest :=
          { Method := "POST", URL := c2dmServiceURL,
            Authorization := "GoogleLogin auth=" ++ authKey,
            ContentType := "application/x-www-form-urlencoded", Body := enc }
        match w.Do k request with
        | Except.error err =>
          { outcome := Outcome.returned { ps with Retry := true, Errors := ps.Errors.set regid err },
            sent := sent ++ [request] }
        | Except.ok resp =>
          if resp.StatusCode = 503 then
            { outcome := Outcome.returned
                { ps with Delay := Atoi resp.RetryAfter, Retry := true,
                          Errors := ps.Errors.set regid "ServiceUnavailable" },
              sent := sent ++ [request] }
          else if resp.StatusCode = 500 then
            { outcome := Outcome.returned
                { ps with Delay := Atoi resp.RetryAfter, Retry := true,
                          Errors := ps.Errors.set regid "ServiceUnavailable" },
              sent := sent ++ [request] }
          else if resp.StatusCode = 401 then
            { outcome := Outcome.returned { ps with Errors := ps.Errors.set regid "Unauthorized" },
              sent := sent ++ [request] }
          else
            match resp.Body with
            | Except.error err =>
              { outcome := Outcome.returned
                  { ps with Retry := true, Errors := ps.Errors.set regid err },
                sent := sent ++ [request] }
            | Except.ok body =>
              match findErrorCode body with
              | none =>
                { outcome := Outcome.returned { ps with Successes := 1 },
                  sent := sent ++ [request] }
              | some code =>
                C2DM.tokens w notification authKey rest (k + 1)
                  (C2DM.classify ps regid code resp.RetryAfter) (sent ++ [request])

/-- Go `C2DM.Push`. -/
def C2DM.Push (w : C2DMWorld) (notification : Notification) (authKey : String) : HTTPRun :=
  let ps := NewPushStatus
  if notification.DeviceTokens.length = 0 then
    { outcome := Outcome.returned { ps with Errors := ps.Errors.set "" "NoDeviceTokens" },
      sent := [] }
  else
    C2DM.tokens w notification authKey notification.DeviceTokens 0 ps []

/-! ## APNS adapter (`apns.go`) -/

/-- The constant `MAX_POOL_SIZE`. -/
def MAX_POOL_SIZE : Nat := 20

/-- The table `errText`; a status missing from the table reads as the empty
string. -/
def errText (status : Nat) : String :=
  if status = 0 then "No errors encountered"
  else if status = 1 then "Processing Errors"
  else if status = 2 then "Missing Device Token"
  else if status = 3 then "Missing Topic"
  else if status = 4 then "Missing Payload"
  else if status = 5 then "Invalid Token Size"
  else if status = 6 then "Invalid Topic Size"
  else if status = 7 then "Invalid Payload Size"
  else if status = 8 then "Invalid Token"
  else if status = 255 then "None (Unknown)"
  else ""

/-- The Go struct `APNSConn`.  `tlsConn` tells whether the pointer is non-nil,
`tlsCfg` is the certificate and key the client was made with, `ReadTimeout` is
in milliseconds, `mu` tells whether the per-socket mutex is held. -/
structure APNSConn where
  tlsConn : Bool
  tlsCfg : String × String
  endpoint : String
  ReadTimeout : Nat
  mu : Bool
  transactionId : Nat
  MaxPayloadSize : Int
  connected : Bool
deriving DecidableEq, Repr

/-- The Go struct `APNSConnPool`: `conn` is the content of the buffered
channel, oldest first. -/
structure APNSConnPool where
  conn : List APNSConn
  nClients : Int
deriving DecidableEq, Repr

/-- The Go struct `APNS`: the pool map and whether the mutex `mu` is held. -/
structure APNS where
  Pool : GoMap APNSConnPool
  mu : Bool
deriving DecidableEq, Repr

/-- The result of `tlsConn.Read(readb[:])`. -/
inductive ReadOutcome where
  | timeout : ReadOutcome
  | failed (err : String) : ReadOutcome
  | data (bytes : List Nat) : ReadOutcome
deriving DecidableEq, Repr

/-- What the network and the clock answer while one device token is handled:
the errors (if any) of `net.Dial`, of the TLS handshake and of
`tlsConn.Write`, the result of the read, and `time.Now().Unix()` (seconds
since 1970, not negative). -/
structure APNSExchange where
  dial : Option String
  handshake : Option String
  write : Option String
  read : ReadOutcome
  now : Nat

/-- What the APNS adapter asks of its surroundings: `tls.X509KeyPair` (its
error, if any) and the exchange for the `k`-th device token. -/
structure APNSWorld where
  X509KeyPair : String → String → Option String
  exchange : Nat → APNSExchange

/-- What the adapter does on the network. -/
inductive NetEvent where
  | dial (endpoint : String) : NetEvent
  | handshake : NetEvent
  | write (pdu : List Nat) : NetEvent
  | read : NetEvent
deriving DecidableEq, Repr

/-- The result of `APNS.Push`: how it ended, the adapter afterwards, and what
it did on the network, in order. -/
structure APNSRun where
  outcome : Outcome
  apns : APNS
  events : List NetEvent

/-- The value of a hexadecimal digit given as a byte. -/
def hexVal (b : Nat) : Option Nat :=
  if 48 ≤ b ∧ b ≤ 57 then some (b - 48)
  else if 97 ≤ b ∧ b ≤ 102 then some (b - 87)
  else if 65 ≤ b ∧ b ≤ 70 then some (b - 55)
  else none

/-- The number a big-endian byte sequence stands for. -/
def fromBigEndian (bytes : List Nat) : Nat :=
  bytes.foldl (fun acc b => acc * 256 + b) 0

/-- An upper-case hexadecimal digit. -/
def hexUpper (n : Nat) : Char :=
  if n < 10 then Char.ofNat (48 + n) else Char.ofNat (55 + n)

/-- The message of `hex.InvalidByteError(b)`, which formats the byte with
`%#U`: the code point, and the character itself when it is printable. -/
def invalidByteError (b : Nat) : String :=
  let printable : Bool := (32 ≤ b ∧ b ≤ 126) ∨ (161 ≤ b ∧ b ≤ 255 ∧ b ≠ 173)
  "encoding/hex: invalid byte: U+00" ++ String.mk [hexUpper (b / 16), hexUpper (b % 16)]
    ++ (if printable then String.mk [' ', Char.ofNat 39, Char.ofNat b, Char.ofNat 39] else "")

/-- Decode pairs of hexadecimal digits into bytes. -/
def hexPairs : List Nat → List Nat
  | p :: q :: rest => ((hexVal p).getD 0 * 16 + (hexVal q).getD 0) :: hexPairs rest
  | _ => []

/-- Go `hex.DecodeString`: the first byte that is not a hexadecimal digit is
reported, then an odd length, else the decoded bytes are returned. -/
def DecodeString (s : String) : Except String (List Nat) :=
  let src := bytesOf s
  match src.find? fun b => (hexVal b).isNone with
  | some b => Except.error (invalidByteError b)
  | none =>
    if src.length % 2 = 1 then Except.error "encoding/hex: odd length hex string"
    else Except.ok (hexPairs src)

/-- The bytes `binary.Write` emits in big-endian order for an unsigned integer
of `width` bytes: the value is taken modulo `2^(8*width)`. -/
def bigEndian : Nat → Nat → List Nat
  | 0, _ => []
  | width + 1, v => (v / 256 ^ width) % 256 :: bigEndian width v

/-- Go `NewAPNSClient`; the lookup of `apnsUrls["production"]` succeeds. -/
def NewAPNSClient (w : APNSWorld) (certificate key : String) : Except String APNSConn :=
  match w.X509KeyPair certificate key with
  | some err => Except.error err
  | none =>
    Except.ok
      { tlsConn := false, tlsCfg := (certificate, key),
        endpoint := "gateway.push.apple.com:2195", mu := false, transactionId := 0,
        ReadTimeout := 150, MaxPayloadSize := 256, connected := false }

/-- The loop of `NewAPNSConnPool`: `x` more clients are to be made, `conn` is
the channel so far and `n` the count. -/
def NewAPNSConnPool.fill (w : APNSWorld) (certificate key : String) :
    Nat → List APNSConn → Int → Except String APNSConnPool
  | 0, conn, n => Except.ok { conn := conn, nClients := n }
  | x + 1, conn, n =>
    match NewAPNSClient w certificate key with
    | Except.error err => Except.error err
    | Except.ok c => NewAPNSConnPool.fill w certificate key x (conn ++ [c]) (n + 1)

/-- Go `NewAPNSConnPool`. -/
def NewAPNSConnPool (w : APNSWorld) (certificate key : String) : Except String APNSConnPool :=
  NewAPNSConnPool.fill w certificate key MAX_POOL_SIZE [] 0

/-- Go `(*APNSConn).Close`. -/
def APNSConn.Close (client : APNSConn) : APNSConn :=
  if client.tlsConn then { client with connected := false } else client

/-- Go `(*APNSConn).connect`: the client afterwards, the error (if any), and
what was done on the network. -/
def APNSConn.connect (client : APNSConn) (x : APNSExchange) :
    APNSConn × Option String × List NetEvent :=
  if client.connected then (client, none, [])
  else
    let client := if client.tlsConn then client.Close else client
    match x.dial with
    | some err => (client, some err, [NetEvent.dial client.endpoint])
    | none =>
      let client := { client with tlsConn := true }
      match x.handshake with
      | none =>
        ({ client with connected := true }, none,
          [NetEvent.dial client.endpoint, NetEvent.handshake])
      | some err => (client, some err, [NetEvent.dial client.endpoint, NetEvent.handshake])

/-- A socket taken from a pool whose `Release` is deferred: the app name of the
pool, the client as it is now, and whether `client.mu.Unlock()` is deferred as
well. -/
structure Held where
  app : String
  client : APNSConn
  unlock : Bool
deriving DecidableEq, Repr

/-- The state of the loop of `APNS.Push`: the adapter, the status so far, the
deferred calls (newest first) and the network events so far. -/
structure APNSLoop where
  apns : APNS
  ps : PushStatus
  held : List Held
  events : List NetEvent

/-- Go `(*APNSConnPool).Release` on the pool of an app: the client goes to the
back of the channel.  The entry of the app is updated only where it exists. -/
def APNS.release (a : APNS) (app : String) (client : APNSConn) : APNS :=
  match a.Pool.get? app with
  | some pool => { a with Pool := a.Pool.set app { pool with conn := pool.conn ++ [client] } }
  | none => a

/-- Run the deferred calls, newest first: `client.mu.Unlock()` where it was
deferred, then `pool.Release(client)`. -/
def APNS.runDeferred : APNS → List Held → APNS
  | a, [] => a
  | a, h :: rest =>
    let client := if h.unlock then { h.client with mu := false } else h.client
    APNS.runDeferred (a.release h.app client) rest

/-- A `return ps` of `APNS.Push`: the deferred calls run. -/
def APNSLoop.finish (st : APNSLoop) (ps : PushStatus) : APNSRun :=
  { outcome := Outcome.returned ps, apns := APNS.runDeferred st.apns st.held,
    events := st.events }

/-- A panic inside `APNS.Push`: the deferred calls run while the stack
unwinds, nothing is returned. -/
def APNSLoop.panic (st : APNSLoop) (msg : String) : APNSRun :=
  { outcome := Outcome.panicked msg, apns := APNS.runDeferred st.apns st.held,
    events := st.events }

/-- The call blocks forever: nothing deferred runs. -/
def APNSLoop.block (st : APNSLoop) (lock : String) : APNSRun :=
  { outcome := Outcome.blocked lock, apns := st.apns, events := st.events }

/-- One pass of the loop body of `APNS.Push`: it ends the call, or hands the
state to the next pass. -/
inductive APNSStep where
  | done (run : APNSRun) : APNSStep
  | next (st : APNSLoop) : APNSStep

/-- The `switch status` of `APNS.Push` on the status byte of the reply. -/
def APNS.classify (ps : PushStatus) (devToken : String) (status : Nat) : PushStatus :=
  if status = 0 then { ps with Successes := 1 }
  else if status = 1 then
    { ps with Retry := true, Errors := ps.Errors.set devToken (errText status) }
  else if 2 ≤ status ∧ status ≤ 8 then
    { ps with Errors := ps.Errors.set devToken (errText status) }
  else if status = 255 then
    { ps with Retry := true, Errors := ps.Errors.set devToken "Unknown" }
  else { ps with Errors := ps.Errors.set devToken "UnknownAPNS" }

/-- The PDU `APNS.Push` builds: command 1, transaction id 1, the expiry, the
length of the token and the token, the length of the payload and the payload.
`expiry` is a `uint32`, the two lengths are converted to `uint16`. -/
def APNS.pdu (expiry : Nat) (btoken bpayload : List Nat) : List Nat :=
  bigEndian 1 1 ++ bigEndian 4 1 ++ bigEndian 4 expiry
    ++ bigEndian 2 btoken.length ++ btoken
    ++ bigEndian 2 bpayload.length ++ bpayload

/-- The expiry written into the PDU: the notification's, or one hour from
now in `uint32` arithmetic when it is 0. -/
def APNS.expiry (notification : Notification) (now : Nat) : Nat :=
  let expiry := notification.Expiry
  if expiry = 0 then
    let unixNow := now % 4294967296
    (unixNow + 60 * 60) % 4294967296
  else expiry

/-- The part of the loop body of `APNS.Push` from `client := pool.Get()` on,
for the pool found or made for the app.  The pool is a pointer in Go; here its
state is the entry of the app in the pool map, which exists at this point (it
was found there, or `assign` stored it), so taking a socket from the channel
updates an entry of a made map. -/
def APNS.send (x : APNSExchange) (notification : Notification) (devToken : String)
    (btoken bpayload : List Nat) (pool : APNSConnPool) (st : APNSLoop) : APNSStep :=
  let app := notification.AppName
  match pool.conn with
  | [] => APNSStep.done (st.block "pool.Get")
  | client :: remaining =>
    let a := { st.apns with Pool := st.apns.Pool.set app { pool with conn := remaining } }
    let (client, err, evs) := client.connect x
    let st := { st with apns := a, held := { app := app, client := client, unlock := false } :: st.held,
                        events := st.events ++ evs }
    match err with
    | some err =>
      APNSStep.done
        (st.finish { st.ps with Retry := true, Errors := st.ps.Errors.set devToken err })
    | none =>
      if (bpayload.length : Int) > client.MaxPayloadSize then
        APNSStep.done (st.finish { st.ps with Errors := st.ps.Errors.set devToken "MessageTooBig" })
      else
        let pdu := APNS.pdu (APNS.expiry notification x.now) btoken bpayload
        if client.mu then APNSStep.done (st.block "client.mu")
        else
          let client := { client with mu := true }
          let st := { st with held := { app := app, client := client, unlock := true } :: st.held.tail,
                              events := st.events ++ [NetEvent.write pdu] }
          match x.write with
          | some _ =>
            let client := { client with connected := false }
            let st := { st with held := { app := app, client := client, unlock := true } :: st.held.tail }
            APNSStep.done
              (st.finish { st.ps with Retry := true,
                                      Errors := st.ps.Errors.set devToken "ClientNotConnected" })
          | none =>
            let st := { st with events := st.events ++ [NetEvent.read] }
            match x.read with
            | ReadOutcome.timeout => APNSStep.done (st.finish { st.ps with Successes := 1 })
            | ReadOutcome.failed err =>
              APNSStep.done (st.finish { st.ps with Errors := st.ps.Errors.set devToken err })
            | ReadOutcome.data bytes =>
              let readb := (bytes ++ List.replicate 6 0).take 6
              let n := min bytes.length 6
              if 0 ≤ n then
                let status := readb.getD 1 0 % 256
                APNSStep.done (st.finish (APNS.classify st.ps devToken status))
              else APNSStep.next st

/-- One pass of the loop body of `APNS.Push` for the `k`-th device token.
`a.Pool[notification.AppName] = pool` is an assignment to the adapter's map,
which panics when that map is nil; `a.mu` is still held then. -/
def APNS.token (w : APNSWorld) (notification : Notification) (authKey : String)
    (k : Nat) (devToken : String) (st : APNSLoop) : APNSStep :=
  match DecodeString devToken with
  | Except.error err =>
    APNSStep.done (st.finish { st.ps with Errors := st.ps.Errors.set devToken err })
  | Except.ok btoken =>
    match notification.Payload.get? "payload" with
    | some (GoValue.str payload) =>
      let bpayload := bytesOf payload
      if st.apns.mu then APNSStep.done (st.block "a.mu")
      else
        let st := { st with apns := { st.apns with mu := true } }
        match st.apns.Pool.get? notification.AppName with
        | some pool =>
          let st := { st with apns := { st.apns with mu := false } }
          APNS.send (w.exchange k) notification devToken btoken bpayload pool st
        | none =>
          match NewAPNSConnPool w authKey authKey with
          | Except.error err =>
            APNSStep.done (st.finish { st.ps with Errors := st.ps.Errors.set "" err })
          | Except.ok pool =>
            match st.apns.Pool.assign notification.AppName pool with
            | none => APNSStep.done (st.panic "assignment to entry in nil map")
            | some m =>
              let st := { st with apns := { st.apns with Pool := m, mu := false } }
              APNS.send (w.exchange k) notification devToken btoken bpayload pool st
    | _ =>
      APNSStep.done (st.finish { st.ps with Errors := st.ps.Errors.set devToken "InvalidJSON" })

/-- The loop `for _, devToken := range notification.DeviceTokens` of
`APNS.Push`, from the `k`-th token on. -/
def APNS.tokens (w : APNSWorld) (notification : Notification) (authKey : String) :
    List String → Nat → APNSLoop → APNSRun
  | [], _, st => st.finish st.ps
  | devToken :: rest, k, st =>
    match APNS.token w notification authKey k devToken st with
    | APNSStep.done run => run
    | APNSStep.next st => APNS.tokens w notification authKey rest (k + 1) st

/-- Go `APNS.Push`. -/
def APNS.Push (a : APNS) (w : APNSWorld) (notification : Notification) (authKey : String) :
    APNSRun :=
  let ps := NewPushStatus
  if notification.DeviceTokens.length = 0 then
    { outcome := Outcome.returned { ps with Errors := ps.Errors.set "" "NoDeviceTokens" },
      apns := a, events := [] }
  else
    APNS.tokens w notification authKey notification.DeviceTokens 0
      { apns := a, ps := ps, held := [], events := [] }

/-! ## Dispatch engine (`service.go`) and retry scheduling (`push.go`) -/

/-- Go `int` arithmetic wraps around at 64 bits. -/
def wrapInt64 (v : Int) : Int :=
  (v + 9223372036854775808) % 18446744073709551616 - 9223372036854775808

/-- Go `uint64` arithmetic wraps around at 64 bits. -/
def wrapUint64 (v : Nat) : Nat := v % 18446744073709551616

/-- The Go struct `Stats`. -/
structure Stats where
  Running : Int
  APNS : Nat
  APNSErrors : Nat
  GCM : Nat
  GCMErrors : Nat
  C2DM : Nat
  C2DMErrors : Nat
deriving DecidableEq, Repr

/-- The Go interface `Service`: `Push(*Notification, string) *PushStatus`, as
the function the `k`-th call of `Work` reaches; the adapter's own state and
surroundings are closed over. -/
abbrev Service := Nat → Notification → String → Outcome

/-- The Go struct `ServiceManager`; the channel `Quit` is not read by the
embedded code.  The package variable `SMGlobal` is the manager
`NewServiceManager` made, the one `Work` is called on. -/
structure ServiceManager where
  Services : GoMap Service
  Quitting : Bool
  Stats : Stats

/-- The surroundings of the adapters as the engine reaches them at its `k`-th
call of `Work`. -/
structure AdapterWorlds where
  apns : Nat → APNSWorld
  apnsState : Nat → APNS
  gcm : Nat → GCMWorld
  c2dm : Nat → C2DMWorld

/-- Go `NewServiceManager`: the three adapters under their provider tags. -/
def NewServiceManager (aw : AdapterWorlds) : ServiceManager :=
  let services : GoMap Service := GoMap.made []
  let services := services.set "apns"
    fun k n auth => (APNS.Push (aw.apnsState k) (aw.apns k) n auth).outcome
  let services := services.set "gcm" fun k n auth => (GCM.Push (aw.gcm k) n auth).outcome
  let services := services.set "c2dm" fun k n auth => (C2DM.Push (aw.c2dm k) n auth).outcome
  { Services := services, Quitting := false,
    Stats := { Running := 0, APNS := 0, APNSErrors := 0, GCM := 0, GCMErrors := 0,
               C2DM := 0, C2DMErrors := 0 } }

/-- What the engine asks of its surroundings: the output of `uuidgen` and the
clock at the `k`-th call of `Work`, and the value of `SMGlobal.Quitting` when
the `r`-th call of `ReSend` reads it. -/
structure EngineWorld where
  uuidgen : Nat → Except String String
  now : Nat → Nat
  Quitting : Nat → Bool

/-- A goroutine the engine starts with `go`. -/
inductive Task where
  | work (auth : String) : Task
  | processErrors (p : PushStatus) : Task
  | processUpdates (p : PushStatus) : Task
deriving DecidableEq, Repr

/-- What the engine does that can be observed: a call of an adapter's `Push`
(the `k`-th call of `Work`, with the auth it passes), a `time.Sleep`, a
`go SMGlobal.Work(job, auth)` with the value of `job.Retries` at that moment,
and a `ReSend` that gives up. -/
inductive Event where
  | push (k : Nat) (auth : String) : Event
  | sleep (seconds : Int) : Event
  | enqueue (auth : String) (retries : Int) : Event
  | giveUp (retries : Int) : Event
deriving DecidableEq, Repr

/-- Go `(*Notification).Init`, given the output of `uuidgen` and the clock;
the status becomes the zero `PushStatus`, whose maps are nil. -/
def Notification.Init (n : Notification) (uuid : Except String String) (now : Nat) :
    Notification × Option String :=
  match uuid with
  | Except.error err => (n, some err)
  | Except.ok out =>
    ({ n with Guid := out, CreatedAt := now,
              Status := some { Retry := false, Delay := 0, Successes := 0,
                               Errors := GoMap.nil, Updates := GoMap.nil, Auth := "" } }, none)

/-- Go `(*PushStatus).ReSend`, given the value of `SMGlobal.Quitting` it
reads: the job afterwards, what was observed, and the goroutine started. -/
def PushStatus.ReSend (p : PushStatus) (job : Notification) (quitting : Bool) :
    Notification × List Event × List Task :=
  let job := { job with Retries := wrapInt64 (job.Retries + 1) }
  if job.Retries > 10 then (job, [Event.giveUp job.Retries], [])
  else
    let seconds := if p.Delay = 0 then job.Retries else p.Delay
    if ¬ quitting then
      (job, [Event.sleep seconds, Event.enqueue p.Auth job.Retries], [Task.work p.Auth])
    else (job, [Event.sleep seconds], [])

/-- Go `(*PushStatus).NewJob`. -/
def PushStatus.NewJob (p : PushStatus) (job : Notification) (_auth : String)
    (quitting : Bool) : Notification × List Event × List Task :=
  let newJob := job
  p.ReSend newJob quitting

/-- Whether `ProcessErrors` resends the job for an error message. -/
def resendsOn (err : String) : Bool :=
  err = "InternalServerError" ∨ err = "ServiceUnavailable" ∨ err = "Unavailable"
    ∨ err = "InvalidResponse" ∨ err = "UnknownError"

/-- The loop of `(*PushStatus).ProcessErrors` over the entries of `p.Errors`
(in entry order), the `r`-th call of `ReSend` being the next. -/
def PushStatus.processEntries (g : EngineWorld) (p : PushStatus) :
    List (String × String) → Nat → Notification → Notification × List Event × List Task × Nat
  | [], r, job => (job, [], [], r)
  | (devToken, err) :: rest, r, job =>
    if resendsOn err then
      let (job, evs, tasks) := p.NewJob job devToken (g.Quitting r)
      let (job, evs2, tasks2, r2) := PushStatus.processEntries g p rest (r + 1) job
      (job, evs ++ evs2, tasks ++ tasks2, r2)
    else PushStatus.processEntries g p rest r job

/-- Go `(*PushStatus).ProcessErrors`. -/
def PushStatus.ProcessErrors (g : EngineWorld) (p : PushStatus) (r : Nat) (job : Notification) :
    Notification × List Event × List Task × Nat :=
  PushStatus.processEntries g p p.Errors.entries r job

/-- The error counters after the loop `for _, _ = range pushStatus.Errors` of
`Work`: one increment per entry, on the counter of the job's provider. -/
def Stats.countErrors (st : Stats) (provider : String) (n : Nat) : Stats :=
  if provider = "apns" then { st with APNSErrors := wrapUint64 (st.APNSErrors + n) }
  else if provider = "gcm" then { st with GCMErrors := wrapUint64 (st.GCMErrors + n) }
  else if provider = "c2dm" then { st with C2DMErrors := wrapUint64 (st.C2DMErrors + n) }
  else st

/-- The state of the engine for one job: the job (shared by all goroutines
through its pointer), the counters, the goroutines started and not yet run,
the number of calls of `Work` and of `ReSend` so far, and what was observed. -/
structure Engine where
  job : Notification
  Stats : Stats
  queue : List Task
  works : Nat
  resends : Nat
  log : List Event

/-- Go `(*ServiceManager).Work(job, auth)` as a step of the engine. -/
def ServiceManager.Work (sm : ServiceManager) (g : EngineWorld) (e : Engine) (auth : String) :
    Engine :=
  let e := { e with works := e.works + 1 }
  let k := e.works - 1
  match sm.Services.get? e.job.Provider with
  | none => e
  | some provider =>
    match e.job.Init (g.uuidgen k) (g.now k) with
    | (_, some _) => e
    | (job, none) =>
      let e := { e with job := job, log := e.log ++ [Event.push k auth] }
      match provider k job auth with
      | Outcome.returned pushStatus =>
        let job := { job with Status := some pushStatus }
        if pushStatus.Retry then
          let (job, evs, tasks) := pushStatus.ReSend job (g.Quitting e.resends)
          { e with job := job, log := e.log ++ evs, queue := e.queue ++ tasks,
                   resends := e.resends + 1 }
        else if pushStatus.Errors.len > 0 then
          { e with job := job,
                   Stats := e.Stats.countErrors job.Provider pushStatus.Errors.len,
                   queue := e.queue ++ [Task.processErrors pushStatus] }
        else if pushStatus.Updates.len > 0 then
          { e with job := job, queue := e.queue ++ [Task.processUpdates pushStatus] }
        else { e with job := job }
      | _ => e

/-- Run the oldest goroutine of the engine to its end. -/
def Engine.step (sm : ServiceManager) (g : EngineWorld) (e : Engine) : Engine :=
  match e.queue with
  | [] => e
  | Task.work auth :: rest => sm.Work g { e with queue := rest } auth
  | Task.processErrors p :: rest =>
    let (job, evs, tasks, r) := p.ProcessErrors g e.resends e.job
    { e with job := job, log := e.log ++ evs, queue := rest ++ tasks, resends := r }
  | Task.processUpdates _ :: rest => { e with queue := rest }

/-- Run `fuel` goroutines of the engine, oldest first. -/
def Engine.run (sm : ServiceManager) (g : EngineWorld) : Nat → Engine → Engine
  | 0, e => e
  | fuel + 1, e => Engine.run sm g fuel (Engine.step sm g e)

/-- The engine when `go Work(job, auth)` has just been started for a job. -/
def Engine.start (sm : ServiceManager) (job : Notification) (auth : String) : Engine :=
  { job := job, Stats := sm.Stats, queue := [Task.work auth], works := 0, resends := 0, log := [] }

/-! ## Rendering a status (`push.go`) -/

/-- A lower-case hexadecimal digit. -/
def hexLower (n : Nat) : Char :=
  if n < 10 then Char.ofNat (48 + n) else Char.ofNat (87 + n)

/-- The escape `encoding/json` writes for one character of a string (HTML
escaping on, as `json.Marshal` has it). -/
def jsonEscapeChar (c : Char) : String :=
  if c = Char.ofNat 34 then String.mk [Char.ofNat 92, Char.ofNat 34]
  else if c = Char.ofNat 92 then String.mk [Char.ofNat 92, Char.ofNat 92]
  else if c = Char.ofNat 8 then String.mk [Char.ofNat 92, 'b']
  else if c = Char.ofNat 12 then String.mk [Char.ofNat 92, 'f']
  else if c = Char.ofNat 10 then String.mk [Char.ofNat 92, 'n']
  else if c = Char.ofNat 13 then String.mk [Char.ofNat 92, 'r']
  else if c = Char.ofNat 9 then String.mk [Char.ofNat 92, 't']
  else if c.toNat < 32 ∨ c = '<' ∨ c = '>' ∨ c = '&' then
    String.mk [Char.ofNat 92, 'u', '0', '0', hexLower (c.toNat / 16), hexLower (c.toNat % 16)]
  else if c.toNat = 8232 then String.mk [Char.ofNat 92, 'u', '2', '0', '2', '8']
  else if c.toNat = 8233 then String.mk [Char.ofNat 92, 'u', '2', '0', '2', '9']
  else String.singleton c

/-- A JSON string literal as `encoding/json` writes it. -/
def jsonQuote (s : String) : String :=
  String.mk [Char.ofNat 34] ++ String.join (s.toList.map jsonEscapeChar) ++ String.mk [Char.ofNat 34]

/-- Insert one entry into a list kept sorted by key. -/
def insertByKey (e : String × String) : List (String × String) → List (String × String)
  | [] => [e]
  | x :: xs => if e.1 < x.1 then e :: x :: xs else x :: insertByKey e xs

/-- Sort the entries by key, as `encoding/json` does before writing a map. -/
def sortByKey (es : List (String × String)) : List (String × String) :=
  es.foldr insertByKey []

/-- The text of `json.Marshal` on a `map[string]string`. -/
def jsonObject (es : List (String × String)) : String :=
  "\x7b" ++ String.intercalate ","
    ((sortByKey es).map fun e => jsonQuote e.1 ++ ":" ++ jsonQuote e.2) ++ "\x7d"

/-- Go `(*PushStatus).String`.  The status map holds the key `ok`, or the keys
`errors` and/or `updates`; `json.Marshal` writes keys in sorted order and does
not fail on these values, so the `"Unknown"` branch is not taken.  Each error
is rendered by `fmt.Sprintf("%s", e)`, which is its message. -/
def PushStatus.String (p : PushStatus) : String :=
  let nErrors := p.Errors.len
  let nUpdates := p.Updates.len
  let errs := p.Errors.entries
  if nErrors = 0 ∧ nUpdates = 0 then
    "\x7b\"ok\":1\x7d"
  else if nErrors > 0 ∧ nUpdates = 0 then
    "\x7b\"errors\":" ++ jsonObject errs ++ "\x7d"
  else if nErrors > 0 ∧ nUpdates > 0 then
    "\x7b\"errors\":" ++ jsonObject errs ++ ",\"updates\":"
      ++ jsonObject p.Updates.entries ++ "\x7d"
  else
    "\x7b\"updates\":" ++ jsonObject p.Updates.entries ++ "\x7d"

/-! ## Sample inputs -/

/-- A notification without device tokens. -/
def emptyJob : Notification :=
  { AppName := "app", Provider := "gcm", DeviceTokens := [],
    Payload := GoMap.made [("msg", GoValue.str "hi")], Expiry := 0, ExtraData := GoMap.nil,
    Guid := "", CreatedAt := 0, Status := none, Retries := 0 }

/-- An APNS adapter that has no pool yet and whose lock is free. -/
def freshAPNS : APNS := { Pool := GoMap.made [], mu := false }

/-- Surroundings in which the certificate parses, the gateway accepts the
connection and the PDU, and sends no reply before the deadline. -/
def quietAPNSWorld : APNSWorld :=
  { X509KeyPair := fun _ _ => none,
    exchange := fun _ =>
      { dial := none, handshake := none, write := none, read := ReadOutcome.timeout,
        now := 1700000000 } }

/-- Surroundings in which GCM answers every request with the given response;
the body is decoded to the given `GCMResponse`. -/
def gcmWorldOf (resp : HTTPResponse) (ret : GCMResponse) : GCMWorld :=
  { Marshal := fun _ => Except.ok "body", Do := fun _ => Except.ok resp,
    Unmarshal := fun _ => Except.ok ret, Errorf := fun format => format }

/-- Surroundings in which C2DM answers every request with the given response;
the form is encoded as the registration id alone. -/
def c2dmWorldOf (resp : HTTPResponse) : C2DMWorld :=
  { Encode := fun data => (data.get? "registration_id").getD "", Do := fun _ _ => Except.ok resp }

/-- An HTTP response with the given status, `Retry-After` value and body. -/
def responseOf (status : Int) (retryAfter body : String) : HTTPResponse :=
  { StatusCode := status, RetryAfter := retryAfter, Body := Except.ok body }

/-- A decoded GCM response without results. -/
def emptyGCMResponse : GCMResponse :=
  { MulticastID := 1, Success := 0, Failure := 0, CanonicalIDs := 0, Results := [] }

/-- The GCM job of the first scenario of the specification: one device token
and a one-entry payload. -/
def gcmJob : Notification :=
  { AppName := "a", Provider := "gcm", DeviceTokens := ["dev1"],
    Payload := GoMap.made [("msg", GoValue.str "hi")], Expiry := 0, ExtraData := GoMap.nil,
    Guid := "", CreatedAt := 0, Status := none, Retries := 0 }

/-- The effect of one pass of the loop over `ret.Results` on the status, for
the device token `tok` at the index of the result. -/
def GCM.record (Errorf : String → String) (tok : String) (result : GCMResult)
    (ps : PushStatus) : PushStatus :=
  if result.MessageID ≠ "" then
    if result.RegistrationID ≠ "" then
      { ps with Updates := ps.Updates.set tok result.RegistrationID }
    else ps
  else { ps with Errors := ps.Errors.set tok (Errorf result.Error) }

/-- A decoded GCM response that counts no failure and no canonical id, yet
carries one result with an error and no message id. -/
def uncountedFailure : GCMResponse :=
  { MulticastID := 1, Success := 0, Failure := 0, CanonicalIDs := 0,
    Results := [{ MessageID := "", RegistrationID := "", Error := "Unavailable" }] }

/-- A GCM job that names the same device token twice. -/
def repeatedTokenJob : Notification :=
  { AppName := "a", Provider := "gcm", DeviceTokens := ["t", "t"],
    Payload := GoMap.made [("msg", GoValue.str "hi")], Expiry := 0, ExtraData := GoMap.nil,
    Guid := "", CreatedAt := 0, Status := none, Retries := 0 }

/-- A decoded GCM response with two failed results. -/
def twoFailures : GCMResponse :=
  { MulticastID := 1, Success := 0, Failure := 2, CanonicalIDs := 0,
    Results := [{ MessageID := "", RegistrationID := "", Error := "Unavailable" },
                { MessageID := "", RegistrationID := "", Error := "NotRegistered" }] }

/-- The GCM job of the third scenario of the specification: two device
tokens. -/
def twoTokenJob : Notification :=
  { AppName := "a", Provider := "gcm", DeviceTokens := ["t1", "t2"],
    Payload := GoMap.made [("msg", GoValue.str "hi")], Expiry := 0, ExtraData := GoMap.nil,
    Guid := "", CreatedAt := 0, Status := none, Retries := 0 }

/-- The decoded GCM response of the third scenario: one success, one failure. -/
def partialFailure : GCMResponse :=
  { MulticastID := 1, Success := 1, Failure := 1, CanonicalIDs := 0,
    Results := [{ MessageID := "m", RegistrationID := "", Error := "" },
                { MessageID := "", RegistrationID := "", Error := "Unavailable" }] }

/-- The C2DM job of the fourth scenario of the specification: one device
token. -/
def c2dmJob : Notification :=
  { AppName := "a", Provider := "c2dm", DeviceTokens := ["t"],
    Payload := GoMap.made [("msg", GoValue.str "hi")], Expiry := 0, ExtraData := GoMap.nil,
    Guid := "", CreatedAt := 0, Status := none, Retries := 0 }

/-- An APNS job with one device token (two bytes in hex) and a string
payload. -/
def apnsJob : Notification :=
  { AppName := "a", Provider := "apns", DeviceTokens := ["0aff"],
    Payload := GoMap.made [("payload", GoValue.str "hi")], Expiry := 0, ExtraData := GoMap.nil,
    Guid := "", CreatedAt := 0, Status := none, Retries := 0 }

/-- Surroundings in which the certificate parses, the gateway accepts the
connection and the PDU, and replies with the given bytes. -/
def replyingAPNSWorld (bytes : List Nat) : APNSWorld :=
  { X509KeyPair := fun _ _ => none,
    exchange := fun _ =>
      { dial := none, handshake := none, write := none, read := ReadOutcome.data bytes,
        now := 1700000000 } }

/-- The client `NewAPNSClient` makes from a certificate and key that parse. -/
def newClient (certificate key : String) : APNSConn :=
  { tlsConn := false, tlsCfg := (certificate, key), endpoint := "gateway.push.apple.com:2195",
    mu := false, transactionId := 0, ReadTimeout := 150, MaxPayloadSize := 256,
    connected := false }

/-- The value of `job.Retries` a `go SMGlobal.Work(job, auth)` was observed
with. -/
def Event.enqueued? : Event → Option Int
  | Event.enqueue _ r => some r
  | _ => none

/-- The value of `job.Retries` a `ReSend` gave up with. -/
def Event.gaveUp? : Event → Option Int
  | Event.giveUp r => some r
  | _ => none

/-- Two notifications carry the same request: they agree on every field the
engine does not write (it writes `Guid`, `CreatedAt`, `Status`, `Retries`). -/
def Notification.sameRequest (a b : Notification) : Prop :=
  a.AppName = b.AppName ∧ a.Provider = b.Provider ∧ a.DeviceTokens = b.DeviceTokens
    ∧ a.Payload = b.Payload ∧ a.Expiry = b.Expiry ∧ a.ExtraData = b.ExtraData

/-- The engine after `f` attempts of a job whose every attempt asked for a
retry, while another attempt is scheduled. -/
def Engine.retrying (job : Notification) (f : Nat) (e : Engine) : Prop :=
  e.job.sameRequest job ∧ e.job.Retries = f ∧ e.works = f ∧ e.resends = f
    ∧ (∃ a, e.queue = [Task.work a])
    ∧ e.log.filterMap Event.enqueued? = (List.range f).map (fun i => (i : Int) + 1)
    ∧ e.log.filterMap Event.gaveUp? = []

/-- The engine after the attempt that gave up. -/
def Engine.gaveUp (e : Engine) : Prop :=
  e.job.Retries = 11 ∧ e.works = 11 ∧ e.queue = []
    ∧ e.log.filterMap Event.enqueued? = (List.range 10).map (fun i => (i : Int) + 1)
    ∧ e.log.filterMap Event.gaveUp? = [11]

/-- Surroundings of the engine in which `uuidgen` answers, the clock stands at
1700000000 and the engine is never shut down. -/
def steadyEngineWorld : EngineWorld :=
  { uuidgen := fun _ => Except.ok "uuid", now := fun _ => 1700000000, Quitting := fun _ => false }

/-- Surroundings of the adapters in which GCM answers every request with 503
and no `Retry-After`. -/
def unavailableWorlds : AdapterWorlds :=
  { apns := fun _ => quietAPNSWorld, apnsState := fun _ => freshAPNS,
    gcm := fun _ => gcmWorldOf (responseOf 503 "" "") emptyGCMResponse,
    c2dm := fun _ => c2dmWorldOf (responseOf 503 "" "") }

/-- The number a run of decimal digits stands for, continuing from `n`. -/
def decimalValue (ds : List Char) (n : Nat) : Nat :=
  ds.foldl (fun acc c => acc * 10 + (c.toNat - 48)) n

/-- A C2DM job with two device tokens. -/
def c2dmTwoTokenJob : Notification :=
  { AppName := "a", Provider := "c2dm", DeviceTokens := ["t1", "t2"],
    Payload := GoMap.made [("msg", GoValue.str "hi")], Expiry := 0, ExtraData := GoMap.nil,
    Guid := "", CreatedAt := 0, Status := none, Retries := 0 }

/-- An APNS job with two device tokens and a string payload. -/
def apnsTwoTokenJob : Notification :=
  { AppName := "a", Provider := "apns", DeviceTokens := ["0aff", "0b00"],
    Payload := GoMap.made [("payload", GoValue.str "hi")], Expiry := 0, ExtraData := GoMap.nil,
    Guid := "", CreatedAt := 0, Status := none, Retries := 0 }

/-- Surroundings in which C2DM answers its `k`-th request with the `k`-th
response of a list (and fails the transport when the list is used up); the
form is encoded as the registration id alone. -/
def c2dmWorldSeq (resps : List HTTPResponse) : C2DMWorld :=
  { Encode := fun data => (data.get? "registration_id").getD "",
    Do := fun k _ =>
      match resps[k]? with
      | some resp => Except.ok resp
      | none => Except.error "no answer" }

/-- The PDUs among the network events. -/
def writtenPDUs (events : List NetEvent) : List (List Nat) :=
  events.filterMap fun e =>
    match e with
    | NetEvent.write pdu => some pdu
    | _ => none

/-- Surroundings in which no certificate and key pair can be parsed from the
auth. -/
def badCertWorld : APNSWorld :=
  { X509KeyPair := fun _ _ => some "tls: failed to find any PEM data in certificate input",
    exchange := fun _ =>
      { dial := none, handshake := none, write := none, read := ReadOutcome.timeout,
        now := 1700000000 } }

/-- A decoded GCM response with two results, one more than `gcmJob` has device
tokens; the second result reports a failure. -/
def oneResultTooMany : GCMResponse :=
  { MulticastID := 1, Success := 1, Failure := 1, CanonicalIDs := 0,
    Results := [{ MessageID := "m", RegistrationID := "", Error := "" },
                { MessageID := "", RegistrationID := "", Error := "Unavailable" }] }

/-- Surroundings like `gcmWorldOf` in which `fmt.Errorf` makes the empty
message of every format that holds a `%`. -/
def gcmWorldBlank (resp : HTTPResponse) (ret : GCMResponse) : GCMWorld :=
  { gcmWorldOf resp ret with Errorf := fun _ => "" }

/-- An APNS adapter whose pool for the app `a` holds 20 fresh sockets. -/
def pooledAPNS : APNS :=
  { Pool := GoMap.made
      [("a", { conn := List.replicate 20 (newClient "cert" "cert"), nClients := 20 })],
    mu := false }

/-- A decoded GCM response that reports five successes and no result. -/
def fiveSuccesses : GCMResponse :=
  { MulticastID := 1, Success := 5, Failure := 0, CanonicalIDs := 0, Results := [] }

/-- The text of a run of decimal digits, most significant first: the digit `d`
is the character with the code `48 + d`. -/
def numeral (ds : List Nat) : String := String.mk (ds.map fun d => Char.ofNat (48 + d))

/-! ## Properties -/

/-- A text that starts with the key `errors` or `updates` is not the text of
the success object: the two differ at their third character. -/
theorem errors_text_ne_ok (x : String) : "\x7b\"errors\":" ++ x ≠ "\x7b\"ok\":1\x7d" := by
  intro h
  have h2 := congrArg String.data h
  simp [String.data_append] at h2

theorem updates_text_ne_ok (x : String) : "\x7b\"updates\":" ++ x ≠ "\x7b\"ok\":1\x7d" := by
  intro h
  have h2 := congrArg String.data h
  simp [String.data_append] at h2

/-- C1: `Ok()` is true exactly when `Errors` has no entries, whatever `Updates`
holds; in particular it is true when `Errors` is the nil map. -/
theorem Ok_iff_no_errors (S : PushStatus) :
    (S.Ok = true ↔ S.Errors.len = 0) ∧ ({ S with Errors := GoMap.nil }).Ok = true := by
  constructor
  · unfold PushStatus.Ok
    by_cases h : S.Errors.len = 0 <;> simp [h]
  · rfl

/-- C2, as stated, fails: the status of `TestPushStatusOk` with no errors and
one update renders as the object with the key `updates`, not as the success
object. -/
theorem String_ok_counterexample :
    ¬ (({ NewPushStatus with Updates := GoMap.made [("someRegId", "someOtherId")] }).String
          = "\x7b\"ok\":1\x7d"
        ↔ ({ NewPushStatus with
              Updates := GoMap.made [("someRegId", "someOtherId")] }).Errors.len = 0) := by
  decide

/-- C2, amended: `String()` returns exactly the success object if and only if
both `Errors` and `Updates` are empty. -/
theorem String_ok_iff (S : PushStatus) :
    S.String = "\x7b\"ok\":1\x7d" ↔ S.Errors.len = 0 ∧ S.Updates.len = 0 := by
  unfold PushStatus.String
  by_cases h : S.Errors.len = 0 ∧ S.Updates.len = 0
  · simp [h]
  · simp only [h, if_false, iff_false]
    split
    · simpa [String.append_assoc] using errors_text_ne_ok _
    · split
      · simpa [String.append_assoc] using errors_text_ne_ok _
      · simpa [String.append_assoc] using updates_text_ne_ok _

/-- C3: for a notification without device tokens and any auth, each of the
three adapters returns, with nothing sent or done on the network, the status
whose only error is `NoDeviceTokens` under the empty key, with `Retry` false,
`Successes` 0 and no updates. -/
theorem Push_no_device_tokens (a : APNS) (aw : APNSWorld) (gw : GCMWorld) (cw : C2DMWorld)
    (n : Notification) (auth : String) (h : n.DeviceTokens = []) :
    ((APNS.Push a aw n auth).outcome = Outcome.returned
          { Retry := false, Delay := 0, Successes := 0,
            Errors := GoMap.made [("", "NoDeviceTokens")], Updates := GoMap.made [], Auth := "" }
        ∧ (APNS.Push a aw n auth).events = [])
      ∧ ((GCM.Push gw n auth).outcome = Outcome.returned
          { Retry := false, Delay := 0, Successes := 0,
            Errors := GoMap.made [("", "NoDeviceTokens")], Updates := GoMap.made [], Auth := "" }
        ∧ (GCM.Push gw n auth).sent = [])
      ∧ ((C2DM.Push cw n auth).outcome = Outcome.returned
          { Retry := false, Delay := 0, Successes := 0,
            Errors := GoMap.made [("", "NoDeviceTokens")], Updates := GoMap.made [], Auth := "" }
        ∧ (C2DM.Push cw n auth).sent = []) := by
  simp [APNS.Push, GCM.Push, C2DM.Push, h, NewPushStatus, GoMap.set, GoMap.setEntries,
    GoMap.entries]

/-- C3 at a sample notification without device tokens. -/
theorem Push_no_device_tokens_witness :
    emptyJob.DeviceTokens = []
      ∧ (APNS.Push freshAPNS quietAPNSWorld emptyJob "KEY").outcome = Outcome.returned
          { Retry := false, Delay := 0, Successes := 0,
            Errors := GoMap.made [("", "NoDeviceTokens")], Updates := GoMap.made [], Auth := "" }
      ∧ (GCM.Push (gcmWorldOf (responseOf 200 "" "") emptyGCMResponse) emptyJob "KEY").sent = []
      ∧ (C2DM.Push (c2dmWorldOf (responseOf 200 "" "")) emptyJob "KEY").sent = [] :=
  have h := Push_no_device_tokens freshAPNS quietAPNSWorld
    (gcmWorldOf (responseOf 200 "" "") emptyGCMResponse) (c2dmWorldOf (responseOf 200 "" ""))
    emptyJob "KEY" rfl
  ⟨rfl, h.1.1, h.2.1.2, h.2.2.2⟩

/-! ### Reading a map after an assignment -/

theorem lookup_setEntries_self {α : Type} (es : List (String × α)) (k : String) (v : α) :
    (GoMap.setEntries es k v).lookup k = some v := by
  induction es with
  | nil => simp [GoMap.setEntries, List.lookup]
  | cons e es ih =>
    obtain ⟨k', v'⟩ := e
    by_cases hk : k' = k
    · simp [GoMap.setEntries, hk, List.lookup]
    · have hk2 : (k == k') = false := by
        simpa using fun h : k = k' => hk h.symm
      simp [GoMap.setEntries, hk, List.lookup, hk2, ih]

theorem lookup_setEntries_other {α : Type} (es : List (String × α)) (k k2 : String) (v : α)
    (h : k2 ≠ k) : (GoMap.setEntries es k v).lookup k2 = es.lookup k2 := by
  induction es with
  | nil =>
    have hk2 : (k2 == k) = false := by simpa using h
    simp [GoMap.setEntries, List.lookup, hk2]
  | cons e es ih =>
    obtain ⟨k', v'⟩ := e
    by_cases hk : k' = k
    · subst hk
      have hk2 : (k2 == k') = false := by simpa using h
      simp [GoMap.setEntries, List.lookup, hk2]
    · simp only [GoMap.setEntries, hk, if_false, List.lookup]
      cases hb : (k2 == k') <;> simp [ih]

/-- Reading the key just assigned gives the assigned value. -/
theorem GoMap.get?_set_self {α : Type} (m : GoMap α) (k : String) (v : α) :
    (m.set k v).get? k = some v := by
  simp [GoMap.get?, GoMap.set, GoMap.entries, lookup_setEntries_self]

/-- Reading another key is not affected by an assignment. -/
theorem GoMap.get?_set_other {α : Type} (m : GoMap α) (k k2 : String) (v : α) (h : k2 ≠ k) :
    (m.set k v).get? k2 = m.get? k2 := by
  simp [GoMap.get?, GoMap.set, GoMap.entries, lookup_setEntries_other _ _ _ _ h]

/-- An assignment that does not panic gives the map `set` gives. -/
theorem GoMap.assign_eq_some {α : Type} {m m' : GoMap α} {k : String} {v : α}
    (h : m.assign k v = some m') : m' = m.set k v := by
  cases m with
  | nil => simp [GoMap.assign] at h
  | made es =>
    simp only [GoMap.assign, Option.some.injEq] at h
    rw [← h]
    rfl

/-- An assignment panics exactly on the nil map. -/
theorem GoMap.assign_eq_none {α : Type} (m : GoMap α) (k : String) (v : α) :
    m.assign k v = none ↔ m = GoMap.nil := by
  cases m <;> simp [GoMap.assign]

/-- What `set` gives is a made map, so `set` is applied to a made map wherever
it is applied to the result of a `set`. -/
theorem GoMap.set_made {α : Type} (m : GoMap α) (k : String) (v : α) :
    ∃ es, m.set k v = GoMap.made es := ⟨_, rfl⟩

/-- The two maps of a new status are made. -/
theorem NewPushStatus_made :
    NewPushStatus.Errors = GoMap.made [] ∧ NewPushStatus.Updates = GoMap.made [] := ⟨rfl, rfl⟩

/-- A map in which a key is found is a made map. -/
theorem GoMap.made_of_get? {α : Type} (m : GoMap α) (k : String) (v : α)
    (h : m.get? k = some v) : ∃ es, m = GoMap.made es := by
  cases m with
  | nil => simp [GoMap.get?, GoMap.entries] at h
  | made es => exact ⟨es, rfl⟩

/-! ### The loop over the results of a GCM response -/

theorem GCM.results_cons (E : String → String) (tokens : List String) (r : GCMResult)
    (rest : List GCMResult) (i : Nat) (ps : PushStatus) (tok : String)
    (h : tokens[i]? = some tok) :
    GCM.results E tokens (r :: rest) i ps
      = GCM.results E tokens rest (i + 1) (GCM.record E tok r ps) := by
  unfold GCM.record
  by_cases h1 : r.MessageID = "" <;> by_cases h2 : r.RegistrationID = "" <;>
    simp [GCM.results, h, h1, h2]

theorem GCM.record_fields (E : String → String) (tok : String) (r : GCMResult)
    (ps : PushStatus) :
    (GCM.record E tok r ps).Retry = ps.Retry ∧ (GCM.record E tok r ps).Delay = ps.Delay
      ∧ (GCM.record E tok r ps).Successes = ps.Successes
      ∧ (GCM.record E tok r ps).Auth = ps.Auth := by
  unfold GCM.record
  by_cases h1 : r.MessageID = "" <;> by_cases h2 : r.RegistrationID = "" <;> simp [h1, h2]

theorem GCM.record_other (E : String → String) (tok t : String) (r : GCMResult)
    (ps : PushStatus) (h : t ≠ tok) :
    (GCM.record E tok r ps).Errors.get? t = ps.Errors.get? t
      ∧ (GCM.record E tok r ps).Updates.get? t = ps.Updates.get? t := by
  unfold GCM.record
  by_cases h1 : r.MessageID = "" <;> by_cases h2 : r.RegistrationID = "" <;>
    simp [h1, h2, GoMap.get?_set_other _ _ _ _ h]

theorem GCM.record_self (E : String → String) (tok : String) (r : GCMResult)
    (ps : PushStatus) :
    (r.MessageID ≠ "" → r.RegistrationID ≠ "" →
        (GCM.record E tok r ps).Updates.get? tok = some r.RegistrationID)
      ∧ (r.MessageID = "" → (GCM.record E tok r ps).Errors.get? tok = some (E r.Error)) := by
  unfold GCM.record
  by_cases h1 : r.MessageID = "" <;> by_cases h2 : r.RegistrationID = "" <;>
    simp [h1, h2, GoMap.get?_set_self]

theorem GCM.record_errors_origin (E : String → String) (tok t v : String) (r : GCMResult)
    (ps : PushStatus) (h : (GCM.record E tok r ps).Errors.get? t = some v) :
    ps.Errors.get? t = some v ∨ (t = tok ∧ r.MessageID = "" ∧ v = E r.Error) := by
  unfold GCM.record at h
  by_cases h1 : r.MessageID = ""
  · by_cases ht : t = tok
    · subst ht
      simp [h1, GoMap.get?_set_self] at h
      exact Or.inr ⟨rfl, h1, h.symm⟩
    · simp [h1, GoMap.get?_set_other _ _ _ _ ht] at h
      exact Or.inl h
  · by_cases h2 : r.RegistrationID = "" <;> simp [h1, h2] at h <;> exact Or.inl h

theorem GCM.record_updates_origin (E : String → String) (tok t v : String) (r : GCMResult)
    (ps : PushStatus) (h : (GCM.record E tok r ps).Updates.get? t = some v) :
    ps.Updates.get? t = some v
      ∨ (t = tok ∧ r.MessageID ≠ "" ∧ r.RegistrationID ≠ "" ∧ v = r.RegistrationID) := by
  unfold GCM.record at h
  by_cases h1 : r.MessageID = ""
  · simp [h1] at h
    exact Or.inl h
  · by_cases h2 : r.RegistrationID = ""
    · simp [h1, h2] at h
      exact Or.inl h
    · by_cases ht : t = tok
      · subst ht
        simp [h1, h2, GoMap.get?_set_self] at h
        exact Or.inr ⟨rfl, h1, h2, h.symm⟩
      · simp [h1, h2, GoMap.get?_set_other _ _ _ _ ht] at h
        exact Or.inl h

/-- The loop over the results, when no result lies beyond the device tokens:
it ends without a panic, leaves the scalar fields alone, leaves alone every
token that is not at an index of a result, records each result under its
token (the last result of a token wins), and records nothing else. -/
theorem GCM.results_spec (E : String → String) (tokens : List String) :
    ∀ (results : List GCMResult) (i : Nat) (ps : PushStatus),
      i + results.length ≤ tokens.length →
      ∃ ps', GCM.results E tokens results i ps = some ps'
        ∧ (ps'.Retry = ps.Retry ∧ ps'.Delay = ps.Delay ∧ ps'.Successes = ps.Successes
            ∧ ps'.Auth = ps.Auth)
        ∧ (∀ t, (∀ j, j < results.length → tokens[i + j]? ≠ some t) →
            ps'.Errors.get? t = ps.Errors.get? t ∧ ps'.Updates.get? t = ps.Updates.get? t)
        ∧ (∀ j r t, results[j]? = some r → tokens[i + j]? = some t →
            (∀ j2, j < j2 → j2 < results.length → tokens[i + j2]? ≠ some t) →
            (r.MessageID ≠ "" → r.RegistrationID ≠ "" →
                ps'.Updates.get? t = some r.RegistrationID)
              ∧ (r.MessageID = "" → ps'.Errors.get? t = some (E r.Error)))
        ∧ (∀ t v, ps'.Errors.get? t = some v →
            ps.Errors.get? t = some v
              ∨ ∃ j r, results[j]? = some r ∧ tokens[i + j]? = some t ∧ r.MessageID = ""
                  ∧ v = E r.Error)
        ∧ (∀ t v, ps'.Updates.get? t = some v →
            ps.Updates.get? t = some v
              ∨ ∃ j r, results[j]? = some r ∧ tokens[i + j]? = some t ∧ r.MessageID ≠ ""
                  ∧ r.RegistrationID ≠ "" ∧ v = r.RegistrationID) := by
  intro results
  induction results with
  | nil =>
    intro i ps _
    refine ⟨ps, rfl, ⟨rfl, rfl, rfl, rfl⟩, fun _ _ => ⟨rfl, rfl⟩, ?_, fun _ _ h => Or.inl h,
      fun _ _ h => Or.inl h⟩
    intro j r t hj
    simp at hj
  | cons r0 rest ih =>
    intro i ps hlen
    have hi : i < tokens.length := by simp at hlen; omega
    obtain ⟨tok, htok⟩ : ∃ tok, tokens[i]? = some tok := ⟨tokens[i], by simp [hi]⟩
    have hlen2 : (i + 1) + rest.length ≤ tokens.length := by simp at hlen; omega
    obtain ⟨ps', hrun, hfields, hframe, hwritten, herr, hupd⟩ :=
      ih (i + 1) (GCM.record E tok r0 ps) hlen2
    have hidx : ∀ j, i + 1 + j = i + (j + 1) := fun j => by omega
    refine ⟨ps', ?_, ?_, ?_, ?_, ?_, ?_⟩
    · rw [GCM.results_cons E tokens r0 rest i ps tok htok]; exact hrun
    · have hf := GCM.record_fields E tok r0 ps
      exact ⟨hfields.1.trans hf.1, hfields.2.1.trans hf.2.1, hfields.2.2.1.trans hf.2.2.1,
        hfields.2.2.2.trans hf.2.2.2⟩
    · intro t ht
      have ht0 : t ≠ tok := by
        intro heq
        have := ht 0 (by simp)
        simp [htok, heq] at this
      have hrest := hframe t (fun j hj => by
        rw [hidx j]; exact ht (j + 1) (by simp; omega))
      have ho := GCM.record_other E tok t r0 ps ht0
      exact ⟨hrest.1.trans ho.1, hrest.2.trans ho.2⟩
    · intro j r t hj ht hlater
      cases j with
      | zero =>
        simp at hj
        subst hj
        have htt : tok = t := by simpa [htok] using ht
        subst htt
        have hrest := hframe tok (fun j hj => by
          rw [hidx j]; exact hlater (j + 1) (by omega) (by simp; omega))
        have hs := GCM.record_self E tok r0 ps
        exact ⟨fun h1 h2 => hrest.2.trans (hs.1 h1 h2), fun h1 => hrest.1.trans (hs.2 h1)⟩
      | succ j =>
        simp at hj
        rw [← hidx j] at ht
        exact hwritten j r t hj ht (fun j2 hj2 hj2' => by
          rw [hidx j2]; exact hlater (j2 + 1) (by omega) (by simp; omega))
    · intro t v hv
      rcases herr t v hv with h | ⟨j, r, hj, ht, hm, hvE⟩
      · rcases GCM.record_errors_origin E tok t v r0 ps h with h0 | ⟨h1, h2, h3⟩
        · exact Or.inl h0
        · exact Or.inr ⟨0, r0, by simp, by simpa [h1] using htok, h2, h3⟩
      · exact Or.inr ⟨j + 1, r, by simpa using hj, by rw [← hidx j]; exact ht, hm, hvE⟩
    · intro t v hv
      rcases hupd t v hv with h | ⟨j, r, hj, ht, hm, hr, hvE⟩
      · rcases GCM.record_updates_origin E tok t v r0 ps h with h0 | ⟨h1, h2, h3, h4⟩
        · exact Or.inl h0
        · exact Or.inr ⟨0, r0, by simp, by simpa [h1] using htok, h2, h3, h4⟩
      · exact Or.inr ⟨j + 1, r, by simpa using hj, by rw [← hidx j]; exact ht, hm, hr, hvE⟩

/-- C4, as stated, fails in two ways.  A response whose `failure` and
`canonical_ids` are both 0 is not read any further, so the error of its
result is not recorded under `dev1`; and when a device token occurs twice, the
later result overwrites the earlier one, so the error of result 0 is not the
one recorded under its token. -/
theorem GCM_Push_200_counterexample :
    (¬ ∃ ps, (GCM.Push (gcmWorldOf (responseOf 200 "" "") uncountedFailure) gcmJob "KEY").outcome
            = Outcome.returned ps
          ∧ ps.Successes = uncountedFailure.Success
          ∧ ∀ (i : Nat) (r : GCMResult) (t : String), uncountedFailure.Results[i]? = some r →
              gcmJob.DeviceTokens[i]? = some t →
              (r.MessageID ≠ "" → r.RegistrationID ≠ "" →
                  ps.Updates.get? t = some r.RegistrationID)
                ∧ (r.MessageID = "" → ps.Errors.get? t = some r.Error))
      ∧ (¬ ∃ ps, (GCM.Push (gcmWorldOf (responseOf 200 "" "") twoFailures) repeatedTokenJob
              "KEY").outcome = Outcome.returned ps
          ∧ ps.Successes = twoFailures.Success
          ∧ ∀ (i : Nat) (r : GCMResult) (t : String), twoFailures.Results[i]? = some r →
              repeatedTokenJob.DeviceTokens[i]? = some t →
              (r.MessageID ≠ "" → r.RegistrationID ≠ "" →
                  ps.Updates.get? t = some r.RegistrationID)
                ∧ (r.MessageID = "" → ps.Errors.get? t = some r.Error)) := by
  constructor
  · rintro ⟨ps, hout, _, hall⟩
    have hrun : (GCM.Push (gcmWorldOf (responseOf 200 "" "") uncountedFailure) gcmJob
        "KEY").outcome = Outcome.returned NewPushStatus := by decide
    rw [hrun] at hout
    injection hout with hps
    subst hps
    have h := (hall 0 { MessageID := "", RegistrationID := "", Error := "Unavailable" } "dev1"
      rfl rfl).2 rfl
    revert h
    decide
  · rintro ⟨ps, hout, _, hall⟩
    have hrun : (GCM.Push (gcmWorldOf (responseOf 200 "" "") twoFailures) repeatedTokenJob
        "KEY").outcome = Outcome.returned
          { NewPushStatus with Errors := GoMap.made [("t", "NotRegistered")] } := by decide
    rw [hrun] at hout
    injection hout with hps
    subst hps
    have h := (hall 0 { MessageID := "", RegistrationID := "", Error := "Unavailable" } "t"
      rfl rfl).2 rfl
    revert h
    decide

/-! ### The APNS loop body -/

/-- Connecting does not read from the socket. -/
theorem APNSConn.connect_no_read (client : APNSConn) (x : APNSExchange) :
    NetEvent.read ∉ (client.connect x).2.2 := by
  unfold APNSConn.connect
  split
  · simp
  · dsimp only
    split
    · simp
    · split <;> simp

/-- Connecting does not write to the socket. -/
theorem APNSConn.connect_no_write (client : APNSConn) (x : APNSExchange) (pdu : List Nat) :
    NetEvent.write pdu ∉ (client.connect x).2.2 := by
  unfold APNSConn.connect
  split
  · simp
  · dsimp only
    split
    · simp
    · split <;> simp


/-- The status byte of a reply: the byte at index 1 of the 6-byte read buffer,
which starts zeroed. -/
theorem readb_index_one (bytes : List Nat) :
    ((bytes ++ List.replicate 6 0).take 6).getD 1 0 = bytes.getD 1 0 := by
  match bytes with
  | [] => rfl
  | [_] => rfl
  | _ :: _ :: _ => rfl

/-- A pass of the loop body that reads a reply ends the call with the status
classified by the reply's status byte. -/
theorem APNS.send_read (x : APNSExchange) (n : Notification) (devToken : String)
    (btoken bpayload : List Nat) (pool : APNSConnPool) (st : APNSLoop) (bytes : List Nat)
    (hst : NetEvent.read ∉ st.events) (hdata : x.read = ReadOutcome.data bytes) :
    ∃ run, APNS.send x n devToken btoken bpayload pool st = APNSStep.done run
      ∧ (NetEvent.read ∈ run.events →
          run.outcome = Outcome.returned (APNS.classify st.ps devToken (bytes.getD 1 0 % 256))) := by
  unfold APNS.send
  cases hpool : pool.conn with
  | nil => exact ⟨_, rfl, fun h => absurd h (by simpa [APNSLoop.block] using hst)⟩
  | cons client remaining =>
    rcases hc : client.connect x with ⟨c, err, evs⟩
    have hevs : NetEvent.read ∉ evs := by
      have := APNSConn.connect_no_read client x
      rw [hc] at this
      exact this
    dsimp only
    rw [hc]
    dsimp only
    cases err with
    | some e =>
      exact ⟨_, rfl, fun h => absurd h (by simpa [APNSLoop.finish] using ⟨hst, hevs⟩)⟩
    | none =>
      dsimp only
      split
      · exact ⟨_, rfl, fun h => absurd h (by simpa [APNSLoop.finish] using ⟨hst, hevs⟩)⟩
      · split
        · exact ⟨_, rfl, fun h => absurd h (by simpa [APNSLoop.block] using ⟨hst, hevs⟩)⟩
        · cases hw : x.write with
          | some e =>
            exact ⟨_, rfl, fun h => absurd h (by simpa [APNSLoop.finish] using ⟨hst, hevs⟩)⟩
          | none =>
            simp only [hdata, Nat.zero_le, if_true, readb_index_one]
            exact ⟨_, rfl, fun _ => rfl⟩


/-- Making a pool does nothing on the network and a pass of the loop body
that does not reach `pool.Get()` leaves the events as they were; a pass that
reads a reply ends the call with the status classified by the status byte. -/
theorem APNS.token_read (w : APNSWorld) (n : Notification) (auth : String) (k : Nat)
    (devToken : String) (st : APNSLoop) (bytes : List Nat)
    (hst : NetEvent.read ∉ st.events) (hdata : (w.exchange k).read = ReadOutcome.data bytes) :
    ∃ run, APNS.token w n auth k devToken st = APNSStep.done run
      ∧ (NetEvent.read ∈ run.events →
          run.outcome = Outcome.returned (APNS.classify st.ps devToken (bytes.getD 1 0 % 256))) := by
  unfold APNS.token
  cases hdec : DecodeString devToken with
  | error e => exact ⟨_, rfl, fun h => absurd h (by simpa [APNSLoop.finish] using hst)⟩
  | ok btoken =>
    dsimp only
    split
    · split
      · exact ⟨_, rfl, fun h => absurd h (by simpa [APNSLoop.block] using hst)⟩
      · split
        · exact APNS.send_read _ n devToken btoken _ _ _ bytes hst hdata
        · split
          · exact ⟨_, rfl, fun h => absurd h (by simpa [APNSLoop.finish] using hst)⟩
          · split
            · exact ⟨_, rfl, fun h => absurd h (by simpa [APNSLoop.panic] using hst)⟩
            · exact APNS.send_read _ n devToken btoken _ _ _ bytes hst hdata
    · exact ⟨_, rfl, fun h => absurd h (by simpa [APNSLoop.finish] using hst)⟩

/-- C7, amended: when `APNS.Push` has written the PDU of the first device token
and read a reply without error, it returns the status classified by the byte
at index 1 of the reply: 0 gives `Successes` 1 and no error; 1 gives a retry
with the table's text `Processing Errors` for the token; 2 to 8 give the
table's text without retry (8 is `Invalid Token`); 255 gives a retry with
`Unknown`; every other value gives `UnknownAPNS` without retry. -/
theorem APNS_Push_reply (a : APNS) (w : APNSWorld) (n : Notification) (auth devToken : String)
    (rest : List String) (bytes : List Nat)
    (ht : n.DeviceTokens = devToken :: rest)
    (hdata : (w.exchange 0).read = ReadOutcome.data bytes)
    (hread : NetEvent.read ∈ (APNS.Push a w n auth).events) :
    (APNS.Push a w n auth).outcome = Outcome.returned
        (if bytes.getD 1 0 % 256 = 0 then
          { Retry := false, Delay := 0, Successes := 1, Errors := GoMap.made [],
            Updates := GoMap.made [], Auth := "" }
        else if bytes.getD 1 0 % 256 = 1 then
          { Retry := true, Delay := 0, Successes := 0,
            Errors := GoMap.made [(devToken, "Processing Errors")], Updates := GoMap.made [],
            Auth := "" }
        else if 2 ≤ bytes.getD 1 0 % 256 ∧ bytes.getD 1 0 % 256 ≤ 8 then
          { Retry := false, Delay := 0, Successes := 0,
            Errors := GoMap.made [(devToken, errText (bytes.getD 1 0 % 256))],
            Updates := GoMap.made [], Auth := "" }
        else if bytes.getD 1 0 % 256 = 255 then
          { Retry := true, Delay := 0, Successes := 0,
            Errors := GoMap.made [(devToken, "Unknown")], Updates := GoMap.made [], Auth := "" }
        else
          { Retry := false, Delay := 0, Successes := 0,
            Errors := GoMap.made [(devToken, "UnknownAPNS")], Updates := GoMap.made [],
            Auth := "" })
      ∧ errText 8 = "Invalid Token" := by
  refine ⟨?_, rfl⟩
  obtain ⟨run, hrun, hcls⟩ := APNS.token_read w n auth 0 devToken
    { apns := a, ps := NewPushStatus, held := [], events := [] } bytes (by simp) hdata
  have hpush : APNS.Push a w n auth = run := by
    simp [APNS.Push, ht, APNS.tokens, hrun]
  rw [hpush] at hread ⊢
  rw [hcls hread]
  generalize bytes.getD 1 0 % 256 = status
  have h1 : errText 1 = "Processing Errors" := rfl
  unfold APNS.classify
  by_cases c0 : status = 0
  · simp [c0, NewPushStatus]
  · by_cases c1 : status = 1
    · simp [c1, h1, NewPushStatus, GoMap.set, GoMap.setEntries, GoMap.entries]
    · by_cases c2 : 2 ≤ status ∧ status ≤ 8
      · simp [c0, c1, c2, NewPushStatus, GoMap.set, GoMap.setEntries, GoMap.entries]
      · by_cases c3 : status = 255
        · simp [c3, NewPushStatus, GoMap.set, GoMap.setEntries, GoMap.entries]
        · simp [c0, c1, c2, c3, NewPushStatus, GoMap.set, GoMap.setEntries, GoMap.entries]


/-- C7, as stated, fails at status 1: for the reply `[8, 1, 0, 0, 0, 1]` the
PDU is written and the reply is read, and the error recorded for the token is
the table's text `Processing Errors`, not `ProcessingError`. -/
theorem APNS_Push_reply_counterexample :
    NetEvent.read ∈ (APNS.Push freshAPNS (replyingAPNSWorld [8, 1, 0, 0, 0, 1]) apnsJob
        "cert").events
      ∧ ¬ ∃ ps, (APNS.Push freshAPNS (replyingAPNSWorld [8, 1, 0, 0, 0, 1]) apnsJob
            "cert").outcome = Outcome.returned ps
          ∧ ps.Retry = true ∧ ps.Errors.get? "0aff" = some "ProcessingError" := by
  have hrun : (APNS.Push freshAPNS (replyingAPNSWorld [8, 1, 0, 0, 0, 1]) apnsJob
      "cert").outcome = Outcome.returned
        { Retry := true, Delay := 0, Successes := 0,
          Errors := GoMap.made [("0aff", "Processing Errors")], Updates := GoMap.made [],
          Auth := "" } := by decide
  refine ⟨by decide, ?_⟩
  rintro ⟨ps, hout, _, herr⟩
  rw [hrun] at hout
  injection hout with hps
  subst hps
  revert herr
  decide

/-- C7, amended, at the sixth scenario of the specification: the reply
`[8, 8, 0, 0, 0, 1]` gives `Invalid Token` for the token, without retry. -/
theorem APNS_Push_reply_witness :
    (apnsJob.DeviceTokens = "0aff" :: []
        ∧ ((replyingAPNSWorld [8, 8, 0, 0, 0, 1]).exchange 0).read
            = ReadOutcome.data [8, 8, 0, 0, 0, 1]
        ∧ NetEvent.read ∈ (APNS.Push freshAPNS (replyingAPNSWorld [8, 8, 0, 0, 0, 1]) apnsJob
            "cert").events)
      ∧ (APNS.Push freshAPNS (replyingAPNSWorld [8, 8, 0, 0, 0, 1]) apnsJob "cert").outcome
          = Outcome.returned
              { Retry := false, Delay := 0, Successes := 0,
                Errors := GoMap.made [("0aff", "Invalid Token")], Updates := GoMap.made [],
                Auth := "" } := by
  have hread : NetEvent.read ∈ (APNS.Push freshAPNS (replyingAPNSWorld [8, 8, 0, 0, 0, 1])
      apnsJob "cert").events := by decide
  have h := (APNS_Push_reply freshAPNS (replyingAPNSWorld [8, 8, 0, 0, 0, 1]) apnsJob "cert"
    "0aff" [] [8, 8, 0, 0, 0, 1] rfl rfl hread).1
  refine ⟨⟨rfl, rfl, hread⟩, ?_⟩
  rw [h]
  decide

/-! ### The PDU -/

theorem bigEndian_length (width v : Nat) : (bigEndian width v).length = width := by
  induction width with
  | zero => rfl
  | succ w ih => simp [bigEndian, ih]

theorem bigEndian_mod (width v : Nat) : bigEndian width (v % 256 ^ width) = bigEndian width v := by
  have key : ∀ w k, w ≤ k → bigEndian w (v % 256 ^ k) = bigEndian w v := by
    intro w
    induction w with
    | zero => intro k _; rfl
    | succ w ih =>
      intro k hk
      simp only [bigEndian]
      rw [ih k (by omega)]
      congr 1
      obtain ⟨d, rfl⟩ : ∃ d, k = w + 1 + d := ⟨k - (w + 1), by omega⟩
      have h1 : 256 ^ (w + 1 + d) = 256 ^ w * (256 * 256 ^ d) := by ring
      rw [h1, Nat.mod_mul_right_div_self, Nat.mod_mul_right_mod]
  exact key width width (le_refl _)

theorem foldl_bigEndian (width v acc : Nat) :
    (bigEndian width v).foldl (fun acc b => acc * 256 + b) acc
      = acc * 256 ^ width + v % 256 ^ width := by
  induction width generalizing acc with
  | zero => simp [bigEndian, Nat.mod_one]
  | succ w ih =>
    simp only [bigEndian, List.foldl_cons]
    rw [ih]
    have h1 : v % 256 ^ (w + 1) = 256 ^ w * (v / 256 ^ w % 256) + v % 256 ^ w := by
      rw [pow_succ, Nat.mod_mul]
      ring
    rw [h1]
    ring

/-- The bytes `bigEndian` gives are the big-endian digits of the value modulo
`2^(8*width)`. -/
theorem fromBigEndian_bigEndian (width v : Nat) :
    fromBigEndian (bigEndian width v) = v % 256 ^ width := by
  simp [fromBigEndian, foldl_bigEndian]

/-- The only PDU a pass of the loop body writes is the one built from the
token, the payload and the expiry. -/
theorem APNS.send_write (x : APNSExchange) (n : Notification) (devToken : String)
    (btoken bpayload : List Nat) (pool : APNSConnPool) (st : APNSLoop)
    (hst : ∀ pdu, NetEvent.write pdu ∉ st.events) :
    ∃ run, APNS.send x n devToken btoken bpayload pool st = APNSStep.done run
      ∧ ∀ pdu, NetEvent.write pdu ∈ run.events →
          pdu = APNS.pdu (APNS.expiry n x.now) btoken bpayload := by
  unfold APNS.send
  cases hpool : pool.conn with
  | nil => exact ⟨_, rfl, fun pdu h => absurd h (by simpa [APNSLoop.block] using hst pdu)⟩
  | cons client remaining =>
    rcases hc : client.connect x with ⟨c, err, evs⟩
    have hevs : ∀ pdu, NetEvent.write pdu ∉ evs := by
      intro pdu
      have := APNSConn.connect_no_write client x pdu
      rw [hc] at this
      exact this
    dsimp only
    rw [hc]
    dsimp only
    cases err with
    | some e =>
      exact ⟨_, rfl, fun pdu h =>
        absurd h (by simpa [APNSLoop.finish] using ⟨hst pdu, hevs pdu⟩)⟩
    | none =>
      dsimp only
      split
      · exact ⟨_, rfl, fun pdu h =>
          absurd h (by simpa [APNSLoop.finish] using ⟨hst pdu, hevs pdu⟩)⟩
      · split
        · exact ⟨_, rfl, fun pdu h =>
            absurd h (by simpa [APNSLoop.block] using ⟨hst pdu, hevs pdu⟩)⟩
        · have hmem : ∀ pdu, NetEvent.write pdu ∈ st.events ++ evs
                ++ [NetEvent.write (APNS.pdu (APNS.expiry n x.now) btoken bpayload)] →
              pdu = APNS.pdu (APNS.expiry n x.now) btoken bpayload := by
            intro pdu h
            simp only [List.mem_append, List.mem_singleton] at h
            rcases h with (h | h) | h
            · exact absurd h (hst pdu)
            · exact absurd h (hevs pdu)
            · injection h
          cases hw : x.write with
          | some e =>
            exact ⟨_, rfl, fun pdu h => hmem pdu (by simpa [APNSLoop.finish] using h)⟩
          | none =>
            dsimp only
            cases hr : x.read with
            | timeout =>
              exact ⟨_, rfl, fun pdu h => hmem pdu (by simpa [APNSLoop.finish] using h)⟩
            | failed e =>
              exact ⟨_, rfl, fun pdu h => hmem pdu (by simpa [APNSLoop.finish] using h)⟩
            | data bytes =>
              simp only [Nat.zero_le, if_true]
              exact ⟨_, rfl, fun pdu h => hmem pdu (by simpa [APNSLoop.finish] using h)⟩

theorem NewAPNSConnPool.fill_ok (w : APNSWorld) (certificate key : String)
    (h : w.X509KeyPair certificate key = none) (x : Nat) (conn : List APNSConn) (n : Int) :
    NewAPNSConnPool.fill w certificate key x conn n
      = Except.ok { conn := conn ++ List.replicate x (newClient certificate key),
                    nClients := n + x } := by
  induction x generalizing conn n with
  | zero => simp [NewAPNSConnPool.fill]
  | succ x ih =>
    simp only [NewAPNSConnPool.fill, NewAPNSClient, h]
    rw [ih]
    simp [newClient, List.replicate_succ]
    omega

/-- With a certificate and key that parse, `NewAPNSConnPool` returns a pool of
20 fresh clients. -/
theorem NewAPNSConnPool_ok (w : APNSWorld) (certificate key : String)
    (h : w.X509KeyPair certificate key = none) :
    NewAPNSConnPool w certificate key
      = Except.ok { conn := List.replicate 20 (newClient certificate key), nClients := 20 } := by
  simp [NewAPNSConnPool, NewAPNSConnPool.fill_ok w certificate key h, MAX_POOL_SIZE]

/-- With a certificate that does not parse, `NewAPNSConnPool` fails. -/
theorem NewAPNSConnPool_error (w : APNSWorld) (certificate key err : String)
    (h : w.X509KeyPair certificate key = some err) :
    NewAPNSConnPool w certificate key = Except.error err := by
  simp [NewAPNSConnPool, NewAPNSConnPool.fill, NewAPNSClient, h, MAX_POOL_SIZE]

theorem APNS.token_write (w : APNSWorld) (n : Notification) (auth : String) (k : Nat)
    (devToken : String) (st : APNSLoop) (T : List Nat) (P : String)
    (hst : ∀ pdu, NetEvent.write pdu ∉ st.events)
    (hT : DecodeString devToken = Except.ok T)
    (hP : n.Payload.get? "payload" = some (GoValue.str P)) :
    ∃ run, APNS.token w n auth k devToken st = APNSStep.done run
      ∧ ∀ pdu, NetEvent.write pdu ∈ run.events →
          pdu = APNS.pdu (APNS.expiry n (w.exchange k).now) T (bytesOf P) := by
  unfold APNS.token
  simp only [hT, hP]
  split
  · exact ⟨_, rfl, fun pdu h => absurd h (by simpa [APNSLoop.block] using hst pdu)⟩
  · split
    · exact APNS.send_write _ n devToken T _ _ _ hst
    · split
      · exact ⟨_, rfl, fun pdu h => absurd h (by simpa [APNSLoop.finish] using hst pdu)⟩
      · split
        · exact ⟨_, rfl, fun pdu h => absurd h (by simpa [APNSLoop.panic] using hst pdu)⟩
        · exact APNS.send_write _ n devToken T _ _ _ hst

theorem bigEndian_expiry (n : Notification) (now : Nat) :
    bigEndian 4 (APNS.expiry n now)
      = bigEndian 4 (if n.Expiry ≠ 0 then n.Expiry else now + 3600) := by
  unfold APNS.expiry
  by_cases h : n.Expiry = 0
  · simp only [h, if_true, ne_eq, not_true_eq_false, if_false]
    have h256 : (256 : Nat) ^ 4 = 4294967296 := by norm_num
    have hval : (now % 4294967296 + 60 * 60) % 4294967296 % 256 ^ 4 = (now + 3600) % 256 ^ 4 := by
      rw [h256]
      omega
    calc bigEndian 4 ((now % 4294967296 + 60 * 60) % 4294967296)
        = bigEndian 4 ((now % 4294967296 + 60 * 60) % 4294967296 % 256 ^ 4) :=
          (bigEndian_mod 4 _).symm
      _ = bigEndian 4 ((now + 3600) % 256 ^ 4) := by rw [hval]
      _ = bigEndian 4 (now + 3600) := bigEndian_mod 4 _
  · simp [h]

/-! ### The retry chain -/

theorem Engine.run_add (sm : ServiceManager) (g : EngineWorld) (a b : Nat) (e : Engine) :
    Engine.run sm g (a + b) e = Engine.run sm g b (Engine.run sm g a e) := by
  induction a generalizing e with
  | zero => simp [Engine.run]
  | succ a ih =>
    rw [Nat.succ_add]
    simp only [Engine.run]
    exact ih _

theorem Engine.run_succ (sm : ServiceManager) (g : EngineWorld) (f : Nat) (e : Engine) :
    Engine.run sm g (f + 1) e = Engine.step sm g (Engine.run sm g f e) := by
  rw [Engine.run_add]
  rfl

theorem Engine.run_idle (sm : ServiceManager) (g : EngineWorld) (f : Nat) (e : Engine)
    (h : e.queue = []) : Engine.run sm g f e = e := by
  induction f with
  | zero => rfl
  | succ f ih =>
    have hstep : Engine.step sm g e = e := by
      unfold Engine.step
      rw [h]
    simp only [Engine.run, hstep]
    exact ih

theorem wrapInt64_small (v : Int) (h1 : -9223372036854775808 ≤ v)
    (h2 : v < 9223372036854775808) : wrapInt64 v = v := by
  unfold wrapInt64
  omega


theorem Notification.Init_ok (n : Notification) (out : String) (now : Nat) :
    ∃ n', n.Init (Except.ok out) now = (n', none) ∧ n'.sameRequest n
      ∧ n'.Retries = n.Retries := by
  exact ⟨_, rfl, ⟨rfl, rfl, rfl, rfl, rfl, rfl⟩, rfl⟩

theorem Notification.sameRequest_trans {a b c : Notification} (h1 : a.sameRequest b)
    (h2 : b.sameRequest c) : a.sameRequest c := by
  obtain ⟨a1, a2, a3, a4, a5, a6⟩ := h1
  obtain ⟨b1, b2, b3, b4, b5, b6⟩ := h2
  exact ⟨a1.trans b1, a2.trans b2, a3.trans b3, a4.trans b4, a5.trans b5, a6.trans b6⟩

/-- One attempt of a job that is asked to retry: `Retries` grows by one, and
the job is enqueued again unless `Retries` went above 10. -/
theorem Engine.step_retrying (sm : ServiceManager) (g : EngineWorld) (job : Notification)
    (svc : Service) (f : Nat) (e : Engine)
    (hsvc : sm.Services.get? job.Provider = some svc)
    (hretry : ∀ k n a, n.sameRequest job → ∃ ps, svc k n a = Outcome.returned ps ∧ ps.Retry = true)
    (hinit : ∀ k, ∃ out, g.uuidgen k = Except.ok out)
    (hquit : ∀ r, g.Quitting r = false)
    (he : Engine.retrying job f e) (hf : f ≤ 10) :
    (f < 10 → Engine.retrying job (f + 1) (Engine.step sm g e))
      ∧ (f = 10 → Engine.gaveUp (Engine.step sm g e)) := by
  obtain ⟨hsame, hret, hworks, hres, ⟨a, hq⟩, henq, hgave⟩ := he
  obtain ⟨out, hout⟩ := hinit f
  obtain ⟨job1, hjob1, hsame1, hret1⟩ := Notification.Init_ok e.job out (g.now f)
  obtain ⟨ps, hps, hpsr⟩ := hretry f job1 a (Notification.sameRequest_trans hsame1 hsame)
  have hprov : e.job.Provider = job.Provider := hsame.2.1
  have hwrap : wrapInt64 ((f : Int) + 1) = (f : Int) + 1 := wrapInt64_small _ (by omega) (by omega)
  have hstep : Engine.step sm g e
      = (let r := ps.ReSend { job1 with Status := some ps } false
         { e with queue := [] ++ r.2.2, works := f + 1, job := r.1,
                  log := e.log ++ [Event.push f a] ++ r.2.1, resends := f + 1 }) := by
    unfold Engine.step
    rw [hq]
    simp only [ServiceManager.Work, hworks, Nat.add_sub_cancel, hprov, hsvc, hout, hjob1, hps,
      hpsr, if_true, hres, hquit]
  rw [hstep]
  simp only [PushStatus.ReSend, hret1, hret, hwrap]
  constructor
  · intro hlt
    have h10 : ¬ ((f : Int) + 1 > 10) := by omega
    simp only [h10, if_false, Bool.false_eq_true, not_false_eq_true, if_true]
    refine ⟨?_, rfl, rfl, rfl, ⟨_, rfl⟩, ?_, ?_⟩
    · exact Notification.sameRequest_trans
        (show Notification.sameRequest _ job1 from ⟨rfl, rfl, rfl, rfl, rfl, rfl⟩)
        (Notification.sameRequest_trans hsame1 hsame)
    · simp [List.filterMap_append, henq, Event.enqueued?, List.range_succ]
    · simp [List.filterMap_append, hgave, Event.gaveUp?]
  · intro heq
    subst heq
    simp only [show ((10 : Nat) : Int) + 1 > 10 from by decide, if_true]
    refine ⟨rfl, rfl, rfl, ?_, ?_⟩
    · simp [List.filterMap_append, henq, Event.enqueued?]
    · simp [List.filterMap_append, hgave, Event.gaveUp?]


theorem Engine.run_retrying (sm : ServiceManager) (g : EngineWorld) (job : Notification)
    (auth : String) (svc : Service) (hjob : job.Retries = 0)
    (hsvc : sm.Services.get? job.Provider = some svc)
    (hretry : ∀ k n a, n.sameRequest job → ∃ ps, svc k n a = Outcome.returned ps ∧ ps.Retry = true)
    (hinit : ∀ k, ∃ out, g.uuidgen k = Except.ok out)
    (hquit : ∀ r, g.Quitting r = false) :
    ∀ f, f ≤ 10 → Engine.retrying job f (Engine.run sm g f (Engine.start sm job auth)) := by
  intro f
  induction f with
  | zero =>
    intro _
    exact ⟨⟨rfl, rfl, rfl, rfl, rfl, rfl⟩, by simpa [Engine.run, Engine.start] using hjob, rfl,
      rfl, ⟨auth, rfl⟩, rfl, rfl⟩
  | succ f ih =>
    intro hf
    rw [Engine.run_succ]
    exact (Engine.step_retrying sm g job svc f _ hsvc hretry hinit hquit (ih (by omega))
      (by omega)).1 (by omega)

/-- C9: a job that starts with `Retries` 0, whose adapter is reached and asks
for a retry at every attempt, with the engine never shutting down, is enqueued
again exactly 10 times (with `Retries` 1 to 10) and then given up (with
`Retries` 11), after which nothing is scheduled and no further attempt is
made; after `fuel` attempts `Retries` is `min fuel 11`, so each `ReSend` adds
exactly 1 and the count never goes down.  A `ReSend` that brings `Retries`
above 10 starts no goroutine, and a `ReSend` adds exactly 1 to any count below
the largest `int`. -/
theorem retry_chain (sm : ServiceManager) (g : EngineWorld) (job : Notification)
    (auth : String) (svc : Service) (hjob : job.Retries = 0)
    (hsvc : sm.Services.get? job.Provider = some svc)
    (hretry : ∀ k n a, n.sameRequest job → ∃ ps, svc k n a = Outcome.returned ps ∧ ps.Retry = true)
    (hinit : ∀ k, ∃ out, g.uuidgen k = Except.ok out)
    (hquit : ∀ r, g.Quitting r = false) :
    (∀ fuel, 11 ≤ fuel →
        (Engine.run sm g fuel (Engine.start sm job auth)).log.filterMap Event.enqueued?
            = [1, 2, 3, 4, 5, 6, 7, 8, 9, 10]
          ∧ (Engine.run sm g fuel (Engine.start sm job auth)).log.filterMap Event.gaveUp? = [11]
          ∧ (Engine.run sm g fuel (Engine.start sm job auth)).queue = []
          ∧ (Engine.run sm g fuel (Engine.start sm job auth)).works = 11)
      ∧ (∀ fuel, (Engine.run sm g fuel (Engine.start sm job auth)).job.Retries = min fuel 11)
      ∧ (∀ (p : PushStatus) (j : Notification) (q : Bool),
          wrapInt64 (j.Retries + 1) > 10 → (p.ReSend j q).2.2 = [])
      ∧ (∀ (p : PushStatus) (j : Notification) (q : Bool),
          -9223372036854775808 ≤ j.Retries → j.Retries < 9223372036854775807 →
          (p.ReSend j q).1.Retries = j.Retries + 1) := by
  have hchain := Engine.run_retrying sm g job auth svc hjob hsvc hretry hinit hquit
  have hdone : Engine.gaveUp (Engine.run sm g 11 (Engine.start sm job auth)) := by
    rw [Engine.run_succ]
    exact (Engine.step_retrying sm g job svc 10 _ hsvc hretry hinit hquit (hchain 10 (le_refl _))
      (le_refl _)).2 rfl
  have hlate : ∀ fuel, 11 ≤ fuel → Engine.run sm g fuel (Engine.start sm job auth)
      = Engine.run sm g 11 (Engine.start sm job auth) := by
    intro fuel hfuel
    obtain ⟨d, rfl⟩ : ∃ d, fuel = 11 + d := ⟨fuel - 11, by omega⟩
    rw [Engine.run_add]
    exact Engine.run_idle sm g d _ hdone.2.2.1
  refine ⟨?_, ?_, ?_, ?_⟩
  · intro fuel hfuel
    rw [hlate fuel hfuel]
    obtain ⟨_, h2, h3, h4, h5⟩ := hdone
    refine ⟨?_, h5, h3, h2⟩
    rw [h4]
    decide
  · intro fuel
    by_cases hfuel : fuel ≤ 10
    · rw [(hchain fuel hfuel).2.1]
      have : min fuel 11 = fuel := by omega
      rw [this]
    · rw [hlate fuel (by omega), hdone.1]
      have : min fuel 11 = 11 := by omega
      rw [this]
      rfl
  · intro p j q h
    simp [PushStatus.ReSend, h]
  · intro p j q h1 h2
    have hw := wrapInt64_small (j.Retries + 1) (by omega) (by omega)
    unfold PushStatus.ReSend
    dsimp only
    split
    · exact hw
    · split <;> exact hw


/-- In surroundings where GCM answers 503, the GCM adapter asks for a retry
for every notification that carries the request of `gcmJob`. -/
theorem GCM_unavailable_retries (k : Nat) (n : Notification) (a : String)
    (h : n.sameRequest gcmJob) :
    ∃ ps, (GCM.Push (unavailableWorlds.gcm k) n a).outcome = Outcome.returned ps
      ∧ ps.Retry = true := by
  obtain ⟨_, _, h3, h4, _, _⟩ := h
  have h3' : n.DeviceTokens = ["dev1"] := h3
  have h4' : n.Payload = GoMap.made [("msg", GoValue.str "hi")] := h4
  have hrun : (GCM.Push (unavailableWorlds.gcm k) n a).outcome = Outcome.returned
      { NewPushStatus with Delay := Atoi "", Retry := true,
                           Errors := NewPushStatus.Errors.set "" "ServiceUnavailable" } := by
    simp only [GCM.Push, h3', h4', GoMap.len, GoMap.entries, List.length_singleton,
      one_ne_zero, if_false, unavailableWorlds, gcmWorldOf, GCM.handleResponse, responseOf,
      if_true, gt_iff_lt, show ¬ (1000 < 1) from by decide]
  exact ⟨_, hrun, rfl⟩

/-- C9 at the GCM job of the specification's scenarios, with GCM answering 503
to every attempt: ten re-enqueues, then the job is given up. -/
theorem retry_chain_witness :
    (gcmJob.Retries = 0 ∧ ∀ r, steadyEngineWorld.Quitting r = false)
      ∧ (Engine.run (NewServiceManager unavailableWorlds) steadyEngineWorld 20
            (Engine.start (NewServiceManager unavailableWorlds) gcmJob "KEY")).log.filterMap
              Event.enqueued? = [1, 2, 3, 4, 5, 6, 7, 8, 9, 10]
      ∧ (Engine.run (NewServiceManager unavailableWorlds) steadyEngineWorld 20
            (Engine.start (NewServiceManager unavailableWorlds) gcmJob "KEY")).queue = [] := by
  have h := (retry_chain (NewServiceManager unavailableWorlds) steadyEngineWorld gcmJob "KEY"
    (fun k n auth => (GCM.Push (unavailableWorlds.gcm k) n auth).outcome) rfl rfl
    (fun k n a hn => GCM_unavailable_retries k n a hn) (fun _ => ⟨"uuid", rfl⟩)
    (fun _ => rfl)).1 20 (by decide)
  exact ⟨⟨rfl, fun _ => rfl⟩, h.1, h.2.2.1⟩

/-- C10 fails on the code: `Work(job, "KEY")` on the GCM job, answered 503,
sleeps one second and then starts `Work(job, "")`: the retry is made with the
empty `Auth` of the status (no adapter sets it), not with `"KEY"`. -/
theorem Work_retry_drops_auth :
    (Engine.step (NewServiceManager unavailableWorlds) steadyEngineWorld
        (Engine.start (NewServiceManager unavailableWorlds) gcmJob "KEY")).log
        = [Event.push 0 "KEY", Event.sleep 1, Event.enqueue "" 1]
      ∧ (Engine.step (NewServiceManager unavailableWorlds) steadyEngineWorld
          (Engine.start (NewServiceManager unavailableWorlds) gcmJob "KEY")).queue
        = [Task.work ""] := by
  constructor <;> decide

/-! ### `strconv.Atoi` -/

/-- An absent header reads as the empty text, whose value is 0. -/
theorem Atoi_empty : Atoi "" = 0 := by decide

theorem decimalValue_ge (ds : List Char) (n : Nat) : n ≤ decimalValue ds n := by
  induction ds generalizing n with
  | nil => exact le_refl _
  | cons c cs ih =>
    have h := ih (n * 10 + (c.toNat - 48))
    simp only [decimalValue, List.foldl_cons] at h ⊢
    omega

theorem parseUint_decimal (ds : List Char) (n : Nat) (hd : ∀ c ∈ ds, (digitVal c).isSome)
    (hv : decimalValue ds n < 9223372036854775808) :
    parseUint ds n = ParseResult.value (decimalValue ds n) := by
  induction ds generalizing n with
  | nil => rfl
  | cons c cs ih =>
    have hc : (digitVal c).isSome := hd c (List.mem_cons_self _ _)
    have hdv : digitVal c = some (c.toNat - 48) := by
      unfold digitVal at hc ⊢
      split
      · rfl
      · simp_all
    have hge := decimalValue_ge cs (n * 10 + (c.toNat - 48))
    have hv' : decimalValue cs (n * 10 + (c.toNat - 48)) < 9223372036854775808 := hv
    have h1 : ¬ n ≥ 1844674407370955162 := by omega
    have h2 : ¬ n * 10 + (c.toNat - 48) > 18446744073709551615 := by omega
    simp only [parseUint, hdv, h1, h2, if_false]
    exact ih _ (fun c' hc' => hd c' (List.mem_cons_of_mem _ hc')) hv'

/-- A text that is a non-empty run of decimal digits whose number fits an
`int` has that number as its value. -/
theorem Atoi_decimal (ds : List Char) (hne : ds ≠ []) (hd : ∀ c ∈ ds, (digitVal c).isSome)
    (hv : decimalValue ds 0 < 9223372036854775808) :
    Atoi (String.mk ds) = (decimalValue ds 0 : Int) := by
  obtain ⟨c, cs, rfl⟩ : ∃ c cs, ds = c :: cs := by
    cases ds with
    | nil => exact absurd rfl hne
    | cons c cs => exact ⟨c, cs, rfl⟩
  have hc : (digitVal c).isSome := hd c (List.mem_cons_self _ _)
  have hminus : c ≠ '-' := by
    intro h
    subst h
    revert hc
    decide
  have hplus : c ≠ '+' := by
    intro h
    subst h
    revert hc
    decide
  have hsplit : splitSign (c :: cs) = (false, c :: cs) := by
    unfold splitSign
    split
    · rename_i heq
      injection heq with h1 _
      exact absurd h1 hminus
    · rename_i heq
      injection heq with h1 _
      exact absurd h1 hplus
    · rfl
  have hparse := parseUint_decimal (c :: cs) 0 hd hv
  have hlt : ¬ decimalValue (c :: cs) 0 ≥ 9223372036854775808 := by omega
  have hlist : (String.mk (c :: cs)).toList = c :: cs := rfl
  simp only [Atoi, hlist, hsplit, hparse, Bool.false_eq_true, if_false, hlt]

/-- A text that, after an optional sign, does not start with a decimal digit
(an HTTP date, say) has the value 0. -/
theorem Atoi_not_decimal (s : String) (c : Char) (cs : List Char)
    (h : (splitSign s.toList).2 = c :: cs) (hc : digitVal c = none) : Atoi s = 0 := by
  simp only [Atoi, h, parseUint, hc]

/-! ### Jobs with several device tokens -/

/-- C11 fails on the code for C2DM: with two tokens and the body
`Error=InvalidRegistration` for each request, the adapter records the permanent
error of `t1` and then still sends the request for `t2`. -/
theorem C2DM_Push_goes_on_after_error :
    (C2DM.Push (c2dmWorldOf (responseOf 200 "" "Error=InvalidRegistration")) c2dmTwoTokenJob
        "KEY").sent.map HTTPRequest.Body = ["t1", "t2"]
      ∧ (C2DM.Push (c2dmWorldOf (responseOf 200 "" "Error=InvalidRegistration")) c2dmTwoTokenJob
          "KEY").outcome = Outcome.returned
            { Retry := false, Delay := 0, Successes := 0,
              Errors := GoMap.made [("t1", "InvalidRegistration"), ("t2", "InvalidRegistration")],
              Updates := GoMap.made [], Auth := "" } := by
  constructor <;> decide

/-- C12 fails on the code: with two tokens and every exchange succeeding, the
C2DM adapter sends one request (for `t1`) and the APNS adapter writes one PDU
(for the first token), and both return `Successes` 1. -/
theorem Push_stops_after_first_success :
    ((C2DM.Push (c2dmWorldOf (responseOf 200 "" "id=1234")) c2dmTwoTokenJob
          "KEY").sent.map HTTPRequest.Body = ["t1"]
        ∧ (C2DM.Push (c2dmWorldOf (responseOf 200 "" "id=1234")) c2dmTwoTokenJob
            "KEY").outcome = Outcome.returned
              { Retry := false, Delay := 0, Successes := 1, Errors := GoMap.made [],
                Updates := GoMap.made [], Auth := "" })
      ∧ ((writtenPDUs (APNS.Push freshAPNS quietAPNSWorld apnsTwoTokenJob "cert").events).length
            = 1
        ∧ (APNS.Push freshAPNS quietAPNSWorld apnsTwoTokenJob "cert").outcome
            = Outcome.returned
              { Retry := false, Delay := 0, Successes := 1, Errors := GoMap.made [],
                Updates := GoMap.made [], Auth := "" }) := by
  refine ⟨⟨?_, ?_⟩, ?_, ?_⟩ <;> decide

/-- Whatever follows the first device token, a first C2DM exchange that
succeeds ends the call: one request sent, `Successes` 1. -/
theorem C2DM_Push_first_success (w : C2DMWorld) (n : Notification) (auth t body : String)
    (rest : List String) (resp : HTTPResponse)
    (ht : n.DeviceTokens = t :: rest) (hp : n.Payload.len ≠ 0)
    (henc : (bytesOf (w.Encode (C2DM.form n t))).length < 1024)
    (hd : w.Do 0 { Method := "POST", URL := c2dmServiceURL,
                   Authorization := "GoogleLogin auth=" ++ auth,
                   ContentType := "application/x-www-form-urlencoded",
                   Body := w.Encode (C2DM.form n t) } = Except.ok resp)
    (hs : resp.StatusCode ≠ 503 ∧ resp.StatusCode ≠ 500 ∧ resp.StatusCode ≠ 401)
    (hb : resp.Body = Except.ok body) (hok : findErrorCode body = none) :
    (C2DM.Push w n auth).sent.length = 1
      ∧ (C2DM.Push w n auth).outcome = Outcome.returned
          { Retry := false, Delay := 0, Successes := 1, Errors := GoMap.made [],
            Updates := GoMap.made [], Auth := "" } := by
  have henc' : ¬ (bytesOf (w.Encode (C2DM.form n t))).length ≥ 1024 := by omega
  simp [C2DM.Push, ht, C2DM.tokens, hp, henc', hd, hs.1, hs.2.1, hs.2.2, hb, hok, NewPushStatus]

/-- Every pass of the loop body of `APNS.Push` from `pool.Get()` on ends the
call. -/
theorem APNS.send_done (x : APNSExchange) (n : Notification) (devToken : String)
    (btoken bpayload : List Nat) (pool : APNSConnPool) (st : APNSLoop) :
    ∃ run, APNS.send x n devToken btoken bpayload pool st = APNSStep.done run := by
  unfold APNS.send
  cases hpool : pool.conn with
  | nil => exact ⟨_, rfl⟩
  | cons client remaining =>
    rcases hc : client.connect x with ⟨c, err, evs⟩
    dsimp only
    rw [hc]
    dsimp only
    cases err with
    | some e => exact ⟨_, rfl⟩
    | none =>
      dsimp only
      split
      · exact ⟨_, rfl⟩
      · split
        · exact ⟨_, rfl⟩
        · cases hw : x.write with
          | some e => exact ⟨_, rfl⟩
          | none =>
            dsimp only
            cases hr : x.read with
            | timeout => exact ⟨_, rfl⟩
            | failed e => exact ⟨_, rfl⟩
            | data bytes =>
              simp only [Nat.zero_le, if_true]
              exact ⟨_, rfl⟩

/-- Every pass of the loop body of `APNS.Push` ends the call: the loop never
reaches a second device token. -/
theorem APNS.token_done (w : APNSWorld) (n : Notification) (auth : String) (k : Nat)
    (devToken : String) (st : APNSLoop) :
    ∃ run, APNS.token w n auth k devToken st = APNSStep.done run := by
  unfold APNS.token
  cases hdec : DecodeString devToken with
  | error e => exact ⟨_, rfl⟩
  | ok btoken =>
    dsimp only
    split
    · split
      · exact ⟨_, rfl⟩
      · split
        · exact APNS.send_done _ _ _ _ _ _ _
        · split
          · exact ⟨_, rfl⟩
          · split
            · exact ⟨_, rfl⟩
            · exact APNS.send_done _ _ _ _ _ _ _
    · exact ⟨_, rfl⟩

/-- What `APNS.Push` does is decided by the first device token alone. -/
theorem APNS_Push_first_token_only (a : APNS) (w : APNSWorld) (n : Notification)
    (auth devToken : String) (rest : List String) (ht : n.DeviceTokens = devToken :: rest) :
    APNS.token w n auth 0 devToken { apns := a, ps := NewPushStatus, held := [], events := [] }
      = APNSStep.done (APNS.Push a w n auth) := by
  obtain ⟨run, hrun⟩ := APNS.token_done w n auth 0 devToken
    { apns := a, ps := NewPushStatus, held := [], events := [] }
  rw [hrun]
  simp [APNS.Push, ht, APNS.tokens, hrun]

/-! ### The pool-map lock and the results index -/

/-- C16 fails on the code: when no certificate and key pair can be parsed from
the auth, `APNS.Push` returns the error of the pool construction with the lock
`a.mu` still held, and the next `APNS.Push` on the adapter blocks on that
lock. -/
theorem APNS_Push_leaves_lock_held :
    (APNS.Push freshAPNS badCertWorld apnsJob "not a certificate").outcome
        = Outcome.returned
            { Retry := false, Delay := 0, Successes := 0,
              Errors := GoMap.made
                [("", "tls: failed to find any PEM data in certificate input")],
              Updates := GoMap.made [], Auth := "" }
      ∧ (APNS.Push freshAPNS badCertWorld apnsJob "not a certificate").apns.mu = true
      ∧ (APNS.Push (APNS.Push freshAPNS badCertWorld apnsJob "not a certificate").apns
          quietAPNSWorld apnsJob "cert").outcome = Outcome.blocked "a.mu" := by
  refine ⟨?_, ?_, ?_⟩ <;> decide

/-- C17 fails on the code: for one device token and a 200 answer that decodes
to two results of which the second reports a failure, the loop indexes
`DeviceTokens[1]` and `GCM.Push` panics instead of returning a status. -/
theorem GCM_Push_index_out_of_range :
    (1 ≤ gcmJob.DeviceTokens.length ∧ gcmJob.DeviceTokens.length ≤ 1000
        ∧ gcmJob.Payload.len ≠ 0 ∧ ¬ (1 < gcmJob.DeviceTokens.length))
      ∧ (GCM.Push (gcmWorldOf (responseOf 200 "" "") oneResultTooMany) gcmJob "KEY").outcome
          = Outcome.panicked "index out of range" := by
  constructor <;> decide

/-! ### Sockets taken from and returned to the pool -/

/-- Connecting does not touch the per-socket lock. -/
theorem APNSConn.connect_mu (client : APNSConn) (x : APNSExchange) :
    (client.connect x).1.mu = client.mu := by
  unfold APNSConn.connect APNSConn.Close
  split
  · rfl
  · dsimp only
    split
    · split <;> rfl
    · split
      · split <;> rfl
      · split <;> rfl

/-- A pass of the loop body from `pool.Get()` on, started without deferred
calls: when it returns, the socket at the front of the pool was taken and one
socket was put at its back, and the pool-map lock is as before; it returns
whenever the socket at the front is not locked. -/
theorem APNS.send_pool (x : APNSExchange) (n : Notification) (devToken : String)
    (btoken bpayload : List Nat) (pool : APNSConnPool) (st : APNSLoop)
    (hheld : st.held = []) :
    ∃ run, APNS.send x n devToken btoken bpayload pool st = APNSStep.done run
      ∧ (∀ ps, run.outcome = Outcome.returned ps →
          ∃ c rest c', pool.conn = c :: rest
            ∧ run.apns.Pool.get? n.AppName = some { pool with conn := rest ++ [c'] }
            ∧ run.apns.mu = st.apns.mu ∧ (c.mu = false → c'.mu = false))
      ∧ (∀ c rest, pool.conn = c :: rest → c.mu = false →
          ∃ ps, run.outcome = Outcome.returned ps) := by
  unfold APNS.send
  cases hpool : pool.conn with
  | nil =>
    refine ⟨_, rfl, fun ps h => ?_, fun c rest h => ?_⟩
    · simp [APNSLoop.block] at h
    · simp at h
  | cons client remaining =>
    rcases hc : client.connect x with ⟨c, err, evs⟩
    have hmu : c.mu = client.mu := by
      have := APNSConn.connect_mu client x
      rw [hc] at this
      exact this
    dsimp only
    rw [hc]
    dsimp only
    cases err with
    | some e =>
      refine ⟨_, rfl, fun ps _ => ⟨client, remaining, c, rfl, ?_, ?_, fun h => hmu.trans h⟩,
        fun _ _ _ _ => ⟨_, rfl⟩⟩
      · simp [APNSLoop.finish, hheld, APNS.runDeferred, APNS.release, GoMap.get?_set_self]
      · simp [APNSLoop.finish, hheld, APNS.runDeferred, APNS.release, GoMap.get?_set_self]
    | none =>
      dsimp only
      split
      · refine ⟨_, rfl, fun ps _ => ⟨client, remaining, c, rfl, ?_, ?_, fun h => hmu.trans h⟩,
          fun _ _ _ _ => ⟨_, rfl⟩⟩
        · simp [APNSLoop.finish, hheld, APNS.runDeferred, APNS.release, GoMap.get?_set_self]
        · simp [APNSLoop.finish, hheld, APNS.runDeferred, APNS.release, GoMap.get?_set_self]
      · split
        · rename_i hlocked
          refine ⟨_, rfl, fun ps h => ?_, fun c2 rest2 h hm => ?_⟩
          · simp [APNSLoop.block] at h
          · injection h with h1 _
            subst h1
            rw [hmu] at hlocked
            simp [hm] at hlocked
        · cases hw : x.write with
          | some e =>
            refine ⟨_, rfl, fun ps _ => ⟨client, remaining,
                { c with mu := false, connected := false }, rfl, ?_, ?_, fun _ => rfl⟩,
              fun _ _ _ _ => ⟨_, rfl⟩⟩
            · simp [APNSLoop.finish, hheld, APNS.runDeferred, APNS.release, GoMap.get?_set_self]
            · simp [APNSLoop.finish, hheld, APNS.runDeferred, APNS.release, GoMap.get?_set_self]
          | none =>
            dsimp only
            cases hr : x.read with
            | timeout =>
              refine ⟨_, rfl, fun ps _ => ⟨client, remaining, { c with mu := false }, rfl, ?_, ?_,
                  fun _ => rfl⟩,
                fun _ _ _ _ => ⟨_, rfl⟩⟩
              · simp [APNSLoop.finish, hheld, APNS.runDeferred, APNS.release,
                  GoMap.get?_set_self]
              · simp [APNSLoop.finish, hheld, APNS.runDeferred, APNS.release,
                  GoMap.get?_set_self]
            | failed e =>
              refine ⟨_, rfl, fun ps _ => ⟨client, remaining, { c with mu := false }, rfl, ?_, ?_,
                  fun _ => rfl⟩,
                fun _ _ _ _ => ⟨_, rfl⟩⟩
              · simp [APNSLoop.finish, hheld, APNS.runDeferred, APNS.release,
                  GoMap.get?_set_self]
              · simp [APNSLoop.finish, hheld, APNS.runDeferred, APNS.release,
                  GoMap.get?_set_self]
            | data bytes =>
              simp only [Nat.zero_le, if_true]
              refine ⟨_, rfl, fun ps _ => ⟨client, remaining, { c with mu := false }, rfl, ?_, ?_,
                  fun _ => rfl⟩,
                fun _ _ _ _ => ⟨_, rfl⟩⟩
              · simp [APNSLoop.finish, hheld, APNS.runDeferred, APNS.release,
                  GoMap.get?_set_self]
              · simp [APNSLoop.finish, hheld, APNS.runDeferred, APNS.release,
                  GoMap.get?_set_self]

/-- A pass of the loop body on an adapter that has a pool for the app: when
it returns, the pool is as before or its front socket was taken and one
socket put at its back, and the pool-map lock is as before; it returns
whenever the lock is free and the front socket is not locked. -/
theorem APNS.token_pool (w : APNSWorld) (n : Notification) (auth : String) (k : Nat)
    (devToken : String) (st : APNSLoop) (pool : APNSConnPool)
    (hheld : st.held = []) (hget : st.apns.Pool.get? n.AppName = some pool) :
    ∃ run, APNS.token w n auth k devToken st = APNSStep.done run
      ∧ (∀ ps, run.outcome = Outcome.returned ps →
          run.apns.mu = st.apns.mu
            ∧ ∃ pool', run.apns.Pool.get? n.AppName = some pool'
              ∧ (pool' = pool
                  ∨ ∃ c rest c', pool.conn = c :: rest ∧ pool'.conn = rest ++ [c']
                      ∧ (c.mu = false → c'.mu = false)))
      ∧ (st.apns.mu = false → ∀ c rest, pool.conn = c :: rest → c.mu = false →
          ∃ ps, run.outcome = Outcome.returned ps) := by
  have hquiet : ∀ ps, (st.finish ps).apns = st.apns := by
    intro ps
    simp [APNSLoop.finish, hheld, APNS.runDeferred]
  unfold APNS.token
  cases hdec : DecodeString devToken with
  | error e =>
    exact ⟨_, rfl, fun ps _ => ⟨by rw [hquiet], pool, by rw [hquiet]; exact hget, Or.inl rfl⟩,
      fun _ _ _ _ _ => ⟨_, rfl⟩⟩
  | ok btoken =>
    dsimp only
    split
    · rename_i payload _
      split
      · refine ⟨_, rfl, fun ps h => ?_, fun hm => ?_⟩
        · simp [APNSLoop.block] at h
        · simp_all
      · rename_i hfree
        simp only [hget]
        obtain ⟨run, hrun, hret, hgo⟩ := APNS.send_pool (w.exchange k) n devToken btoken
          (bytesOf payload) pool
          { st with apns := { ({ st.apns with mu := true } : APNS) with mu := false } } hheld
        refine ⟨run, hrun, fun ps h => ?_, fun _ c rest hc hm => hgo c rest hc hm⟩
        obtain ⟨c, rest, c', hc, hp, hmu, hcm⟩ := hret ps h
        refine ⟨?_, _, hp, Or.inr ⟨c, rest, c', hc, rfl, hcm⟩⟩
        rw [hmu]
        simp at hfree
        exact hfree.symm
    · exact ⟨_, rfl, fun ps _ => ⟨by rw [hquiet], pool, by rw [hquiet]; exact hget, Or.inl rfl⟩,
        fun _ _ _ _ _ => ⟨_, rfl⟩⟩

/-- A pass of the loop body on an adapter that has no pool for the app yet,
with a certificate that parses: when it returns, either it returned before
the pool was looked up, or the app now has a pool of 20 unlocked sockets. -/
theorem APNS.token_first_use (w : APNSWorld) (n : Notification) (auth : String) (k : Nat)
    (devToken : String) (st : APNSLoop)
    (hheld : st.held = []) (hget : st.apns.Pool.get? n.AppName = none)
    (hcert : w.X509KeyPair auth auth = none) :
    ∃ run, APNS.token w n auth k devToken st = APNSStep.done run
      ∧ ∀ ps, run.outcome = Outcome.returned ps →
          run.apns.Pool.get? n.AppName = none
            ∨ ∃ pool', run.apns.Pool.get? n.AppName = some pool' ∧ pool'.conn.length = 20
                ∧ ∀ c ∈ pool'.conn, c.mu = false := by
  have hquiet : ∀ ps, (st.finish ps).apns = st.apns := by
    intro ps
    simp [APNSLoop.finish, hheld, APNS.runDeferred]
  unfold APNS.token
  cases hdec : DecodeString devToken with
  | error e => exact ⟨_, rfl, fun ps _ => Or.inl (by rw [hquiet]; exact hget)⟩
  | ok btoken =>
    dsimp only
    split
    · rename_i payload _
      split
      · refine ⟨_, rfl, fun ps h => ?_⟩
        simp [APNSLoop.block] at h
      · simp only [hget, NewAPNSConnPool_ok w auth auth hcert]
        split
        · exact ⟨_, rfl, fun ps h => by simp [APNSLoop.panic] at h⟩
        rename_i m hm
        obtain rfl := GoMap.assign_eq_some hm
        obtain ⟨run, hrun, hret, _⟩ := APNS.send_pool (w.exchange k) n devToken btoken
          (bytesOf payload)
          { conn := List.replicate 20 (newClient auth auth), nClients := 20 }
          { st with apns := { ({ st.apns with mu := true } : APNS) with
              Pool := st.apns.Pool.set n.AppName
                { conn := List.replicate 20 (newClient auth auth), nClients := 20 },
              mu := false } } hheld
        refine ⟨run, hrun, fun ps h => Or.inr ?_⟩
        obtain ⟨c, rest, c', hc, hp, _, hcm⟩ := hret ps h
        have hc' : c = newClient auth auth ∧ rest = List.replicate 19 (newClient auth auth) := by
          simp only [List.replicate_succ] at hc
          injection hc with h1 h2
          exact ⟨h1.symm, h2.symm⟩
        refine ⟨_, hp, ?_, ?_⟩
        · simp [hc'.2]
        · intro s hs
          simp only [List.mem_append, List.mem_singleton] at hs
          rcases hs with hs | hs
          · rw [hc'.2] at hs
            rw [List.eq_of_mem_replicate hs]
            rfl
          · rw [hs]
            exact hcm (by rw [hc'.1]; rfl)
    · exact ⟨_, rfl, fun ps _ => Or.inl (by rw [hquiet]; exact hget)⟩

/-- C14: with a certificate and key that parse, `NewAPNSConnPool` returns a
pool of exactly 20 socket objects.  For every `APNS.Push` on an adapter whose
pool for the app holds 20 sockets, whatever the outcome of connect, write and
read: when `Push` returns, the pool is untouched or the socket at its front
was taken and one socket was put at its back, so it holds 20 sockets again,
and the pool-map lock is as before; `Push` does return when that lock is free
and the sockets are unlocked, and the sockets are unlocked afterwards too.
On the first use of an app, when `Push` returns after making the pool, the
pool holds 20 unlocked sockets. -/
theorem APNS_Push_pool (a : APNS) (w : APNSWorld) (n : Notification) (auth : String) :
    (∀ certificate key, w.X509KeyPair certificate key = none →
        ∃ pool, NewAPNSConnPool w certificate key = Except.ok pool
          ∧ pool.conn.length = 20 ∧ pool.nClients = 20)
      ∧ (∀ pool, a.Pool.get? n.AppName = some pool → pool.conn.length = 20 →
          (∀ ps, (APNS.Push a w n auth).outcome = Outcome.returned ps →
              (APNS.Push a w n auth).apns.mu = a.mu
                ∧ ∃ pool', (APNS.Push a w n auth).apns.Pool.get? n.AppName = some pool'
                  ∧ pool'.conn.length = 20
                  ∧ (pool' = pool
                      ∨ ∃ c rest c', pool.conn = c :: rest ∧ pool'.conn = rest ++ [c'])
                  ∧ ((∀ c ∈ pool.conn, c.mu = false) → ∀ c ∈ pool'.conn, c.mu = false))
            ∧ (a.mu = false → (∀ c ∈ pool.conn, c.mu = false) →
                ∃ ps, (APNS.Push a w n auth).outcome = Outcome.returned ps))
      ∧ (a.Pool.get? n.AppName = none → w.X509KeyPair auth auth = none →
          ∀ ps, (APNS.Push a w n auth).outcome = Outcome.returned ps →
            (APNS.Push a w n auth).apns.Pool.get? n.AppName = none
              ∨ ∃ pool', (APNS.Push a w n auth).apns.Pool.get? n.AppName = some pool'
                  ∧ pool'.conn.length = 20 ∧ ∀ c ∈ pool'.conn, c.mu = false) := by
  refine ⟨fun certificate key h => ⟨_, NewAPNSConnPool_ok w certificate key h, by simp, rfl⟩,
    fun pool hget hlen => ?_, fun hget hcert ps hps => ?_⟩
  · cases ht : n.DeviceTokens with
    | nil =>
      have hpush : APNS.Push a w n auth
          = { outcome := Outcome.returned
                { NewPushStatus with Errors := NewPushStatus.Errors.set "" "NoDeviceTokens" },
              apns := a, events := [] } := by
        simp [APNS.Push, ht]
      rw [hpush]
      exact ⟨fun ps _ => ⟨rfl, pool, hget, hlen, Or.inl rfl, fun h => h⟩, fun _ _ => ⟨_, rfl⟩⟩
    | cons devToken rest =>
      obtain ⟨run, hrun, hret, hgo⟩ := APNS.token_pool w n auth 0 devToken
        { apns := a, ps := NewPushStatus, held := [], events := [] } pool rfl hget
      have hpush : APNS.Push a w n auth = run := by
        simp [APNS.Push, ht, APNS.tokens, hrun]
      rw [hpush]
      constructor
      · intro ps hps
        obtain ⟨hmu, pool', hp, hrel⟩ := hret ps hps
        refine ⟨hmu, pool', hp, ?_, ?_, ?_⟩
        · rcases hrel with h | ⟨c, r, c', hc, hc', _⟩
          · rw [h]; exact hlen
          · rw [hc', List.length_append, List.length_singleton]
            rw [hc, List.length_cons] at hlen
            exact hlen
        · rcases hrel with h | ⟨c, r, c', hc, hc', _⟩
          · exact Or.inl h
          · exact Or.inr ⟨c, r, c', hc, hc'⟩
        · intro hall s hs
          rcases hrel with h | ⟨c, r, c', hc, hc', hcm⟩
          · rw [h] at hs; exact hall s hs
          · rw [hc'] at hs
            simp only [List.mem_append, List.mem_singleton] at hs
            rcases hs with hs | hs
            · exact hall s (by rw [hc]; exact List.mem_cons_of_mem _ hs)
            · rw [hs]
              exact hcm (hall c (by rw [hc]; exact List.mem_cons_self _ _))
      · intro hmu hall
        obtain ⟨c, r, hc⟩ : ∃ c r, pool.conn = c :: r := by
          cases hconn : pool.conn with
          | nil => rw [hconn] at hlen; simp at hlen
          | cons c r => exact ⟨c, r, rfl⟩
        exact hgo hmu c r hc (hall c (by rw [hc]; exact List.mem_cons_self _ _))
  · cases ht : n.DeviceTokens with
    | nil =>
      have hpush : APNS.Push a w n auth
          = { outcome := Outcome.returned
                { NewPushStatus with Errors := NewPushStatus.Errors.set "" "NoDeviceTokens" },
              apns := a, events := [] } := by
        simp [APNS.Push, ht]
      rw [hpush]
      exact Or.inl hget
    | cons devToken rest =>
      obtain ⟨run, hrun, hret⟩ := APNS.token_first_use w n auth 0 devToken
        { apns := a, ps := NewPushStatus, held := [], events := [] } rfl hget hcert
      have hpush : APNS.Push a w n auth = run := by
        simp [APNS.Push, ht, APNS.tokens, hrun]
      rw [hpush] at hps ⊢
      exact hret ps hps

/-- C14 at an adapter with a pool of 20 fresh sockets, the gateway replying
with status 8: `Push` returns and the pool holds 20 sockets again. -/
theorem APNS_Push_pool_witness :
    (pooledAPNS.mu = false
        ∧ pooledAPNS.Pool.get? apnsJob.AppName
            = some { conn := List.replicate 20 (newClient "cert" "cert"), nClients := 20 })
      ∧ ∃ ps pool', (APNS.Push pooledAPNS (replyingAPNSWorld [8, 8, 0, 0, 0, 1]) apnsJob
            "cert").outcome = Outcome.returned ps
          ∧ (APNS.Push pooledAPNS (replyingAPNSWorld [8, 8, 0, 0, 0, 1]) apnsJob
              "cert").apns.Pool.get? apnsJob.AppName = some pool'
          ∧ pool'.conn.length = 20 := by
  have h := (APNS_Push_pool pooledAPNS (replyingAPNSWorld [8, 8, 0, 0, 0, 1]) apnsJob
    "cert").2.1 { conn := List.replicate 20 (newClient "cert" "cert"), nClients := 20 } rfl
    (by simp)
  have hfree : ∀ c ∈ List.replicate 20 (newClient "cert" "cert"), c.mu = false := by
    intro c hc
    rw [List.eq_of_mem_replicate hc]
    rfl
  obtain ⟨ps, hps⟩ := h.2 rfl hfree
  obtain ⟨_, pool', hp, hl, _⟩ := h.1 ps hps
  exact ⟨⟨rfl, rfl⟩, ps, pool', hps, hp, hl⟩

/-! ### Counting successes and errors -/

theorem length_setEntries_le {α : Type} (es : List (String × α)) (k : String) (v : α) :
    (GoMap.setEntries es k v).length ≤ es.length + 1 := by
  induction es with
  | nil => simp [GoMap.setEntries]
  | cons e es ih =>
    obtain ⟨k', v'⟩ := e
    by_cases hk : k' = k
    · simp [GoMap.setEntries, hk]
    · simp only [GoMap.setEntries, hk, if_false, List.length_cons]
      omega

/-- An assignment adds at most one entry to a map. -/
theorem GoMap.len_set_le {α : Type} (m : GoMap α) (k : String) (v : α) :
    (m.set k v).len ≤ m.len + 1 := by
  simp only [GoMap.len, GoMap.set, GoMap.entries]
  exact length_setEntries_le _ k v

theorem C2DM.classify_count (ps : PushStatus) (regid code retryAfter : String) :
    (C2DM.classify ps regid code retryAfter).Successes = ps.Successes
      ∧ (C2DM.classify ps regid code retryAfter).Errors.len ≤ ps.Errors.len + 1 := by
  unfold C2DM.classify
  split_ifs <;> exact ⟨rfl, GoMap.len_set_le _ _ _⟩

/-- The C2DM loop: with no success counted so far and the errors so far plus
the tokens still to handle within `total`, the status returned counts at most
`total` successes and errors. -/
theorem C2DM.tokens_bound (w : C2DMWorld) (n : Notification) (auth : String) (total : Nat) :
    ∀ (toks : List String) (k : Nat) (ps : PushStatus) (sent : List HTTPRequest),
      ps.Successes = 0 → ps.Errors.len + toks.length ≤ total →
      ∀ ps', (C2DM.tokens w n auth toks k ps sent).outcome = Outcome.returned ps' →
        ps'.Successes + (ps'.Errors.len : Int) ≤ total := by
  intro toks
  induction toks with
  | nil =>
    intro k ps sent hs hb ps' h
    simp only [C2DM.tokens] at h
    injection h with h
    subst h
    simp only [List.length_nil] at hb
    omega
  | cons t rest ih =>
    intro k ps sent hs hb ps' h
    simp only [List.length_cons] at hb
    have hset : ∀ v, (ps.Errors.set t v).len ≤ ps.Errors.len + 1 := fun v =>
      GoMap.len_set_le _ _ _
    unfold C2DM.tokens at h
    dsimp only at h
    split at h
    · injection h with h; subst h; have := hset "NoPayload"; simp only; omega
    · split at h
      · injection h with h; subst h; have := hset "MessageTooBig"; simp only; omega
      · split at h
        · rename_i err _
          injection h with h; subst h; have := hset err; simp only; omega
        · rename_i resp _
          split at h
          · injection h with h; subst h; have := hset "ServiceUnavailable"; simp only; omega
          · split at h
            · injection h with h; subst h; have := hset "ServiceUnavailable"; simp only; omega
            · split at h
              · injection h with h; subst h; have := hset "Unauthorized"; simp only; omega
              · split at h
                · rename_i err _
                  injection h with h; subst h; have := hset err; simp only; omega
                · split at h
                  · injection h with h; subst h; simp only; omega
                  · rename_i code _
                    have hc := C2DM.classify_count ps t code resp.RetryAfter
                    exact ih _ _ _ (hc.1.trans hs) (by omega) ps' h

theorem APNS.classify_bound (devToken : String) (status : Nat) :
    (APNS.classify NewPushStatus devToken status).Successes
      + ((APNS.classify NewPushStatus devToken status).Errors.len : Int) ≤ 1 := by
  unfold APNS.classify
  split_ifs <;> simp [NewPushStatus, GoMap.set, GoMap.setEntries, GoMap.entries, GoMap.len]

/-- A status made by `NewPushStatus` with one error recorded counts one. -/
theorem one_error_bound (r : Bool) (k v : String) (ps : PushStatus)
    (h : ps = { NewPushStatus with Retry := r, Errors := NewPushStatus.Errors.set k v }) :
    ps.Successes + (ps.Errors.len : Int) ≤ 1 := by
  subst h
  simp [NewPushStatus, GoMap.set, GoMap.setEntries, GoMap.entries, GoMap.len]

/-- A pass of the loop body from `pool.Get()` on, started with the status of
`NewPushStatus`, returns at most one success or error. -/
theorem APNS.send_bound (x : APNSExchange) (n : Notification) (devToken : String)
    (btoken bpayload : List Nat) (pool : APNSConnPool) (st : APNSLoop)
    (hps : st.ps = NewPushStatus) :
    ∃ run, APNS.send x n devToken btoken bpayload pool st = APNSStep.done run
      ∧ ∀ ps, run.outcome = Outcome.returned ps → ps.Successes + (ps.Errors.len : Int) ≤ 1 := by
  unfold APNS.send
  cases hpool : pool.conn with
  | nil => exact ⟨_, rfl, fun ps h => by simp [APNSLoop.block] at h⟩
  | cons client remaining =>
    rcases hc : client.connect x with ⟨c, err, evs⟩
    dsimp only
    rw [hc]
    dsimp only
    cases err with
    | some e =>
      refine ⟨_, rfl, fun ps h => ?_⟩
      simp only [APNSLoop.finish, hps] at h
      injection h with h
      exact one_error_bound true devToken e ps h.symm
    | none =>
      dsimp only
      split
      · refine ⟨_, rfl, fun ps h => ?_⟩
        simp only [APNSLoop.finish, hps] at h
        injection h with h
        exact one_error_bound false devToken "MessageTooBig" ps h.symm
      · split
        · exact ⟨_, rfl, fun ps h => by simp [APNSLoop.block] at h⟩
        · cases hw : x.write with
          | some e =>
            refine ⟨_, rfl, fun ps h => ?_⟩
            simp only [APNSLoop.finish, hps] at h
            injection h with h
            exact one_error_bound true devToken "ClientNotConnected" ps h.symm
          | none =>
            dsimp only
            cases hr : x.read with
            | timeout =>
              refine ⟨_, rfl, fun ps h => ?_⟩
              simp only [APNSLoop.finish, hps] at h
              injection h with h
              subst h
              simp [NewPushStatus, GoMap.entries, GoMap.len]
            | failed e =>
              refine ⟨_, rfl, fun ps h => ?_⟩
              simp only [APNSLoop.finish, hps] at h
              injection h with h
              exact one_error_bound false devToken e ps h.symm
            | data bytes =>
              simp only [Nat.zero_le, if_true]
              refine ⟨_, rfl, fun ps h => ?_⟩
              simp only [APNSLoop.finish, hps] at h
              injection h with h
              subst h
              exact APNS.classify_bound _ _

/-- A pass of the loop body started with the status of `NewPushStatus` returns
at most one success or error. -/
theorem APNS.token_bound (w : APNSWorld) (n : Notification) (auth : String) (k : Nat)
    (devToken : String) (st : APNSLoop) (hps : st.ps = NewPushStatus) :
    ∃ run, APNS.token w n auth k devToken st = APNSStep.done run
      ∧ ∀ ps, run.outcome = Outcome.returned ps → ps.Successes + (ps.Errors.len : Int) ≤ 1 := by
  unfold APNS.token
  cases hdec : DecodeString devToken with
  | error e =>
    refine ⟨_, rfl, fun ps h => ?_⟩
    simp only [APNSLoop.finish, hps] at h
    injection h with h
    exact one_error_bound false devToken e ps h.symm
  | ok btoken =>
    dsimp only
    split
    · split
      · exact ⟨_, rfl, fun ps h => by simp [APNSLoop.block] at h⟩
      · split
        · exact APNS.send_bound _ n devToken btoken _ _ _ hps
        · split
          · rename_i err _
            refine ⟨_, rfl, fun ps h => ?_⟩
            simp only [APNSLoop.finish, hps] at h
            injection h with h
            exact one_error_bound false "" err ps h.symm
          · split
            · exact ⟨_, rfl, fun ps h => by simp [APNSLoop.panic] at h⟩
            · exact APNS.send_bound _ n devToken btoken _ _ _ hps
    · refine ⟨_, rfl, fun ps h => ?_⟩
      simp only [APNSLoop.finish, hps] at h
      injection h with h
      exact one_error_bound false devToken "InvalidJSON" ps h.symm

/-- The loop over the results leaves `Successes` alone and adds at most one
error for each result without a message id. -/
theorem GCM.results_bound (E : String → String) (tokens : List String) :
    ∀ (results : List GCMResult) (i : Nat) (ps ps' : PushStatus),
      GCM.results E tokens results i ps = some ps' →
      ps'.Successes = ps.Successes
        ∧ ps'.Errors.len ≤ ps.Errors.len + results.countP (fun r => r.MessageID = "") := by
  intro results
  induction results with
  | nil =>
    intro i ps ps' h
    simp only [GCM.results] at h
    injection h with h
    subst h
    exact ⟨rfl, by simp⟩
  | cons r rest ih =>
    intro i ps ps' h
    cases htok : tokens[i]? with
    | none =>
      by_cases h1 : r.MessageID = ""
      · simp [GCM.results, htok, h1] at h
      · by_cases h2 : r.RegistrationID = ""
        · simp only [GCM.results, htok, h1, h2, ne_eq, not_false_eq_true, not_true_eq_false,
            if_true, if_false] at h
          obtain ⟨hs, hl⟩ := ih _ _ _ h
          exact ⟨hs, by simpa [List.countP_cons, h1] using hl⟩
        · simp [GCM.results, htok, h1, h2] at h
    | some tok =>
      rw [GCM.results_cons E tokens r rest i ps tok htok] at h
      obtain ⟨hs, hl⟩ := ih _ _ _ h
      refine ⟨hs.trans (GCM.record_fields E tok r ps).2.2.1, ?_⟩
      by_cases h1 : r.MessageID = ""
      · have hrec : (GCM.record E tok r ps).Errors.len ≤ ps.Errors.len + 1 := by
          simp only [GCM.record, h1, ne_eq, not_true_eq_false, if_false]
          exact GoMap.len_set_le _ _ _
        simp only [List.countP_cons, h1, decide_True, if_true]
        omega
      · have hrec : (GCM.record E tok r ps).Errors = ps.Errors := by
          unfold GCM.record
          by_cases h2 : r.RegistrationID = "" <;> simp [h1, h2]
        rw [hrec] at hl
        simpa [List.countP_cons, h1] using hl

/-- The statuses `GCM.Push` returns count at most as many successes and
errors as there are device tokens, when there is a token and the success
count of a 200 answer plus its results without message id stay within the
number of tokens. -/
theorem GCM.Push_bound (w : GCMWorld) (n : Notification) (auth : String)
    (hn : n.DeviceTokens ≠ [])
    (hgcm : ∀ b resp body ret, w.Marshal (GCM.ConvertNotification n) = Except.ok b →
      w.Do { Method := "POST", URL := gcmServiceURL, Authorization := "key=" ++ auth,
             ContentType := "application/json", Body := b } = Except.ok resp →
      resp.StatusCode = 200 → resp.Body = Except.ok body → w.Unmarshal body = Except.ok ret →
      ret.Success + (ret.Results.countP (fun r => r.MessageID = "") : Int)
        ≤ n.DeviceTokens.length)
    (ps : PushStatus) (h : (GCM.Push w n auth).outcome = Outcome.returned ps) :
    ps.Successes + (ps.Errors.len : Int) ≤ n.DeviceTokens.length := by
  have hlen : 1 ≤ n.DeviceTokens.length := by
    cases hd : n.DeviceTokens with
    | nil => exact absurd hd hn
    | cons t r => simp
  have hone : ∀ (r : Bool) (k v : String),
      ps = { NewPushStatus with Retry := r, Errors := NewPushStatus.Errors.set k v } →
      ps.Successes + (ps.Errors.len : Int) ≤ n.DeviceTokens.length := by
    intro r k v hps
    have := one_error_bound r k v ps hps
    omega
  unfold GCM.Push at h
  dsimp only at h
  split at h
  · omega
  · split at h
    · injection h with h; exact hone false _ _ h.symm
    · split at h
      · injection h with h; exact hone false _ _ h.symm
      · split at h
        · injection h with h; exact hone false _ _ h.symm
        · rename_i b hb
          split at h
          · injection h with h; exact hone true _ _ h.symm
          · rename_i resp hresp
            simp only [GCM.handleResponse] at h
            split at h
            · injection h with h; subst h
              simp [NewPushStatus, GoMap.set, GoMap.setEntries, GoMap.entries, GoMap.len]
              omega
            · split at h
              · injection h with h; subst h
                simp [NewPushStatus, GoMap.set, GoMap.setEntries, GoMap.entries, GoMap.len]
                omega
              · split at h
                · injection h with h; exact hone false _ _ h.symm
                · split at h
                  · injection h with h; exact hone false _ _ h.symm
                  · split at h
                    · injection h with h; exact hone true _ _ h.symm
                    · rename_i h200
                      have h200' : resp.StatusCode = 200 := by simpa using h200
                      split at h
                      · injection h with h; exact hone true _ _ h.symm
                      · rename_i body hbody
                        split at h
                        · injection h with h; exact hone true _ _ h.symm
                        · rename_i ret hret
                          have hcount := hgcm b resp body ret hb hresp h200' hbody hret
                          have hnonneg : (0 : Int)
                              ≤ (ret.Results.countP (fun r => r.MessageID = "") : Int) :=
                            Int.ofNat_nonneg _
                          split at h
                          · injection h with h; subst h
                            simp only [NewPushStatus, GoMap.len, GoMap.entries, List.length_nil]
                            omega
                          · split at h
                            · rename_i ps' hres
                              injection h with h
                              subst h
                              obtain ⟨hs, hl⟩ := GCM.results_bound _ _ _ _ _ _ hres
                              have hs' : ps'.Successes = ret.Success := by
                                rw [hs]; split <;> rfl
                              have hl' : ps'.Errors.len
                                  ≤ ret.Results.countP (fun r => r.MessageID = "") := by
                                have h0 : ∀ x : PushStatus, x.Errors = NewPushStatus.Errors →
                                    x.Errors.len = 0 := by
                                  intro x hx; rw [hx]; rfl
                                have : (if ret.Failure > 0 then
                                    { ({ NewPushStatus with Successes := ret.Success }
                                        : PushStatus) with Delay := Atoi resp.RetryAfter }
                                  else { NewPushStatus with Successes := ret.Success }).Errors.len
                                    = 0 := by
                                  split <;> rfl
                                rw [this] at hl
                                omega
                              rw [hs']
                              omega
                            · simp at h

/-- C13, as stated, fails in two ways.  For a notification without device
tokens the status carries one error (under the empty key), one more than
there are tokens; and `Successes` is the count the GCM response reports, here 5
for a single token. -/
theorem Push_count_counterexample :
    (∃ ps, (GCM.Push (gcmWorldOf (responseOf 200 "" "") emptyGCMResponse) emptyJob "KEY").outcome
          = Outcome.returned ps
        ∧ ¬ (ps.Successes + (ps.Errors.len : Int) ≤ emptyJob.DeviceTokens.length))
      ∧ (∃ ps, (GCM.Push (gcmWorldOf (responseOf 200 "" "") fiveSuccesses) gcmJob "KEY").outcome
          = Outcome.returned ps
        ∧ ¬ (ps.Successes + (ps.Errors.len : Int) ≤ gcmJob.DeviceTokens.length)) := by
  constructor
  · exact ⟨{ NewPushStatus with Errors := GoMap.made [("", "NoDeviceTokens")] }, by decide,
      by decide⟩
  · exact ⟨{ NewPushStatus with Successes := 5 }, by decide, by decide⟩

/-- C13, amended: for every adapter and every notification with at least one
device token, a status the adapter returns satisfies
`Successes + |Errors| ≤ number of device tokens`, whatever the gateway
answers, provided that for GCM the `success` count of a 200 answer plus its
number of results without message id is at most the number of device tokens. -/
theorem Push_count_bound (a : APNS) (aw : APNSWorld) (gw : GCMWorld) (cw : C2DMWorld)
    (n : Notification) (auth : String) (hn : n.DeviceTokens ≠ [])
    (hgcm : ∀ b resp body ret, gw.Marshal (GCM.ConvertNotification n) = Except.ok b →
      gw.Do { Method := "POST", URL := gcmServiceURL, Authorization := "key=" ++ auth,
              ContentType := "application/json", Body := b } = Except.ok resp →
      resp.StatusCode = 200 → resp.Body = Except.ok body → gw.Unmarshal body = Except.ok ret →
      ret.Success + (ret.Results.countP (fun r => r.MessageID = "") : Int)
        ≤ n.DeviceTokens.length) :
    (∀ ps, (APNS.Push a aw n auth).outcome = Outcome.returned ps →
        ps.Successes + (ps.Errors.len : Int) ≤ n.DeviceTokens.length)
      ∧ (∀ ps, (GCM.Push gw n auth).outcome = Outcome.returned ps →
        ps.Successes + (ps.Errors.len : Int) ≤ n.DeviceTokens.length)
      ∧ (∀ ps, (C2DM.Push cw n auth).outcome = Outcome.returned ps →
        ps.Successes + (ps.Errors.len : Int) ≤ n.DeviceTokens.length) := by
  obtain ⟨t, rest, ht⟩ : ∃ t rest, n.DeviceTokens = t :: rest := by
    cases hd : n.DeviceTokens with
    | nil => exact absurd hd hn
    | cons t r => exact ⟨t, r, rfl⟩
  refine ⟨fun ps h => ?_, fun ps h => GCM.Push_bound gw n auth hn hgcm ps h, fun ps h => ?_⟩
  · obtain ⟨run, hrun, hb⟩ := APNS.token_bound aw n auth 0 t
      { apns := a, ps := NewPushStatus, held := [], events := [] } rfl
    have hpush : APNS.Push a aw n auth = run := by
      simp [APNS.Push, ht, APNS.tokens, hrun]
    rw [hpush] at h
    have := hb ps h
    rw [ht, List.length_cons]
    push_cast
    omega
  · have hpush : (C2DM.Push cw n auth).outcome
        = (C2DM.tokens cw n auth n.DeviceTokens 0 NewPushStatus []).outcome := by
      simp [C2DM.Push, ht]
    rw [hpush] at h
    exact C2DM.tokens_bound cw n auth n.DeviceTokens.length n.DeviceTokens 0 NewPushStatus []
      rfl (by simp [NewPushStatus, GoMap.len, GoMap.entries]) ps h

/-- C13, amended, at the third scenario of the specification: two tokens, one
success and one failure reported by GCM. -/
theorem Push_count_bound_witness :
    twoTokenJob.DeviceTokens ≠ []
      ∧ (GCM.Push (gcmWorldOf (responseOf 200 "" "") partialFailure) twoTokenJob "KEY").outcome
          = Outcome.returned
              { Retry := false, Delay := 0, Successes := 1,
                Errors := GoMap.made [("t2", "Unavailable")], Updates := GoMap.made [],
                Auth := "" }
      ∧ ∀ ps, (GCM.Push (gcmWorldOf (responseOf 200 "" "") partialFailure) twoTokenJob
            "KEY").outcome = Outcome.returned ps →
          ps.Successes + (ps.Errors.len : Int) ≤ 2 := by
  have h := (Push_count_bound freshAPNS quietAPNSWorld
    (gcmWorldOf (responseOf 200 "" "") partialFailure) (c2dmWorldOf (responseOf 200 "" ""))
    twoTokenJob "KEY" (by decide) (by
      intro b resp body ret _ _ _ _ hu
      have hret : partialFailure = ret := by
        simp only [gcmWorldOf] at hu
        injection hu
      subst hret
      decide)).2.1
  exact ⟨by decide, by decide, h⟩

/-- The C2DM loop always returns a status. -/
theorem C2DM.tokens_returns (w : C2DMWorld) (n : Notification) (auth : String) :
    ∀ (toks : List String) (k : Nat) (ps : PushStatus) (sent : List HTTPRequest),
      ∃ ps', (C2DM.tokens w n auth toks k ps sent).outcome = Outcome.returned ps' := by
  intro toks
  induction toks with
  | nil => intro k ps sent; exact ⟨_, rfl⟩
  | cons t rest ih =>
    intro k ps sent
    unfold C2DM.tokens
    dsimp only
    split
    · exact ⟨_, rfl⟩
    · split
      · exact ⟨_, rfl⟩
      · split
        · exact ⟨_, rfl⟩
        · split
          · exact ⟨_, rfl⟩
          · split
            · exact ⟨_, rfl⟩
            · split
              · exact ⟨_, rfl⟩
              · split
                · exact ⟨_, rfl⟩
                · split
                  · exact ⟨_, rfl⟩
                  · exact ih _ _ _

/-! ### Validation errors and the retry flag -/

/-- C15 fails on the code for C2DM: with two tokens, `Error=QuotaExceeded` for
the first sets `Retry` and the loop goes on; the second token gets
`MessageTooBig`, and the status returned holds that error with `Retry` set. -/
theorem C2DM_Push_retry_with_validation_error :
    (C2DM.Push (c2dmWorldSeq [responseOf 200 "" "Error=QuotaExceeded",
          responseOf 200 "" "Error=MessageTooBig"]) c2dmTwoTokenJob "KEY").sent.length = 2
      ∧ (C2DM.Push (c2dmWorldSeq [responseOf 200 "" "Error=QuotaExceeded",
          responseOf 200 "" "Error=MessageTooBig"]) c2dmTwoTokenJob "KEY").outcome
        = Outcome.returned
            { Retry := true, Delay := 0, Successes := 0,
              Errors := GoMap.made [("t1", "QuotaExceeded"), ("t2", "MessageTooBig")],
              Updates := GoMap.made [], Auth := "" } := by
  constructor <;> decide

/-- The same with the length check of the adapter itself: when the first
token is answered `Error=QuotaExceeded` and the encoded form of the second
has 1024 bytes or more, the status returned records `MessageTooBig` for the
second token and has `Retry` set. -/
theorem C2DM_Push_quota_then_too_big (w : C2DMWorld) (n : Notification)
    (auth t1 t2 body : String) (resp : HTTPResponse)
    (ht : n.DeviceTokens = [t1, t2]) (hp : n.Payload.len ≠ 0)
    (henc1 : (bytesOf (w.Encode (C2DM.form n t1))).length < 1024)
    (hd : w.Do 0 { Method := "POST", URL := c2dmServiceURL,
                   Authorization := "GoogleLogin auth=" ++ auth,
                   ContentType := "application/x-www-form-urlencoded",
                   Body := w.Encode (C2DM.form n t1) } = Except.ok resp)
    (hs : resp.StatusCode ≠ 503 ∧ resp.StatusCode ≠ 500 ∧ resp.StatusCode ≠ 401)
    (hb : resp.Body = Except.ok body) (hcode : findErrorCode body = some "QuotaExceeded")
    (henc2 : (bytesOf (w.Encode (C2DM.form n t2))).length ≥ 1024) :
    (C2DM.Push w n auth).outcome = Outcome.returned
      { Retry := true, Delay := 0, Successes := 0,
        Errors := (GoMap.made [(t1, "QuotaExceeded")]).set t2 "MessageTooBig",
        Updates := GoMap.made [], Auth := "" } := by
  have henc1' : ¬ (bytesOf (w.Encode (C2DM.form n t1))).length ≥ 1024 := by omega
  simp [C2DM.Push, ht, C2DM.tokens, hp, henc1', hd, hs.1, hs.2.1, hs.2.2, hb, hcode, henc2,
    C2DM.classify, NewPushStatus, GoMap.set, GoMap.setEntries, GoMap.entries]

/-! ### General forms of the failures above -/

/-- Whenever the answer for the first of two C2DM tokens carries an `Error=`
code and the encoded form of the second token is under 1024 bytes, the
request for the second token is sent, whatever the code. -/
theorem C2DM_Push_second_request (w : C2DMWorld) (n : Notification)
    (auth t1 t2 body code : String) (resp : HTTPResponse)
    (ht : n.DeviceTokens = [t1, t2]) (hp : n.Payload.len ≠ 0)
    (henc1 : (bytesOf (w.Encode (C2DM.form n t1))).length < 1024)
    (hd : w.Do 0 { Method := "POST", URL := c2dmServiceURL,
                   Authorization := "GoogleLogin auth=" ++ auth,
                   ContentType := "application/x-www-form-urlencoded",
                   Body := w.Encode (C2DM.form n t1) } = Except.ok resp)
    (hs : resp.StatusCode ≠ 503 ∧ resp.StatusCode ≠ 500 ∧ resp.StatusCode ≠ 401)
    (hb : resp.Body = Except.ok body) (hcode : findErrorCode body = some code)
    (henc2 : (bytesOf (w.Encode (C2DM.form n t2))).length < 1024) :
    (C2DM.Push w n auth).sent.map HTTPRequest.Body
      = [w.Encode (C2DM.form n t1), w.Encode (C2DM.form n t2)] := by
  have henc1' : ¬ (bytesOf (w.Encode (C2DM.form n t1))).length ≥ 1024 := by omega
  have henc2' : ¬ (bytesOf (w.Encode (C2DM.form n t2))).length ≥ 1024 := by omega
  have hlen : ¬ ([t1, t2].length = 0) := by simp
  simp only [C2DM.Push, ht, hlen, C2DM.tokens, hp, henc1', hd,
    hs.1, hs.2.1, hs.2.2, hb, hcode, henc2', if_false, List.nil_append]
  repeat' (first | rfl | split)

/-- Whenever the pool of the app has to be made and no certificate and key
pair can be parsed from the auth, `APNS.Push` returns with the lock `a.mu`
held. -/
theorem APNS_Push_pool_error_holds_lock (a : APNS) (w : APNSWorld) (n : Notification)
    (auth devToken P err : String) (rest : List String) (T : List Nat)
    (ht : n.DeviceTokens = devToken :: rest)
    (hT : DecodeString devToken = Except.ok T)
    (hP : n.Payload.get? "payload" = some (GoValue.str P))
    (hmu : a.mu = false) (hpool : a.Pool.get? n.AppName = none)
    (hcert : w.X509KeyPair auth auth = some err) :
    (APNS.Push a w n auth).apns.mu = true
      ∧ (APNS.Push a w n auth).outcome = Outcome.returned
          { NewPushStatus with Errors := NewPushStatus.Errors.set "" err } := by
  simp [APNS.Push, ht, APNS.tokens, APNS.token, hT, hP, hmu, hpool,
    NewAPNSConnPool_error w auth auth err hcert, APNSLoop.finish, APNS.runDeferred]

/-- Whenever a result without message id lies at an index beyond the device
tokens, the loop over the results panics. -/
theorem GCM.results_out_of_range (E : String → String) (tokens : List String) (r : GCMResult)
    (rest : List GCMResult) (i : Nat) (ps : PushStatus)
    (hi : tokens.length ≤ i) (hr : r.MessageID = "") :
    GCM.results E tokens (r :: rest) i ps = none := by
  have hnone : tokens[i]? = none := by simp [hi]
  simp [GCM.results, hr, hnone]

/-! ### The value of a `Retry-After` header -/

theorem digitVal_digit (d : Nat) (h : d < 10) : digitVal (Char.ofNat (48 + d)) = some d := by
  interval_cases d <;> rfl

theorem digitVal_other (c : Char) (h : ¬ (48 ≤ c.toNat ∧ c.toNat ≤ 57)) : digitVal c = none := by
  simp [digitVal, h]

theorem foldl_digits_ge (ds : List Nat) (n : Nat) :
    n ≤ ds.foldl (fun a d => a * 10 + d) n := by
  induction ds generalizing n with
  | nil => exact le_refl _
  | cons d ds ih =>
    have h := ih (n * 10 + d)
    simp only [List.foldl_cons]
    omega

/-- The number of a run of digits, read from the left, is the number whose
decimal digits they are. -/
theorem foldl_digits_eq (ds : List Nat) :
    ds.foldl (fun a d => a * 10 + d) 0 = Nat.ofDigits 10 ds.reverse := by
  have key : ∀ (ds : List Nat) (n : Nat),
      ds.foldl (fun a d => a * 10 + d) n = n * 10 ^ ds.length + Nat.ofDigits 10 ds.reverse := by
    intro ds
    induction ds with
    | nil => intro n; simp
    | cons d ds ih =>
      intro n
      simp only [List.foldl_cons, List.reverse_cons, List.length_cons]
      rw [ih, Nat.ofDigits_append, Nat.ofDigits_singleton, List.length_reverse]
      ring
  simpa using key ds 0

/-- The loop of `ParseUint` on a run of digits followed by `tail`: it goes on
with `tail` when the number of the digits stays within 64 bits, and ends with a
range error otherwise, whatever `tail` is. -/
theorem parseUint_digits (ds : List Nat) (tail : List Char) (n : Nat)
    (hd : ∀ d ∈ ds, d < 10) (hn : n ≤ 18446744073709551615) :
    parseUint (ds.map (fun d => Char.ofNat (48 + d)) ++ tail) n
      = if ds.foldl (fun a d => a * 10 + d) n ≤ 18446744073709551615
        then parseUint tail (ds.foldl (fun a d => a * 10 + d) n)
        else ParseResult.rangeError := by
  induction ds generalizing n with
  | nil => simp [hn]
  | cons d ds ih =>
    have hd0 : d < 10 := hd d (List.mem_cons_self _ _)
    have hrest : ∀ e ∈ ds, e < 10 := fun e he => hd e (List.mem_cons_of_mem _ he)
    have hge := foldl_digits_ge ds (n * 10 + d)
    simp only [List.map_cons, List.cons_append, parseUint, digitVal_digit d hd0, List.foldl_cons]
    by_cases h1 : n ≥ 1844674407370955162
    · have h3 : ¬ ds.foldl (fun a d => a * 10 + d) (n * 10 + d) ≤ 18446744073709551615 := by
        omega
      simp [h1, h3]
    · by_cases h2 : n * 10 + d > 18446744073709551615
      · have h3 : ¬ ds.foldl (fun a d => a * 10 + d) (n * 10 + d) ≤ 18446744073709551615 := by
          omega
        simp [h1, h2, h3]
      · simp only [h1, h2, if_false]
        exact ih (n * 10 + d) hrest (by omega)

theorem splitSign_other (c : Char) (cs : List Char) (h1 : c ≠ '-') (h2 : c ≠ '+') :
    splitSign (c :: cs) = (false, c :: cs) := by
  unfold splitSign
  split
  · rename_i heq
    injection heq with h _
    exact absurd h h1
  · rename_i heq
    injection heq with h _
    exact absurd h h2
  · rfl

theorem Atoi_of_split_nil (s : String) (neg : Bool) (h : splitSign s.toList = (neg, [])) :
    Atoi s = 0 := by
  simp only [Atoi, h]

theorem Atoi_of_split_cons (s : String) (neg : Bool) (c : Char) (cs : List Char)
    (h : splitSign s.toList = (neg, c :: cs)) :
    Atoi s = match parseUint (c :: cs) 0 with
      | ParseResult.syntaxError => 0
      | ParseResult.rangeError =>
        if neg then -(9223372036854775808 : Int) else (9223372036854775807 : Int)
      | ParseResult.value n =>
        if neg then (if n > 9223372036854775808 then -(9223372036854775808 : Int) else -(n : Int))
        else (if n ≥ 9223372036854775808 then (9223372036854775807 : Int) else (n : Int)) := by
  simp only [Atoi, h]

/-- What `Atoi` returns for a text read as an optional sign `sg`, a run of
decimal digits `ds` and a rest `tail` that does not start with a digit: 0 when
there is no digit; the nearest bound of `int` once the number of the digits
leaves 64 bits; 0 when a rest follows digits that stay within 64 bits; else the
number with its sign, or the nearest bound of `int` when that is out of range. -/
theorem Atoi_shape (sg : String) (ds : List Nat) (tail : String)
    (hsg : sg = "" ∨ sg = "+" ∨ sg = "-")
    (hds : ∀ d ∈ ds, d < 10)
    (htail : ∀ c, tail.toList.head? = some c →
      ¬ (48 ≤ c.toNat ∧ c.toNat ≤ 57) ∧ (sg = "" → ds = [] → c ≠ '+' ∧ c ≠ '-')) :
    Atoi (sg ++ numeral ds ++ tail)
      = if ds = [] then 0
        else if 18446744073709551616 ≤ Nat.ofDigits 10 ds.reverse then
          (if sg = "-" then -9223372036854775808 else 9223372036854775807)
        else if tail ≠ "" then 0
        else if sg = "-" then -((min (Nat.ofDigits 10 ds.reverse) 9223372036854775808 : Nat) : Int)
        else ((min (Nat.ofDigits 10 ds.reverse) 9223372036854775807 : Nat) : Int) := by
  have hlist : (sg ++ numeral ds ++ tail).toList
      = sg.toList ++ (ds.map (fun d => Char.ofNat (48 + d)) ++ tail.toList) := by
    simp [numeral]
  have hsplit : splitSign (sg ++ numeral ds ++ tail).toList
      = (decide (sg = "-"), ds.map (fun d => Char.ofNat (48 + d)) ++ tail.toList) := by
    rw [hlist]
    rcases hsg with h | h | h
    · subst h
      cases ds with
      | nil =>
        cases htl : tail.toList with
        | nil => rfl
        | cons c cs =>
          have hc := (htail c (by rw [htl]; rfl)).2 rfl rfl
          simpa using splitSign_other c cs hc.2 hc.1
      | cons d ds =>
        have hd0 : d < 10 := hds d (List.mem_cons_self _ _)
        have h1 : Char.ofNat (48 + d) ≠ '-' := by interval_cases d <;> decide
        have h2 : Char.ofNat (48 + d) ≠ '+' := by interval_cases d <;> decide
        simpa using splitSign_other (Char.ofNat (48 + d)) _ h1 h2
    · subst h; rfl
    · subst h; rfl
  cases ds with
  | nil =>
    simp only [if_true]
    cases htl : tail.toList with
    | nil =>
      rw [htl] at hsplit
      exact Atoi_of_split_nil _ _ hsplit
    | cons c cs =>
      rw [htl] at hsplit
      have hc := (htail c (by rw [htl]; rfl)).1
      rw [Atoi_of_split_cons _ _ c cs (by simpa using hsplit)]
      simp [parseUint, digitVal_other c hc]
  | cons d ds =>
    have hne : ¬ (d :: ds = []) := by simp
    simp only [hne, if_false]
    have hp := parseUint_digits (d :: ds) tail.toList 0 hds (by omega)
    rw [foldl_digits_eq] at hp
    rw [Atoi_of_split_cons _ _ (Char.ofNat (48 + d))
      (ds.map (fun d => Char.ofNat (48 + d)) ++ tail.toList) (by simpa using hsplit)]
    have hp' : parseUint (Char.ofNat (48 + d)
          :: (ds.map (fun d => Char.ofNat (48 + d)) ++ tail.toList)) 0
        = if Nat.ofDigits 10 (d :: ds).reverse ≤ 18446744073709551615
          then parseUint tail.toList (Nat.ofDigits 10 (d :: ds).reverse)
          else ParseResult.rangeError := by
      simpa using hp
    rw [hp']
    generalize Nat.ofDigits 10 (d :: ds).reverse = v
    by_cases hv : v ≤ 18446744073709551615
    · have hv' : ¬ 18446744073709551616 ≤ v := by omega
      simp only [hv, hv', if_true, if_false]
      cases htl : tail.toList with
      | nil =>
        have ht : tail = "" := by
          cases tail
          simp_all
        subst ht
        simp only [parseUint, ne_eq, not_true_eq_false, if_false]
        by_cases hneg : sg = "-"
        · simp only [hneg, decide_True, if_true]
          by_cases hb : v > 9223372036854775808
          · simp only [hb, if_true]
            rw [min_eq_right (by omega)]
            rfl
          · simp only [hb, if_false]
            rw [min_eq_left (by omega)]
        · simp only [hneg, decide_False, Bool.false_eq_true, if_false]
          by_cases hb : v ≥ 9223372036854775808
          · simp only [hb, if_true]
            rw [min_eq_right (by omega)]
            rfl
          · simp only [hb, if_false]
            rw [min_eq_left (by omega)]
      | cons c cs =>
        have hc := (htail c (by rw [htl]; rfl)).1
        have ht : tail ≠ "" := by
          intro h
          subst h
          simp at htl
        simp [parseUint, digitVal_other c hc, ht]
    · have hv' : 18446744073709551616 ≤ v := by omega
      simp only [hv, hv', if_true, if_false]
      by_cases hneg : sg = "-" <;> simp [hneg]

theorem digits_then_rest (l : List Char) :
    ∃ (ds : List Nat) (tail : List Char),
      l = ds.map (fun d => Char.ofNat (48 + d)) ++ tail ∧ (∀ d ∈ ds, d < 10)
        ∧ ∀ c, tail.head? = some c → ¬ (48 ≤ c.toNat ∧ c.toNat ≤ 57) := by
  induction l with
  | nil => exact ⟨[], [], rfl, by simp, by simp⟩
  | cons c l ih =>
    by_cases hc : 48 ≤ c.toNat ∧ c.toNat ≤ 57
    · obtain ⟨ds, tail, hl, hds, htail⟩ := ih
      refine ⟨(c.toNat - 48) :: ds, tail, ?_, ?_, htail⟩
      · have h1 : 48 + (c.toNat - 48) = c.toNat := by omega
        simp only [List.map_cons, List.cons_append, h1, Char.ofNat_toNat]
        rw [← hl]
      · intro d hd
        rcases List.mem_cons.mp hd with h | h
        · omega
        · exact hds d h
    · refine ⟨[], c :: l, rfl, by simp, ?_⟩
      intro c' hc'
      simp only [List.head?_cons, Option.some.injEq] at hc'
      rw [← hc']
      exact hc

/-- Every text is an optional sign, a run of decimal digits and a rest that
does not start with a digit, in the way `Atoi_shape` reads it. -/
theorem header_shape (s : String) :
    ∃ (sg : String) (ds : List Nat) (tail : String),
      s = sg ++ numeral ds ++ tail ∧ (sg = "" ∨ sg = "+" ∨ sg = "-") ∧ (∀ d ∈ ds, d < 10)
        ∧ ∀ c, tail.toList.head? = some c →
            ¬ (48 ≤ c.toNat ∧ c.toNat ≤ 57) ∧ (sg = "" → ds = [] → c ≠ '+' ∧ c ≠ '-') := by
  by_cases hm : ∃ r, s.toList = '-' :: r
  · obtain ⟨r, hr⟩ := hm
    obtain ⟨ds, tail, hl, hds, htail⟩ := digits_then_rest r
    refine ⟨"-", ds, String.mk tail, ?_, Or.inr (Or.inr rfl), hds, fun c hc => ⟨htail c hc, ?_⟩⟩
    · apply String.ext
      have : s.data = '-' :: r := hr
      simp [numeral, this, hl]
    · intro h
      exact absurd h (by decide)
  · by_cases hp : ∃ r, s.toList = '+' :: r
    · obtain ⟨r, hr⟩ := hp
      obtain ⟨ds, tail, hl, hds, htail⟩ := digits_then_rest r
      refine ⟨"+", ds, String.mk tail, ?_, Or.inr (Or.inl rfl), hds,
        fun c hc => ⟨htail c hc, ?_⟩⟩
      · apply String.ext
        have : s.data = '+' :: r := hr
        simp [numeral, this, hl]
      · intro h
        exact absurd h (by decide)
    · obtain ⟨ds, tail, hl, hds, htail⟩ := digits_then_rest s.toList
      refine ⟨"", ds, String.mk tail, ?_, Or.inl rfl, hds, fun c hc => ⟨htail c hc, ?_⟩⟩
      · apply String.ext
        have : s.data = s.toList := rfl
        simp only [String.data_append, numeral]
        rw [this, hl]
        simp
      · intro _ hnil
        subst hnil
        simp only [List.map_nil, List.nil_append] at hl
        have hc' : tail.head? = some c := hc
        cases tail with
        | nil => simp at hc'
        | cons c0 cs =>
          simp only [List.head?_cons, Option.some.injEq] at hc'
          subst hc'
          constructor
          · intro h
            exact hp ⟨cs, by rw [hl, h]⟩
          · intro h
            exact hm ⟨cs, by rw [hl, h]⟩

/-! ### GCM answers other than 200 -/

/-- The status `GCM.Push` returns for an answer other than 200, with the delay
as the call `strconv.Atoi(after)` of the code. -/
theorem GCM.Push_status_code (w : GCMWorld) (n : Notification) (auth b : String)
    (resp : HTTPResponse)
    (h1 : n.DeviceTokens.length ≠ 0) (h2 : n.DeviceTokens.length ≤ 1000)
    (h3 : n.Payload.len ≠ 0)
    (hm : w.Marshal (GCM.ConvertNotification n) = Except.ok b)
    (hd : w.Do { Method := "POST", URL := gcmServiceURL, Authorization := "key=" ++ auth,
                 ContentType := "application/json", Body := b } = Except.ok resp)
    (hs : resp.StatusCode ≠ 200) :
    (GCM.Push w n auth).outcome = Outcome.returned
      (if resp.StatusCode = 503 ∨ resp.StatusCode = 500 then
        { Retry := true, Delay := Atoi resp.RetryAfter, Successes := 0,
          Errors := GoMap.made [("", "ServiceUnavailable")], Updates := GoMap.made [],
          Auth := "" }
      else if resp.StatusCode = 401 then
        { Retry := false, Delay := 0, Successes := 0,
          Errors := GoMap.made [("", "Unauthorized")], Updates := GoMap.made [], Auth := "" }
      else if resp.StatusCode = 400 then
        { Retry := false, Delay := 0, Successes := 0,
          Errors := GoMap.made [("", "InvalidJSON")], Updates := GoMap.made [], Auth := "" }
      else
        { Retry := true, Delay := 0, Successes := 0,
          Errors := GoMap.made [("", "UnknownError")], Updates := GoMap.made [], Auth := "" }) := by
  have h2' : ¬ n.DeviceTokens.length > 1000 := by omega
  simp only [GCM.Push, h1, h2', h3, hm, hd, if_false, GCM.handleResponse]
  by_cases c1 : resp.StatusCode = 503
  · simp [c1, NewPushStatus, GoMap.set, GoMap.setEntries, GoMap.entries]
  · by_cases c2 : resp.StatusCode = 500
    · simp [c2, NewPushStatus, GoMap.set, GoMap.setEntries, GoMap.entries]
    · by_cases c3 : resp.StatusCode = 401
      · simp [c3, NewPushStatus, GoMap.set, GoMap.setEntries, GoMap.entries]
      · by_cases c4 : resp.StatusCode = 400
        · simp [c4, NewPushStatus, GoMap.set, GoMap.setEntries, GoMap.entries]
        · simp [c1, c2, c3, c4, hs, NewPushStatus, GoMap.set, GoMap.setEntries, GoMap.entries]

/-- C5, as stated, fails on the delay.  For a 503 answer with the header
`Retry-After: 9223372036854775808` the delay is not that integer but
9223372036854775807, the largest `int`; and for the header
`99999999999999999999x`, which is not an integer, the delay is not 0 but again
the largest `int`, since the digits leave 64 bits before the `x` is read. -/
theorem GCM_Push_not_200_counterexample :
    (¬ ∃ ps, (GCM.Push (gcmWorldOf (responseOf 503 "9223372036854775808" "") emptyGCMResponse)
            gcmJob "KEY").outcome = Outcome.returned ps
          ∧ ps.Delay = 9223372036854775808)
      ∧ (GCM.Push (gcmWorldOf (responseOf 503 "9223372036854775808" "") emptyGCMResponse)
            gcmJob "KEY").outcome
          = Outcome.returned
              { Retry := true, Delay := 9223372036854775807, Successes := 0,
                Errors := GoMap.made [("", "ServiceUnavailable")], Updates := GoMap.made [],
                Auth := "" }
      ∧ (¬ ∃ ps, (GCM.Push (gcmWorldOf (responseOf 503 "99999999999999999999x" "")
            emptyGCMResponse) gcmJob "KEY").outcome = Outcome.returned ps
          ∧ ps.Delay = 0)
      ∧ (GCM.Push (gcmWorldOf (responseOf 503 "99999999999999999999x" "") emptyGCMResponse)
            gcmJob "KEY").outcome
          = Outcome.returned
              { Retry := true, Delay := 9223372036854775807, Successes := 0,
                Errors := GoMap.made [("", "ServiceUnavailable")], Updates := GoMap.made [],
                Auth := "" } := by
  have hrun1 : (GCM.Push (gcmWorldOf (responseOf 503 "9223372036854775808" "") emptyGCMResponse)
      gcmJob "KEY").outcome
      = Outcome.returned
          { Retry := true, Delay := 9223372036854775807, Successes := 0,
            Errors := GoMap.made [("", "ServiceUnavailable")], Updates := GoMap.made [],
            Auth := "" } := by decide
  have hrun2 : (GCM.Push (gcmWorldOf (responseOf 503 "99999999999999999999x" "")
      emptyGCMResponse) gcmJob "KEY").outcome
      = Outcome.returned
          { Retry := true, Delay := 9223372036854775807, Successes := 0,
            Errors := GoMap.made [("", "ServiceUnavailable")], Updates := GoMap.made [],
            Auth := "" } := by decide
  refine ⟨?_, hrun1, ?_, hrun2⟩
  · rintro ⟨ps, hout, hdelay⟩
    rw [hrun1] at hout
    injection hout with hps
    subst hps
    revert hdelay
    decide
  · rintro ⟨ps, hout, hdelay⟩
    rw [hrun2] at hout
    injection hout with hps
    subst hps
    revert hdelay
    decide

/-- C5, amended: when the notification passes the checks of `GCM.Push` and the
request is answered with a status other than 200, the status returned has
exactly one error, under the empty key, chosen by the status code: 503 and 500
give `ServiceUnavailable` with `Retry` and a `Delay` read from the
`Retry-After` header; 401 gives `Unauthorized` and 400 gives `InvalidJSON`,
both without retry; any other code gives `UnknownError` with `Retry`.  The
header is read as an optional sign `sg`, a run of decimal digits `ds` and a
rest `tail` that does not start with a digit (every header is of that form).
The delay is 0 when there is no digit; the nearest bound of the 64-bit `int`
once the number of the digits reaches `2^64`; 0 when a rest follows digits below
`2^64`; and otherwise the number with its sign, or the nearest bound of `int`
when that is out of range. -/
theorem GCM_Push_not_200 (w : GCMWorld) (n : Notification) (auth b : String)
    (resp : HTTPResponse) (sg : String) (ds : List Nat) (tail : String)
    (h1 : n.DeviceTokens.length ≠ 0) (h2 : n.DeviceTokens.length ≤ 1000)
    (h3 : n.Payload.len ≠ 0)
    (hm : w.Marshal (GCM.ConvertNotification n) = Except.ok b)
    (hd : w.Do { Method := "POST", URL := gcmServiceURL, Authorization := "key=" ++ auth,
                 ContentType := "application/json", Body := b } = Except.ok resp)
    (hs : resp.StatusCode ≠ 200)
    (hhdr : resp.RetryAfter = sg ++ numeral ds ++ tail)
    (hsg : sg = "" ∨ sg = "+" ∨ sg = "-")
    (hds : ∀ d ∈ ds, d < 10)
    (htail : ∀ c, tail.toList.head? = some c →
      ¬ (48 ≤ c.toNat ∧ c.toNat ≤ 57) ∧ (sg = "" → ds = [] → c ≠ '+' ∧ c ≠ '-')) :
    (GCM.Push w n auth).outcome = Outcome.returned
      (if resp.StatusCode = 503 ∨ resp.StatusCode = 500 then
        { Retry := true,
          Delay :=
            if ds = [] then 0
            else if 18446744073709551616 ≤ Nat.ofDigits 10 ds.reverse then
              (if sg = "-" then -9223372036854775808 else 9223372036854775807)
            else if tail ≠ "" then 0
            else if sg = "-" then
              -((min (Nat.ofDigits 10 ds.reverse) 9223372036854775808 : Nat) : Int)
            else ((min (Nat.ofDigits 10 ds.reverse) 9223372036854775807 : Nat) : Int),
          Successes := 0,
          Errors := GoMap.made [("", "ServiceUnavailable")], Updates := GoMap.made [],
          Auth := "" }
      else if resp.StatusCode = 401 then
        { Retry := false, Delay := 0, Successes := 0,
          Errors := GoMap.made [("", "Unauthorized")], Updates := GoMap.made [], Auth := "" }
      else if resp.StatusCode = 400 then
        { Retry := false, Delay := 0, Successes := 0,
          Errors := GoMap.made [("", "InvalidJSON")], Updates := GoMap.made [], Auth := "" }
      else
        { Retry := true, Delay := 0, Successes := 0,
          Errors := GoMap.made [("", "UnknownError")], Updates := GoMap.made [], Auth := "" }) := by
  rw [GCM.Push_status_code w n auth b resp h1 h2 h3 hm hd hs, hhdr,
    Atoi_shape sg ds tail hsg hds htail]

/-- C5, amended, at three 503 answers: `Retry-After: 120` gives the delay 120,
an HTTP date gives 0, and `-7` gives -7; the call `strconv.Atoi` of the code
gives these values, and 5 for `+5`. -/
theorem GCM_Push_not_200_witness :
    (gcmJob.DeviceTokens.length ≠ 0 ∧ gcmJob.DeviceTokens.length ≤ 1000
        ∧ gcmJob.Payload.len ≠ 0 ∧ (responseOf 503 "120" "").StatusCode ≠ 200
        ∧ (responseOf 503 "120" "").RetryAfter = "" ++ numeral [1, 2, 0] ++ "")
      ∧ (GCM.Push (gcmWorldOf (responseOf 503 "120" "") emptyGCMResponse) gcmJob "KEY").outcome
          = Outcome.returned
              { Retry := true, Delay := 120, Successes := 0,
                Errors := GoMap.made [("", "ServiceUnavailable")], Updates := GoMap.made [],
                Auth := "" }
      ∧ (GCM.Push (gcmWorldOf (responseOf 503 "Fri, 31 Dec 1999 23:59:59 GMT" "")
            emptyGCMResponse) gcmJob "KEY").outcome
          = Outcome.returned
              { Retry := true, Delay := 0, Successes := 0,
                Errors := GoMap.made [("", "ServiceUnavailable")], Updates := GoMap.made [],
                Auth := "" }
      ∧ (GCM.Push (gcmWorldOf (responseOf 503 "-7" "") emptyGCMResponse) gcmJob "KEY").outcome
          = Outcome.returned
              { Retry := true, Delay := -7, Successes := 0,
                Errors := GoMap.made [("", "ServiceUnavailable")], Updates := GoMap.made [],
                Auth := "" }
      ∧ (Atoi "120" = 120 ∧ Atoi "Fri, 31 Dec 1999 23:59:59 GMT" = 0 ∧ Atoi "-7" = -7
          ∧ Atoi "+5" = 5) := by
  have ha := GCM_Push_not_200 (gcmWorldOf (responseOf 503 "120" "") emptyGCMResponse) gcmJob
    "KEY" "body" (responseOf 503 "120" "") "" [1, 2, 0] "" (by decide) (by decide) (by decide)
    rfl rfl (by decide) (by decide) (Or.inl rfl) (by decide) (by simp)
  have hb := GCM_Push_not_200
    (gcmWorldOf (responseOf 503 "Fri, 31 Dec 1999 23:59:59 GMT" "") emptyGCMResponse) gcmJob
    "KEY" "body" (responseOf 503 "Fri, 31 Dec 1999 23:59:59 GMT" "") "" []
    "Fri, 31 Dec 1999 23:59:59 GMT" (by decide) (by decide) (by decide)
    rfl rfl (by decide) (by decide) (Or.inl rfl) (by simp) (by decide)
  have hc := GCM_Push_not_200 (gcmWorldOf (responseOf 503 "-7" "") emptyGCMResponse) gcmJob
    "KEY" "body" (responseOf 503 "-7" "") "-" [7] "" (by decide) (by decide) (by decide)
    rfl rfl (by decide) (by decide) (Or.inr (Or.inr rfl)) (by decide) (by simp)
  refine ⟨⟨by decide, by decide, by decide, by decide, by decide⟩, ?_, ?_, ?_, by decide⟩
  · rw [ha]; simp [responseOf, Nat.ofDigits]
  · rw [hb]; simp [responseOf]
  · rw [hc]; simp [responseOf, Nat.ofDigits]

/-! ### The match of `Error=(.*)` in a C2DM body -/

/-- A text in which `Error=` does not occur has no match. -/
theorem findErrorChars_none (l : List Char)
    (h : ∀ pre suf : List Char, l ≠ pre ++ "Error=".toList ++ suf) :
    findErrorChars l = none := by
  induction l with
  | nil => rfl
  | cons c cs ih =>
    have hno : ¬ ("Error=".toList.isPrefixOf (c :: cs) = true) := by
      intro hp
      obtain ⟨suf, hsuf⟩ := List.isPrefixOf_iff_prefix.mp hp
      exact h [] suf (by simpa using hsuf.symm)
    simp only [findErrorChars, hno, if_false]
    refine ih fun pre suf heq => h (c :: pre) suf ?_
    rw [heq]
    rfl

/-- The run of characters up to the end of the line. -/
theorem restOfLine_append (code rest : List Char) (hcode : Char.ofNat 10 ∉ code)
    (hrest : rest = [] ∨ rest.head? = some (Char.ofNat 10)) :
    restOfLine (code ++ rest) = code := by
  unfold restOfLine
  rw [List.takeWhile_append_of_pos]
  · rcases hrest with h | h
    · subst h
      simp
    · cases rest with
      | nil => simp
      | cons r rs =>
        simp only [List.head?_cons, Option.some.injEq] at h
        subst h
        simp [List.takeWhile]
  · intro a ha
    have : a ≠ Char.ofNat 10 := fun h => hcode (h ▸ ha)
    simpa using this

/-- The match in a text is the leftmost occurrence of `Error=`, and the code
matched is the text after it up to the end of the line. -/
theorem findErrorChars_some (pre code rest : List Char)
    (hleft : ∀ pre2 suf2 : List Char,
      pre ++ "Error=".toList ++ code ++ rest = pre2 ++ "Error=".toList ++ suf2 →
      pre.length ≤ pre2.length)
    (hcode : Char.ofNat 10 ∉ code)
    (hrest : rest = [] ∨ rest.head? = some (Char.ofNat 10)) :
    findErrorChars (pre ++ "Error=".toList ++ code ++ rest) = some code := by
  induction pre with
  | nil =>
    have hl : [] ++ "Error=".toList ++ code ++ rest
        = 'E' :: ("rror=".toList ++ (code ++ rest)) := by
      simp
    rw [hl]
    have hp : "Error=".toList.isPrefixOf ('E' :: ("rror=".toList ++ (code ++ rest))) = true := by
      rw [List.isPrefixOf_iff_prefix]
      exact ⟨code ++ rest, by simp⟩
    simp only [findErrorChars, hp, if_true]
    have hdrop : List.drop 6 ('E' :: ("rror=".toList ++ (code ++ rest))) = code ++ rest := by
      simp
    rw [hdrop, restOfLine_append code rest hcode hrest]
  | cons p pre ih =>
    have hl : (p :: pre) ++ "Error=".toList ++ code ++ rest
        = p :: (pre ++ "Error=".toList ++ code ++ rest) := by
      simp
    have hno : ¬ ("Error=".toList.isPrefixOf (p :: (pre ++ "Error=".toList ++ code ++ rest))
        = true) := by
      intro hp
      obtain ⟨suf, hsuf⟩ := List.isPrefixOf_iff_prefix.mp hp
      have := hleft [] suf (by rw [hl, ← hsuf]; simp)
      simp at this
    rw [hl]
    simp only [findErrorChars, hno, if_false]
    refine ih fun pre2 suf2 heq => ?_
    have := hleft (p :: pre2) suf2 (by rw [hl, heq]; simp)
    simpa using this

/-- A body in which `Error=` does not occur has no match. -/
theorem findErrorCode_none (body : String)
    (h : ∀ pre suf : List Char, body.toList ≠ pre ++ "Error=".toList ++ suf) :
    findErrorCode body = none := by
  unfold findErrorCode
  rw [findErrorChars_none body.toList h]
  rfl

/-- The code matched in a body is the text after the leftmost `Error=` up to
the end of the line. -/
theorem findErrorCode_some (body : String) (pre : List Char) (code : String) (rest : List Char)
    (hbody : body.toList = pre ++ "Error=".toList ++ code.toList ++ rest)
    (hleft : ∀ pre2 suf2 : List Char, body.toList = pre2 ++ "Error=".toList ++ suf2 →
      pre.length ≤ pre2.length)
    (hcode : Char.ofNat 10 ∉ code.toList)
    (hrest : rest = [] ∨ rest.head? = some (Char.ofNat 10)) :
    findErrorCode body = some code := by
  rw [hbody] at hleft
  unfold findErrorCode
  rw [hbody, findErrorChars_some pre code.toList rest hleft hcode hrest]
  rfl

/-- Every text either has no occurrence of `Error=`, or is a leftmost
occurrence followed by a code without a line feed and a rest that is empty or
starts with a line feed. -/
theorem error_code_shape (l : List Char) :
    (∀ pre suf : List Char, l ≠ pre ++ "Error=".toList ++ suf)
      ∨ ∃ pre code rest : List Char, l = pre ++ "Error=".toList ++ code ++ rest
          ∧ (∀ pre2 suf2 : List Char, l = pre2 ++ "Error=".toList ++ suf2 →
              pre.length ≤ pre2.length)
          ∧ Char.ofNat 10 ∉ code ∧ (rest = [] ∨ rest.head? = some (Char.ofNat 10)) := by
  induction l with
  | nil =>
    left
    intro pre suf h
    have := congrArg List.length h
    simp at this
    omega
  | cons c cs ih =>
    by_cases hp : "Error=".toList.isPrefixOf (c :: cs) = true
    · right
      obtain ⟨suf, hsuf⟩ := List.isPrefixOf_iff_prefix.mp hp
      refine ⟨[], suf.takeWhile (fun x => x ≠ Char.ofNat 10),
        suf.dropWhile (fun x => x ≠ Char.ofNat 10), ?_, fun _ _ _ => Nat.zero_le _, ?_, ?_⟩
      · rw [List.append_assoc, List.takeWhile_append_dropWhile, ← hsuf]
        simp
      · intro hmem
        have := List.mem_takeWhile_imp hmem
        simp at this
      · have := List.head?_dropWhile_not (fun x => decide (x ≠ Char.ofNat 10)) suf
        cases hd : (suf.dropWhile (fun x => decide (x ≠ Char.ofNat 10))).head? with
        | none =>
          left
          simpa using hd
        | some x =>
          right
          rw [hd] at this
          simp at this
          rw [this]
    · rcases ih with hnone | ⟨pre, code, rest, hl, hleft, hcode, hrest⟩
      · left
        intro pre suf h
        cases pre with
        | nil =>
          apply hp
          rw [List.isPrefixOf_iff_prefix]
          exact ⟨suf, by rw [h]; simp⟩
        | cons p pre =>
          simp only [List.cons_append, List.cons.injEq] at h
          exact hnone pre suf h.2
      · right
        refine ⟨c :: pre, code, rest, by rw [hl]; simp, ?_, hcode, hrest⟩
        intro pre2 suf2 h
        cases pre2 with
        | nil =>
          exfalso
          apply hp
          rw [List.isPrefixOf_iff_prefix]
          exact ⟨suf2, by rw [h]; simp⟩
        | cons p2 pre2 =>
          simp only [List.cons_append, List.cons.injEq] at h
          have := hleft pre2 suf2 h.2
          simp only [List.length_cons]
          omega

/-- The status `C2DM.Push` returns for a single token, by the match the code
finds in the body and with the delay as the call `strconv.Atoi(after)` of the
code. -/
theorem C2DM.Push_single_code (w : C2DMWorld) (n : Notification) (auth devToken body : String)
    (resp : HTTPResponse)
    (ht : n.DeviceTokens = [devToken]) (hp : n.Payload.len ≠ 0)
    (henc : (bytesOf (w.Encode (C2DM.form n devToken))).length < 1024)
    (hd : w.Do 0 { Method := "POST", URL := c2dmServiceURL,
                   Authorization := "GoogleLogin auth=" ++ auth,
                   ContentType := "application/x-www-form-urlencoded",
                   Body := w.Encode (C2DM.form n devToken) } = Except.ok resp)
    (hs : resp.StatusCode ≠ 503 ∧ resp.StatusCode ≠ 500 ∧ resp.StatusCode ≠ 401)
    (hb : resp.Body = Except.ok body) :
    (C2DM.Push w n auth).outcome = Outcome.returned
      (match findErrorCode body with
        | none =>
          { Retry := false, Delay := 0, Successes := 1, Errors := GoMap.made [],
            Updates := GoMap.made [], Auth := "" }
        | some code =>
          if code = "QuotaExceeded" then
            { Retry := true, Delay := 0, Successes := 0,
              Errors := GoMap.made [(devToken, "QuotaExceeded")], Updates := GoMap.made [],
              Auth := "" }
          else if code = "DeviceQuotaExceeded" then
            { Retry := true, Delay := Atoi resp.RetryAfter, Successes := 0,
              Errors := GoMap.made [(devToken, "DeviceQuotaExceeded")],
              Updates := GoMap.made [], Auth := "" }
          else if code = "InvalidRegistration" ∨ code = "NotRegistered"
              ∨ code = "MessageTooBig" ∨ code = "MissingCollapseKey" then
            { Retry := false, Delay := 0, Successes := 0,
              Errors := GoMap.made [(devToken, code)], Updates := GoMap.made [], Auth := "" }
          else
            { Retry := true, Delay := Atoi resp.RetryAfter, Successes := 0,
              Errors := GoMap.made [(devToken, "UnknownError")], Updates := GoMap.made [],
              Auth := "" }) := by
  have henc' : ¬ (bytesOf (w.Encode (C2DM.form n devToken))).length ≥ 1024 := by omega
  simp only [C2DM.Push, ht, List.length_singleton, one_ne_zero, if_false, C2DM.tokens, hp,
    henc', hd, hs.1, hs.2.1, hs.2.2, hb]
  cases hc : findErrorCode body with
  | none => simp [NewPushStatus]
  | some code =>
    simp only [C2DM.classify, NewPushStatus, GoMap.set, GoMap.setEntries, GoMap.entries]
    by_cases c1 : code = "QuotaExceeded"
    · simp [c1]
    · by_cases c2 : code = "DeviceQuotaExceeded"
      · simp [c2]
      · by_cases c3 : code = "InvalidRegistration"
        · simp [c3]
        · by_cases c4 : code = "NotRegistered"
          · simp [c4]
          · by_cases c5 : code = "MessageTooBig"
            · simp [c5]
            · by_cases c6 : code = "MissingCollapseKey"
              · simp [c6]
              · simp [c1, c2, c3, c4, c5, c6]

/-- C6: for a C2DM notification with a single device token, a non-empty
payload and an encoded form under 1024 bytes, answered with a status other
than 503, 500 and 401 and a body that could be read.  When `Error=` does not
occur in the body the status has `Successes` 1 and no error.  Otherwise the
code is the text after the leftmost `Error=` up to the end of its line, and
the token's error follows it: `QuotaExceeded` sets `Retry`;
`DeviceQuotaExceeded` sets `Retry` and takes `Delay` from `Retry-After`;
`InvalidRegistration`, `NotRegistered`, `MessageTooBig` and `MissingCollapseKey`
are recorded under their own name without retry; any other code is recorded as
`UnknownError` with `Retry` and `Delay` from `Retry-After`.  The header is read
as an optional sign `sg`, a run of decimal digits `ds` and a rest `tail` that
does not start with a digit; the delay taken from it is 0 when there is no
digit, the nearest bound of the 64-bit `int` once the number of the digits
reaches `2^64`, 0 when a rest follows digits below `2^64`, and otherwise the
number with its sign, or the nearest bound of `int` when that is out of
range. -/
theorem C2DM_Push_single (w : C2DMWorld) (n : Notification) (auth devToken body : String)
    (resp : HTTPResponse) (sg : String) (ds : List Nat) (tail : String) (delay : Int)
    (ht : n.DeviceTokens = [devToken]) (hp : n.Payload.len ≠ 0)
    (henc : (bytesOf (w.Encode (C2DM.form n devToken))).length < 1024)
    (hd : w.Do 0 { Method := "POST", URL := c2dmServiceURL,
                   Authorization := "GoogleLogin auth=" ++ auth,
                   ContentType := "application/x-www-form-urlencoded",
                   Body := w.Encode (C2DM.form n devToken) } = Except.ok resp)
    (hs : resp.StatusCode ≠ 503 ∧ resp.StatusCode ≠ 500 ∧ resp.StatusCode ≠ 401)
    (hb : resp.Body = Except.ok body)
    (hhdr : resp.RetryAfter = sg ++ numeral ds ++ tail)
    (hsg : sg = "" ∨ sg = "+" ∨ sg = "-")
    (hds : ∀ d ∈ ds, d < 10)
    (htail : ∀ c, tail.toList.head? = some c →
      ¬ (48 ≤ c.toNat ∧ c.toNat ≤ 57) ∧ (sg = "" → ds = [] → c ≠ '+' ∧ c ≠ '-'))
    (hdelay : delay =
      if ds = [] then 0
      else if 18446744073709551616 ≤ Nat.ofDigits 10 ds.reverse then
        (if sg = "-" then -9223372036854775808 else 9223372036854775807)
      else if tail ≠ "" then 0
      else if sg = "-" then -((min (Nat.ofDigits 10 ds.reverse) 9223372036854775808 : Nat) : Int)
      else ((min (Nat.ofDigits 10 ds.reverse) 9223372036854775807 : Nat) : Int)) :
    ((∀ pre suf : List Char, body.toList ≠ pre ++ "Error=".toList ++ suf) →
        (C2DM.Push w n auth).outcome = Outcome.returned
          { Retry := false, Delay := 0, Successes := 1, Errors := GoMap.made [],
            Updates := GoMap.made [], Auth := "" })
      ∧ (∀ (pre : List Char) (code : String) (rest : List Char),
          body.toList = pre ++ "Error=".toList ++ code.toList ++ rest →
          (∀ pre2 suf2 : List Char, body.toList = pre2 ++ "Error=".toList ++ suf2 →
            pre.length ≤ pre2.length) →
          Char.ofNat 10 ∉ code.toList →
          (rest = [] ∨ rest.head? = some (Char.ofNat 10)) →
          (C2DM.Push w n auth).outcome = Outcome.returned
            (if code = "QuotaExceeded" then
              { Retry := true, Delay := 0, Successes := 0,
                Errors := GoMap.made [(devToken, "QuotaExceeded")], Updates := GoMap.made [],
                Auth := "" }
            else if code = "DeviceQuotaExceeded" then
              { Retry := true, Delay := delay, Successes := 0,
                Errors := GoMap.made [(devToken, "DeviceQuotaExceeded")],
                Updates := GoMap.made [], Auth := "" }
            else if code = "InvalidRegistration" ∨ code = "NotRegistered"
                ∨ code = "MessageTooBig" ∨ code = "MissingCollapseKey" then
              { Retry := false, Delay := 0, Successes := 0,
                Errors := GoMap.made [(devToken, code)], Updates := GoMap.made [], Auth := "" }
            else
              { Retry := true, Delay := delay, Successes := 0,
                Errors := GoMap.made [(devToken, "UnknownError")], Updates := GoMap.made [],
                Auth := "" })) := by
  have hrun := C2DM.Push_single_code w n auth devToken body resp ht hp henc hd hs hb
  have hat : Atoi resp.RetryAfter = delay := by
    rw [hhdr, Atoi_shape sg ds tail hsg hds htail, hdelay]
  constructor
  · intro hnone
    rw [hrun, findErrorCode_none body hnone]
  · intro pre code rest hbody hleft hcode hrest
    rw [hrun, findErrorCode_some body pre code rest hbody hleft hcode hrest, hat]

/-- C6 at two answers 200.  With `Retry-After: 120` and a body whose second
line is `Error=DeviceQuotaExceeded`, followed by a third line, the token gets
`DeviceQuotaExceeded` with `Retry` and the delay 120.  With the body `id=1234`
the status has one success and no error. -/
theorem C2DM_Push_single_witness :
    (c2dmJob.DeviceTokens = ["t"] ∧ c2dmJob.Payload.len ≠ 0
        ∧ (responseOf 200 "120" "x=1\nError=DeviceQuotaExceeded\nretry later").StatusCode ≠ 503
        ∧ (responseOf 200 "120" "x=1\nError=DeviceQuotaExceeded\nretry later").RetryAfter
            = "" ++ numeral [1, 2, 0] ++ ""
        ∧ "x=1\nError=DeviceQuotaExceeded\nretry later".toList
            = "x=1\n".toList ++ "Error=".toList ++ "DeviceQuotaExceeded".toList
                ++ "\nretry later".toList
        ∧ findErrorCode "x=1\nError=DeviceQuotaExceeded\nretry later"
            = some "DeviceQuotaExceeded"
        ∧ findErrorCode "id=1234" = none)
      ∧ (C2DM.Push (c2dmWorldOf (responseOf 200 "120"
            "x=1\nError=DeviceQuotaExceeded\nretry later")) c2dmJob "KEY").outcome
          = Outcome.returned
              { Retry := true, Delay := 120, Successes := 0,
                Errors := GoMap.made [("t", "DeviceQuotaExceeded")], Updates := GoMap.made [],
                Auth := "" }
      ∧ (C2DM.Push (c2dmWorldOf (responseOf 200 "" "id=1234")) c2dmJob "KEY").outcome
          = Outcome.returned
              { Retry := false, Delay := 0, Successes := 1, Errors := GoMap.made [],
                Updates := GoMap.made [], Auth := "" } := by
  have hleft : ∀ pre2 suf2 : List Char,
      "x=1\nError=DeviceQuotaExceeded\nretry later".toList = pre2 ++ "Error=".toList ++ suf2 →
      "x=1\n".toList.length ≤ pre2.length := by
    intro pre2 suf2 h
    by_contra hlt
    have hk : "Error=".toList.isPrefixOf
        ("x=1\nError=DeviceQuotaExceeded\nretry later".toList.drop pre2.length) = true := by
      rw [h, List.isPrefixOf_iff_prefix]
      exact ⟨suf2, by simp⟩
    have hall : ∀ k, k < 4 → "Error=".toList.isPrefixOf
        ("x=1\nError=DeviceQuotaExceeded\nretry later".toList.drop k) = false := by decide
    have hlen : pre2.length < 4 := by
      have : "x=1\n".toList.length = 4 := by decide
      omega
    rw [hall pre2.length hlen] at hk
    exact absurd hk (by decide)
  have hnone : ∀ pre suf : List Char, "id=1234".toList ≠ pre ++ "Error=".toList ++ suf := by
    intro pre suf h
    have hk : "Error=".toList.isPrefixOf ("id=1234".toList.drop pre.length) = true := by
      rw [h, List.isPrefixOf_iff_prefix]
      exact ⟨suf, by simp⟩
    have hall : ∀ k, k < 8 → "Error=".toList.isPrefixOf ("id=1234".toList.drop k) = false := by
      decide
    have hlen : pre.length < 8 := by
      have h7 : "id=1234".toList.length = 7 := by decide
      have := congrArg List.length h
      rw [h7] at this
      simp only [List.length_append] at this
      omega
    rw [hall pre.length hlen] at hk
    exact absurd hk (by decide)
  have h := (C2DM_Push_single
    (c2dmWorldOf (responseOf 200 "120" "x=1\nError=DeviceQuotaExceeded\nretry later"))
    c2dmJob "KEY" "t" "x=1\nError=DeviceQuotaExceeded\nretry later"
    (responseOf 200 "120" "x=1\nError=DeviceQuotaExceeded\nretry later") "" [1, 2, 0] "" 120
    rfl (by decide) (by decide) rfl (by decide) rfl (by decide) (Or.inl rfl) (by decide)
    (by simp) (by simp [Nat.ofDigits])).2
    "x=1\n".toList "DeviceQuotaExceeded" "\nretry later".toList (by decide) hleft (by decide)
    (Or.inr (by decide))
  have h2 := (C2DM_Push_single (c2dmWorldOf (responseOf 200 "" "id=1234")) c2dmJob "KEY" "t"
    "id=1234" (responseOf 200 "" "id=1234") "" [] "" 0
    rfl (by decide) (by decide) rfl (by decide) rfl (by decide) (Or.inl rfl) (by simp)
    (by simp) (by simp)).1 hnone
  refine ⟨⟨rfl, by decide, by decide, by decide, by decide, by decide, by decide⟩, ?_, h2⟩
  rw [h]
  decide

/-! ### GCM answers with status 200 -/

/-- A text without `%` holds no verb: `fmt.Errorf` copies it as it is. -/
theorem fmtErrorf_plain (verbs : String → String) (format : String)
    (h : '%' ∉ format.toList) : fmtErrorf verbs format = format := by
  unfold fmtErrorf
  rw [if_neg h]

/-- C4, amended: for a notification with 1 to 1000 device tokens and a
non-empty payload, and a 200 answer that decodes to a `GCMResponse` with no
more results than tokens, `GCM.Push` returns a status without retry whose
`Successes` is the `success` field.  When `failure` and `canonical_ids` are
both 0 the status has no errors and no updates.  Otherwise, for every result
index `i` whose device token does not occur again at a later result index: a
non-empty `message_id` with a non-empty `registration_id` puts that
registration id into `Updates` under the token, an empty `message_id` with an
error text that holds no `%` puts that error text into `Errors` under the
token; every entry of `Updates` is a registration id recorded in this way, and
every entry of `Errors` is under the token of a result with an empty
`message_id` and is the error text of that result when it holds no `%`. -/
theorem GCM_Push_200 (w : GCMWorld) (n : Notification) (auth b body : String)
    (resp : HTTPResponse) (ret : GCMResponse)
    (h1 : 1 ≤ n.DeviceTokens.length) (h2 : n.DeviceTokens.length ≤ 1000)
    (h3 : n.Payload.len ≠ 0)
    (hm : w.Marshal (GCM.ConvertNotification n) = Except.ok b)
    (hd : w.Do { Method := "POST", URL := gcmServiceURL, Authorization := "key=" ++ auth,
                 ContentType := "application/json", Body := b } = Except.ok resp)
    (hs : resp.StatusCode = 200) (hb : resp.Body = Except.ok body)
    (hu : w.Unmarshal body = Except.ok ret)
    (hr : ret.Results.length ≤ n.DeviceTokens.length) :
    ∃ ps, (GCM.Push w n auth).outcome = Outcome.returned ps
      ∧ ps.Successes = ret.Success ∧ ps.Retry = false
      ∧ (ret.Failure = 0 ∧ ret.CanonicalIDs = 0 →
          ps.Errors = GoMap.made [] ∧ ps.Updates = GoMap.made [])
      ∧ (¬ (ret.Failure = 0 ∧ ret.CanonicalIDs = 0) →
          (∀ (i : Nat) (r : GCMResult) (t : String),
              ret.Results[i]? = some r → n.DeviceTokens[i]? = some t →
              (∀ j, i < j → j < ret.Results.length → n.DeviceTokens[j]? ≠ some t) →
              (r.MessageID ≠ "" → r.RegistrationID ≠ "" →
                  ps.Updates.get? t = some r.RegistrationID)
                ∧ (r.MessageID = "" → '%' ∉ r.Error.toList →
                    ps.Errors.get? t = some r.Error))
          ∧ (∀ t v, ps.Errors.get? t = some v →
              ∃ (i : Nat) (r : GCMResult), ret.Results[i]? = some r ∧ n.DeviceTokens[i]? = some t
                ∧ r.MessageID = "" ∧ ('%' ∉ r.Error.toList → v = r.Error))
          ∧ (∀ t v, ps.Updates.get? t = some v →
              ∃ (i : Nat) (r : GCMResult), ret.Results[i]? = some r ∧ n.DeviceTokens[i]? = some t
                ∧ r.MessageID ≠ "" ∧ r.RegistrationID ≠ "" ∧ v = r.RegistrationID)) := by
  have h1' : ¬ n.DeviceTokens.length = 0 := by omega
  have h2' : ¬ n.DeviceTokens.length > 1000 := by omega
  have c1 : ¬ (200 : Int) = 503 := by decide
  have c2 : ¬ (200 : Int) = 500 := by decide
  have c3 : ¬ (200 : Int) = 401 := by decide
  have c4 : ¬ (200 : Int) = 400 := by decide
  have hout : (GCM.Push w n auth).outcome
      = if ret.Failure = 0 ∧ ret.CanonicalIDs = 0 then
          Outcome.returned { NewPushStatus with Successes := ret.Success }
        else
          match GCM.results (fmtErrorf w.Errorf) n.DeviceTokens ret.Results 0
              (if ret.Failure > 0 then
                { ({ NewPushStatus with Successes := ret.Success } : PushStatus) with
                  Delay := Atoi resp.RetryAfter }
              else { NewPushStatus with Successes := ret.Success }) with
          | some ps => Outcome.returned ps
          | none => Outcome.panicked "index out of range" := by
    simp only [GCM.Push, h1', h2', h3, hm, hd, if_false, GCM.handleResponse, hs, c1, c2, c3, c4,
      hb, hu, ne_eq, not_true_eq_false]
  rw [hout]
  by_cases hz : ret.Failure = 0 ∧ ret.CanonicalIDs = 0
  · rw [if_pos hz]
    exact ⟨_, rfl, rfl, rfl, fun _ => ⟨rfl, rfl⟩, fun hn => absurd hz hn⟩
  · rw [if_neg hz]
    obtain ⟨ps', hrun, hfields, _, hwritten, herr, hupd⟩ :=
      GCM.results_spec (fmtErrorf w.Errorf) n.DeviceTokens ret.Results 0
        (if ret.Failure > 0 then
          { ({ NewPushStatus with Successes := ret.Success } : PushStatus) with
            Delay := Atoi resp.RetryAfter }
        else { NewPushStatus with Successes := ret.Success })
        (by simpa using hr)
    refine ⟨ps', ?_, ?_, ?_, fun h => absurd h hz, fun _ => ⟨?_, ?_, ?_⟩⟩
    · rw [hrun]
    · rw [hfields.2.2.1]; split <;> rfl
    · rw [hfields.1]; split <;> rfl
    · intro i r t hi ht hl
      have hw := hwritten i r t hi (by simpa using ht) (fun j2 a b => by simpa using hl j2 a b)
      refine ⟨hw.1, fun hmsg hplain => ?_⟩
      rw [hw.2 hmsg, fmtErrorf_plain _ _ hplain]
    · intro t v hv
      rcases herr t v hv with h | ⟨j, r, hj, ht, hm', hv'⟩
      · exfalso
        revert h
        split <;> simp [NewPushStatus, GoMap.get?, GoMap.entries]
      · exact ⟨j, r, hj, by simpa using ht, hm', fun hplain => by
          rw [hv', fmtErrorf_plain _ _ hplain]⟩
    · intro t v hv
      rcases hupd t v hv with h | ⟨j, r, hj, ht, hm', hr', hv'⟩
      · exfalso
        revert h
        split <;> simp [NewPushStatus, GoMap.get?, GoMap.entries]
      · exact ⟨j, r, hj, by simpa using ht, hm', hr', hv'⟩

/-- C4, amended, at the third scenario of the specification: two tokens, one
success and one failure with the error text `Unavailable`, `Retry-After: 7`.
The error recorded for the second token is `Unavailable`, whatever `fmt.Errorf`
makes of a format with a `%`. -/
theorem GCM_Push_200_witness :
    (1 ≤ twoTokenJob.DeviceTokens.length ∧ twoTokenJob.DeviceTokens.length ≤ 1000
        ∧ twoTokenJob.Payload.len ≠ 0 ∧ (responseOf 200 "7" "").StatusCode = 200
        ∧ partialFailure.Results.length ≤ twoTokenJob.DeviceTokens.length)
      ∧ (∃ ps, (GCM.Push (gcmWorldBlank (responseOf 200 "7" "") partialFailure) twoTokenJob
            "KEY").outcome = Outcome.returned ps
          ∧ ps.Successes = 1 ∧ ps.Retry = false
          ∧ ps.Errors.get? "t2" = some "Unavailable")
      ∧ (GCM.Push (gcmWorldBlank (responseOf 200 "7" "") partialFailure) twoTokenJob
            "KEY").outcome
          = Outcome.returned
              { Retry := false, Delay := 7, Successes := 1,
                Errors := GoMap.made [("t2", "Unavailable")], Updates := GoMap.made [],
                Auth := "" } := by
  obtain ⟨ps, hout, hsucc, hretry, _, hrest⟩ :=
    GCM_Push_200 (gcmWorldBlank (responseOf 200 "7" "") partialFailure) twoTokenJob "KEY" "body"
      "" (responseOf 200 "7" "") partialFailure (by decide) (by decide) (by decide) rfl rfl rfl
      rfl rfl (by decide)
  refine ⟨by decide, ⟨ps, hout, hsucc, hretry, ?_⟩, by decide⟩
  exact ((hrest (by decide)).1 1 { MessageID := "", RegistrationID := "", Error := "Unavailable" }
    "t2" rfl rfl (fun j h1 h2 => by
      have h3 : j < 2 := h2
      omega)).2 rfl (by decide)

/-! ### Writing the PDU -/

/-- A pass of the loop body from `pool.Get()` on writes the PDU when the
socket at the front of the pool is unlocked, takes the payload, and is
connected already or gets connected. -/
theorem APNS.send_writes (x : APNSExchange) (n : Notification) (devToken : String)
    (btoken bpayload : List Nat) (pool : APNSConnPool) (st : APNSLoop)
    (c : APNSConn) (cs : List APNSConn)
    (hconn : pool.conn = c :: cs) (hmu : c.mu = false)
    (hsize : (bpayload.length : Int) ≤ c.MaxPayloadSize)
    (hlink : c.connected = true ∨ (x.dial = none ∧ x.handshake = none)) :
    ∃ run, APNS.send x n devToken btoken bpayload pool st = APNSStep.done run
      ∧ NetEvent.write (APNS.pdu (APNS.expiry n x.now) btoken bpayload) ∈ run.events := by
  have hsize' : ¬ ((bpayload.length : Int) > c.MaxPayloadSize) := by omega
  obtain ⟨c', evs, hc, hsz, hm⟩ : ∃ c' evs, c.connect x = (c', none, evs)
      ∧ c'.MaxPayloadSize = c.MaxPayloadSize ∧ c'.mu = c.mu := by
    by_cases hcon : c.connected = true
    · exact ⟨c, [], by simp [APNSConn.connect, hcon], rfl, rfl⟩
    · rcases hlink with h | ⟨hdial, hhs⟩
      · exact absurd h hcon
      · by_cases htls : c.tlsConn = true
        · have hrun : c.connect x
              = ({ c.Close with tlsConn := true, connected := true }, none,
                  [NetEvent.dial c.Close.endpoint, NetEvent.handshake]) := by
            simp [APNSConn.connect, hcon, hdial, hhs, htls]
          exact ⟨_, _, hrun, by simp [APNSConn.Close, htls], by simp [APNSConn.Close, htls]⟩
        · have hrun : c.connect x
              = ({ c with tlsConn := true, connected := true }, none,
                  [NetEvent.dial c.endpoint, NetEvent.handshake]) := by
            simp [APNSConn.connect, hcon, hdial, hhs, htls]
          exact ⟨_, _, hrun, rfl, rfl⟩
  have hsize2 : ¬ ((bpayload.length : Int) > c'.MaxPayloadSize) := by rw [hsz]; exact hsize'
  have hm2 : c'.mu = false := by rw [hm]; exact hmu
  unfold APNS.send
  simp only [hconn, hc, hsize2, hm2, if_false, Bool.false_eq_true]
  cases hw : x.write with
  | some e => exact ⟨_, rfl, by simp [APNSLoop.finish]⟩
  | none =>
    dsimp only
    cases hr : x.read with
    | timeout => exact ⟨_, rfl, by simp [APNSLoop.finish]⟩
    | failed e => exact ⟨_, rfl, by simp [APNSLoop.finish]⟩
    | data bytes =>
      simp only [Nat.zero_le, if_true]
      exact ⟨_, rfl, by simp [APNSLoop.finish]⟩

/-- On an adapter with a free lock and a pool for the app, a pass of the loop
body writes the PDU when the socket at the front of the pool is unlocked,
takes 256 bytes, and is connected already or gets connected. -/
theorem APNS.token_writes_pooled (w : APNSWorld) (n : Notification) (auth : String) (k : Nat)
    (devToken : String) (st : APNSLoop) (T : List Nat) (P : String)
    (pool : APNSConnPool) (c : APNSConn) (cs : List APNSConn)
    (hT : DecodeString devToken = Except.ok T)
    (hP : n.Payload.get? "payload" = some (GoValue.str P))
    (hlen : (bytesOf P).length ≤ 256)
    (hmu : st.apns.mu = false) (hpool : st.apns.Pool.get? n.AppName = some pool)
    (hconn : pool.conn = c :: cs) (hcmu : c.mu = false) (hsize : c.MaxPayloadSize = 256)
    (hlink : c.connected = true
      ∨ ((w.exchange k).dial = none ∧ (w.exchange k).handshake = none)) :
    ∃ run, APNS.token w n auth k devToken st = APNSStep.done run
      ∧ NetEvent.write (APNS.pdu (APNS.expiry n (w.exchange k).now) T (bytesOf P))
          ∈ run.events := by
  unfold APNS.token
  simp only [hT, hP, hmu, hpool, if_false, Bool.false_eq_true]
  exact APNS.send_writes (w.exchange k) n devToken T (bytesOf P) pool _ c cs hconn hcmu
    (by rw [hsize]; omega) hlink

/-- On an adapter with a free lock and a made pool map without a pool for the
app, when the certificate parses and the connection is made, a pass of the
loop body writes the PDU. -/
theorem APNS.token_writes (w : APNSWorld) (n : Notification) (auth : String) (k : Nat)
    (devToken : String) (st : APNSLoop) (T : List Nat) (P : String)
    (es : List (String × APNSConnPool))
    (hT : DecodeString devToken = Except.ok T)
    (hP : n.Payload.get? "payload" = some (GoValue.str P))
    (hlen : (bytesOf P).length ≤ 256)
    (hmu : st.apns.mu = false) (hmade : st.apns.Pool = GoMap.made es)
    (hpool : st.apns.Pool.get? n.AppName = none)
    (hcert : w.X509KeyPair auth auth = none)
    (hdial : (w.exchange k).dial = none) (hhs : (w.exchange k).handshake = none) :
    ∃ run, APNS.token w n auth k devToken st = APNSStep.done run
      ∧ NetEvent.write (APNS.pdu (APNS.expiry n (w.exchange k).now) T (bytesOf P))
          ∈ run.events := by
  rw [hmade] at hpool
  unfold APNS.token
  simp only [hT, hP, hmu, hmade, hpool, NewAPNSConnPool_ok w auth auth hcert, if_false,
    Bool.false_eq_true, GoMap.assign]
  exact APNS.send_writes (w.exchange k) n devToken T (bytesOf P)
    { conn := List.replicate 20 (newClient auth auth), nClients := 20 } _ (newClient auth auth)
    (List.replicate 19 (newClient auth auth)) rfl rfl
    (by
      have h256 : (newClient auth auth).MaxPayloadSize = 256 := rfl
      rw [h256]
      omega)
    (Or.inr ⟨hdial, hhs⟩)

/-- On an adapter whose pool map is nil, a call that gets as far as making the
pool panics on the assignment to the map: nothing is written, and the lock
`a.mu` stays held. -/
theorem APNS_Push_nil_pool_panics (a : APNS) (w : APNSWorld) (n : Notification)
    (auth devToken : String) (rest : List String) (T : List Nat) (P : String)
    (ht : n.DeviceTokens = devToken :: rest)
    (hT : DecodeString devToken = Except.ok T)
    (hP : n.Payload.get? "payload" = some (GoValue.str P))
    (hmu : a.mu = false) (hnil : a.Pool = GoMap.nil)
    (hcert : w.X509KeyPair auth auth = none) :
    (APNS.Push a w n auth).outcome = Outcome.panicked "assignment to entry in nil map"
      ∧ (APNS.Push a w n auth).events = [] ∧ (APNS.Push a w n auth).apns.mu = true := by
  have hget : (GoMap.nil : GoMap APNSConnPool).get? n.AppName = none := rfl
  have hpush : APNS.Push a w n auth
      = { outcome := Outcome.panicked "assignment to entry in nil map",
          apns := { a with mu := true }, events := [] } := by
    simp [APNS.Push, ht, APNS.tokens, APNS.token, hT, hP, hmu, hnil, hget,
      NewAPNSConnPool_ok w auth auth hcert, GoMap.assign, APNSLoop.panic,
      APNS.runDeferred]
  rw [hpush]
  exact ⟨rfl, rfl, rfl⟩

/-- C8: for a first device token that is valid hex for the bytes `T` and a
payload string `P` of at most 256 bytes, every PDU `APNS.Push` writes to the
socket is: the byte 1, then 1 in 4 bytes big-endian, then the expiry in 4
bytes big-endian (the notification's `Expiry` when it is not 0, else the
current Unix time plus 3600), then the length of `T` in 2 bytes big-endian and
`T`, then the length of `P` in 2 bytes big-endian and `P`; its length is
`13 + len(T) + len(P)`.  Such a PDU is written on both ways to a socket, the
lock of the adapter being free: when the app has a pool whose front socket is
unlocked, takes 256 bytes and is connected or gets connected; and when the
pool map is made and has no pool for the app, the certificate parses and the
connection is made. -/
theorem APNS_Push_pdu (a : APNS) (w : APNSWorld) (n : Notification) (auth devToken : String)
    (rest : List String) (T : List Nat) (P : String)
    (ht : n.DeviceTokens = devToken :: rest)
    (hT : DecodeString devToken = Except.ok T)
    (hP : n.Payload.get? "payload" = some (GoValue.str P))
    (hlen : (bytesOf P).length ≤ 256) :
    (∀ pdu, NetEvent.write pdu ∈ (APNS.Push a w n auth).events →
        pdu = [1] ++ [0, 0, 0, 1]
                ++ bigEndian 4 (if n.Expiry ≠ 0 then n.Expiry else (w.exchange 0).now + 3600)
                ++ bigEndian 2 T.length ++ T
                ++ bigEndian 2 (bytesOf P).length ++ bytesOf P
          ∧ pdu.length = 13 + T.length + (bytesOf P).length)
      ∧ (a.mu = false → ∀ (pool : APNSConnPool) (c : APNSConn) (cs : List APNSConn),
          a.Pool.get? n.AppName = some pool → pool.conn = c :: cs →
          c.mu = false → c.MaxPayloadSize = 256 →
          (c.connected = true
            ∨ ((w.exchange 0).dial = none ∧ (w.exchange 0).handshake = none)) →
          ∃ pdu, NetEvent.write pdu ∈ (APNS.Push a w n auth).events)
      ∧ (a.mu = false → ∀ es : List (String × APNSConnPool), a.Pool = GoMap.made es →
          a.Pool.get? n.AppName = none → w.X509KeyPair auth auth = none →
          (w.exchange 0).dial = none → (w.exchange 0).handshake = none →
          ∃ pdu, NetEvent.write pdu ∈ (APNS.Push a w n auth).events) := by
  refine ⟨?_, ?_, ?_⟩
  · intro pdu hmem
    obtain ⟨run, hrun, hw⟩ := APNS.token_write w n auth 0 devToken
      { apns := a, ps := NewPushStatus, held := [], events := [] } T P (by simp) hT hP
    have hpush : APNS.Push a w n auth = run := by
      simp [APNS.Push, ht, APNS.tokens, hrun]
    rw [hpush] at hmem
    have hpdu := hw pdu hmem
    have hshape : pdu = [1] ++ [0, 0, 0, 1]
        ++ bigEndian 4 (if n.Expiry ≠ 0 then n.Expiry else (w.exchange 0).now + 3600)
        ++ bigEndian 2 T.length ++ T ++ bigEndian 2 (bytesOf P).length ++ bytesOf P := by
      rw [hpdu, APNS.pdu, bigEndian_expiry]
      rfl
    refine ⟨hshape, ?_⟩
    rw [hshape]
    simp only [List.length_append, bigEndian_length, List.length_cons, List.length_nil]
    omega
  · intro hmu pool c cs hpool hconn hcmu hsize hlink
    obtain ⟨run, hrun, hw⟩ := APNS.token_writes_pooled w n auth 0 devToken
      { apns := a, ps := NewPushStatus, held := [], events := [] } T P pool c cs hT hP hlen hmu
      hpool hconn hcmu hsize hlink
    have hpush : APNS.Push a w n auth = run := by
      simp [APNS.Push, ht, APNS.tokens, hrun]
    rw [hpush]
    exact ⟨_, hw⟩
  · intro hmu es hmade hpool hcert hdial hhs
    obtain ⟨run, hrun, hw⟩ := APNS.token_writes w n auth 0 devToken
      { apns := a, ps := NewPushStatus, held := [], events := [] } T P es hT hP hlen hmu hmade
      hpool hcert hdial hhs
    have hpush : APNS.Push a w n auth = run := by
      simp [APNS.Push, ht, APNS.tokens, hrun]
    rw [hpush]
    exact ⟨_, hw⟩

/-- C8 at a sample job: the token `0aff`, the payload `hi`, no expiry given,
the clock at 1700000000, on an adapter without a pool for the app and on an
adapter with one. -/
theorem APNS_Push_pdu_witness :
    (apnsJob.DeviceTokens = "0aff" :: [] ∧ DecodeString "0aff" = Except.ok [10, 255]
        ∧ apnsJob.Payload.get? "payload" = some (GoValue.str "hi")
        ∧ (bytesOf "hi").length ≤ 256)
      ∧ NetEvent.write [1, 0, 0, 0, 1, 101, 83, 255, 16, 0, 2, 10, 255, 0, 2, 104, 105]
          ∈ (APNS.Push freshAPNS quietAPNSWorld apnsJob "cert").events
      ∧ (∀ pdu, NetEvent.write pdu ∈ (APNS.Push freshAPNS quietAPNSWorld apnsJob "cert").events →
          pdu = [1, 0, 0, 0, 1, 101, 83, 255, 16, 0, 2, 10, 255, 0, 2, 104, 105])
      ∧ (∃ pdu, NetEvent.write pdu
          ∈ (APNS.Push freshAPNS quietAPNSWorld apnsJob "cert").events)
      ∧ NetEvent.write [1, 0, 0, 0, 1, 101, 83, 255, 16, 0, 2, 10, 255, 0, 2, 104, 105]
          ∈ (APNS.Push pooledAPNS quietAPNSWorld apnsJob "cert").events
      ∧ (∃ pdu, NetEvent.write pdu
          ∈ (APNS.Push pooledAPNS quietAPNSWorld apnsJob "cert").events) := by
  have hfresh := APNS_Push_pdu freshAPNS quietAPNSWorld apnsJob "cert" "0aff" [] [10, 255] "hi"
    rfl rfl rfl (by decide)
  have hpooled := APNS_Push_pdu pooledAPNS quietAPNSWorld apnsJob "cert" "0aff" [] [10, 255]
    "hi" rfl rfl rfl (by decide)
  refine ⟨⟨rfl, rfl, rfl, by decide⟩, by decide, fun pdu hmem => ?_, ?_, by decide, ?_⟩
  · rw [(hfresh.1 pdu hmem).1]
    decide
  · exact hfresh.2.2 rfl [] rfl rfl rfl rfl rfl
  · exact hpooled.2.1 rfl { conn := List.replicate 20 (newClient "cert" "cert"), nClients := 20 }
      (newClient "cert" "cert") (List.replicate 19 (newClient "cert" "cert")) rfl rfl rfl rfl
      (Or.inr ⟨rfl, rfl⟩)

end Manbearpig
